import Mathlib

/-!
# telegram-bot-moex: indicator engine and signal detection

A shallow embedding of `internal/analysis` (`ma_crossover.go`, `turtle_strategy.go`,
`utils.go`), of the configuration validation (`internal/config/validation.go`) and of the
HTML escaping of the bot (`internal/bot/handlers_utils.go`).

Modelling conventions.

* `float64` values are rationals (`ℚ`): every formula is read in exact arithmetic, so
  rounding, overflow, infinities and NaN are outside the model.  A float division whose
  divisor is zero yields `0` in `ℚ` (it never panics in Go either); the theorems below only
  divide by quantities that their hypotheses keep non-zero, or concern fields that do not
  depend on the quotient.  The one comparison that depends on a quotient whose divisor can
  be zero, the volume test of `filterByVolume`, is modelled with its float outcome
  (`quotientAtLeast`).
* Go `int` values are `Int`.  Lengths and indices stay far inside the 64-bit range, so their
  arithmetic is exact.  A period is a free parameter of the indicator functions: the sum
  `period+1` of the length guards of `calculateATR`, `calculateRSI` and
  `MathUtils.CalculateATR`, the first `int` expression these functions evaluate, is taken
  with its 64-bit wrap (`wrapInt`), which decides the outcome at the largest `int`.  The
  other sums and differences that involve a parameter (`period-1`, `len-days`,
  `len-atrPeriod`, `SlowPeriod+20`) are exact: they are read for parameters far inside the
  64-bit range.  The theorems on the Turtle strategy that depend on the value of its ATR keep
  `atrPeriod ≥ 1`, as configuration validation does.
* A slice is a `List`.  A read or write outside `0 ≤ i < len`, or a slice expression with bad
  bounds, is a run-time panic; it is modelled by `none`.  A function that can panic returns
  `Option`.
* A counted `for` loop is `forLoop lo hi body init`, running `body` for `i = lo, …, hi-1`.
* A Go `error` result is a `Result Unit`, the text of the error being its message; `%w`
  wrapping concatenates the messages.
* A `range` over a map visits the entries in an order Go leaves unspecified; the order is a
  parameter of the model, a permutation of the entries of the map literal.
-/

namespace MoexBot

/-! ## Slices and loops -/

/-- Go `xs[i]` as a read: an index fault (`none`) unless `0 ≤ i < len(xs)`. -/
def getF {α : Type} (xs : List α) (i : Int) : Option α :=
  if 0 ≤ i then xs[i.toNat]? else none

/-- Go `xs[i] = v`: an index fault (`none`) unless `0 ≤ i < len(xs)`. -/
def setF {α : Type} (xs : List α) (i : Int) (v : α) : Option (List α) :=
  if 0 ≤ i ∧ i < (xs.length : Int) then some (xs.set i.toNat v) else none

/-- Go `xs[lo:]`: a slice-bounds fault (`none`) unless `0 ≤ lo ≤ len(xs)`. -/
def sliceFrom {α : Type} (xs : List α) (lo : Int) : Option (List α) :=
  if 0 ≤ lo ∧ lo ≤ (xs.length : Int) then some (xs.drop lo.toNat) else none

/-- Runs `body lo`, `body (lo+1)`, …, `n` times, threading the state; stops at a fault. -/
def forRange {σ : Type} (lo : Int) (n : Nat) (body : Int → σ → Option σ) (s : σ) : Option σ :=
  match n with
  | 0 => some s
  | k + 1 => (body lo s).bind (forRange (lo + 1) k body)

/-- Go `for i := lo; i < hi; i++ { body }`. -/
def forLoop {σ : Type} (lo hi : Int) (body : Int → σ → Option σ) (s : σ) : Option σ :=
  forRange lo (hi - lo).toNat body s

/-- Go `make([]float64, n)`: a zero-filled slice. -/
def makeFloats (n : Nat) : List ℚ := List.replicate n 0

/-- The value of a Go `int` expression whose exact result is `x`: the 64-bit two's-complement
integer congruent to `x` modulo `2^64`. -/
def wrapInt (x : Int) : Int :=
  (x + 9223372036854775808) % 18446744073709551616 - 9223372036854775808

/-! ## Indicator engine (`ma_crossover.go`) -/

/-- Source `MACrossoverStrategy.calculateSMA` (ma_crossover.go:189-209). -/
def calculateSMA (data : List ℚ) (period : Int) : Option (List ℚ) :=
  if (data.length : Int) < period then some (makeFloats data.length)
  else do
    let sma := makeFloats data.length
    let sma ← forLoop (period - 1) data.length (fun i sma => do
      let sum ← forLoop (i - period + 1) (i + 1) (fun j sum => do
        let d ← getF data j
        pure (sum + d)) (0 : ℚ)
      setF sma i (sum / (period : ℚ))) sma
    forLoop 0 (period - 1) (fun i sma => do
      let d ← getF data i
      setF sma i d) sma

/-- Source `MACrossoverStrategy.calculateEMA` (ma_crossover.go:212-238). -/
def calculateEMA (data : List ℚ) (period : Int) : Option (List ℚ) :=
  if (data.length : Int) < period then some (makeFloats data.length)
  else do
    let ema := makeFloats data.length
    let multiplier : ℚ := 2 / ((period : ℚ) + 1)
    let sum ← forLoop 0 period (fun i sum => do
      let d ← getF data i
      pure (sum + d)) (0 : ℚ)
    let ema ← setF ema (period - 1) (sum / (period : ℚ))
    let ema ← forLoop period data.length (fun i ema => do
      let d ← getF data i
      let p ← getF ema (i - 1)
      setF ema i ((d - p) * multiplier + p)) ema
    forLoop 0 (period - 1) (fun i ema => do
      let d ← getF data i
      setF ema i d) ema

/-- The true-range loop shared by both ATR functions: fills `tr[1..len(highs)-1]`. -/
def trueRangeLoop (highs lows closes : List ℚ) (tr : List ℚ) : Option (List ℚ) :=
  forLoop 1 highs.length (fun i tr => do
    let h ← getF highs i
    let l ← getF lows i
    let c ← getF closes (i - 1)
    let hl := h - l
    let hcp := |h - c|
    let lcp := |l - c|
    setF tr i (max hl (max hcp lcp))) tr

/-- Source `MACrossoverStrategy.calculateATR` (ma_crossover.go:241-275).  The `period+1` of
the guard is an `int` sum: at the largest `int` it wraps to the smallest one, the guard is
false and the seed loop `i <= period` runs until it leaves `tr`. -/
def calculateATR (highs lows closes : List ℚ) (period : Int) : Option (List ℚ) :=
  if (highs.length : Int) < wrapInt (period + 1) then some (makeFloats highs.length)
  else do
    let tr := makeFloats highs.length
    let atr := makeFloats highs.length
    let tr ← trueRangeLoop highs lows closes tr
    let sum ← forLoop 1 (period + 1) (fun i sum => do
      let t ← getF tr i
      pure (sum + t)) (0 : ℚ)
    let atr ← setF atr period (sum / (period : ℚ))
    let atr ← forLoop (period + 1) highs.length (fun i atr => do
      let p ← getF atr (i - 1)
      let t ← getF tr i
      setF atr i ((p * ((period - 1 : Int) : ℚ) + t) / (period : ℚ))) atr
    forLoop 0 (period + 1) (fun i atr => do
      let t ← getF tr i
      setF atr i t) atr

/-- The gains/losses loop of `calculateRSI` (ma_crossover.go:288-297). -/
def gainLossLoop (closes : List ℚ) (gl : List ℚ × List ℚ) : Option (List ℚ × List ℚ) :=
  forLoop 1 closes.length (fun i gl => do
    let c ← getF closes i
    let p ← getF closes (i - 1)
    let change := c - p
    if change > 0 then do
      let gains ← setF gl.1 i change
      let losses ← setF gl.2 i 0
      pure (gains, losses)
    else do
      let gains ← setF gl.1 i 0
      let losses ← setF gl.2 i (-change)
      pure (gains, losses)) gl

/-- The RSI value from the two running averages (ma_crossover.go:310-315, 322-327). -/
def rsiValue (avgGain avgLoss : ℚ) : ℚ :=
  if avgLoss = 0 then 100 else 100 - 100 / (1 + avgGain / avgLoss)

/-- Source `MACrossoverStrategy.calculateRSI` (ma_crossover.go:278-336).  The loop state of the
smoothing loop is `(avgGain, avgLoss, rsi)`.  The `period+1` of the guard is an `int` sum,
taken with its wrap. -/
def calculateRSI (closes : List ℚ) (period : Int) : Option (List ℚ) :=
  if (closes.length : Int) < wrapInt (period + 1) then some (makeFloats closes.length)
  else do
    let rsi := makeFloats closes.length
    let gains := makeFloats closes.length
    let losses := makeFloats closes.length
    let gl ← gainLossLoop closes (gains, losses)
    let sums ← forLoop 1 (period + 1) (fun i (acc : ℚ × ℚ) => do
      let g ← getF gl.1 i
      let l ← getF gl.2 i
      pure (acc.1 + g, acc.2 + l)) ((0 : ℚ), (0 : ℚ))
    let avgGain := sums.1 / (period : ℚ)
    let avgLoss := sums.2 / (period : ℚ)
    let rsi ← setF rsi period (rsiValue avgGain avgLoss)
    let st ← forLoop (period + 1) closes.length
      (fun i (st : ℚ × ℚ × List ℚ) => do
        let g ← getF gl.1 i
        let l ← getF gl.2 i
        let avgGain := (st.1 * ((period - 1 : Int) : ℚ) + g) / (period : ℚ)
        let avgLoss := (st.2.1 * ((period - 1 : Int) : ℚ) + l) / (period : ℚ)
        let rsi ← setF st.2.2 i (rsiValue avgGain avgLoss)
        pure (avgGain, avgLoss, rsi)) (avgGain, avgLoss, rsi)
    forLoop 0 period (fun i rsi => setF rsi i 50) st.2.2

/-! ## Collaborators from the standard library

`time.Now`, `time.Parse`, `Time.Format` and the `fmt` verbs are not part of the repository;
they are parameters of the model, collected in `Env`. -/

/-- A `time.Time`, as a count of seconds; the zero value (`IsZero`) is `0`. -/
abbrev Time := Int

/-- The standard-library functions the analysis calls. -/
structure Env where
  /-- The value of `time.Now()` (one reading per analysis). -/
  now : Time
  /-- The function `time.Parse(layout, value)`; `none` when it returns an error. -/
  parseTime : String → String → Option Time
  /-- The verb `%.Nf` applied to a float. -/
  fmtFloat : Nat → ℚ → String
  /-- The verb `%d` applied to an int. -/
  fmtInt : Int → String
  /-- The method `t.Format(layout)`. -/
  fmtTime : String → Time → String

/-- A plain environment for evaluating the model on concrete inputs. -/
def Env.plain : Env where
  now := 1
  parseTime := fun _ _ => none
  fmtFloat := fun _ _ => "#"
  fmtInt := fun _ => "#"
  fmtTime := fun _ _ => "#"

/-- The whole days in `a.Sub(b).Hours()/24`, truncated toward zero as `int(...)` does. -/
def daysBetween (a b : Time) : Int := Int.tdiv (a - b) 86400

/-! ## Data model -/

/-- Source `Signal` (turtle_strategy.go:25-34). -/
structure Signal where
  Instrument : String
  SignalType : String
  Price : ℚ
  StopLoss : ℚ
  TakeProfit : ℚ
  PositionSize : ℚ
  Reason : String
  Timestamp : Time
  deriving DecidableEq

/-- A dynamically typed value of a candle field (`interface{}`). -/
inductive Value where
  | float (x : ℚ)
  | int (n : Int)
  | str (s : String)
  | other
  deriving DecidableEq

/-- A candle, `map[string]interface{}`, restricted to the keys the analysis reads; `none` is
a missing key. -/
structure Candle where
  close : Option Value
  high : Option Value
  low : Option Value
  volume : Option Value
  begin : Option Value
  deriving DecidableEq

/-- The outcome of a Go function returning `(value, error)`. -/
inductive Result (α : Type) where
  | ok (value : α)
  | error (msg : String)
  deriving DecidableEq

/-! ## `MathUtils` (`utils.go`) -/

/-- Source `MathUtils.MaxFloat` (utils.go:9-20). -/
def MaxFloat (values : List ℚ) : ℚ :=
  match values with
  | [] => 0
  | v0 :: _ => values.foldl (fun maxVal v => if v > maxVal then v else maxVal) v0

/-- Source `MathUtils.MinFloat` (utils.go:23-34). -/
def MinFloat (values : List ℚ) : ℚ :=
  match values with
  | [] => 0
  | v0 :: _ => values.foldl (fun minVal v => if v < minVal then v else minVal) v0

/-- Source `MathUtils.MaxInt` (utils.go:37-42). -/
def MaxInt (a b : Int) : Int := if a > b then a else b

/-- Source `MathUtils.CalculateATR` (utils.go:45-88): the same computation as
`MACrossoverStrategy.calculateATR`, the maximum of the three ranges being taken by two
comparisons; the `period+1` of the guard is taken with its wrap. -/
def CalculateATR (highs lows closes : List ℚ) (period : Int) : Option (List ℚ) :=
  if (highs.length : Int) < wrapInt (period + 1) then some (makeFloats highs.length)
  else do
    let tr := makeFloats highs.length
    let atr := makeFloats highs.length
    let tr ← forLoop 1 highs.length (fun i tr => do
      let h ← getF highs i
      let l ← getF lows i
      let c ← getF closes (i - 1)
      let hl := h - l
      let hcp := |h - c|
      let lcp := |l - c|
      let maxVal := hl
      let maxVal := if hcp > maxVal then hcp else maxVal
      let maxVal := if lcp > maxVal then lcp else maxVal
      setF tr i maxVal) tr
    let sum ← forLoop 1 (period + 1) (fun i sum => do
      let t ← getF tr i
      pure (sum + t)) (0 : ℚ)
    let atr ← setF atr period (sum / (period : ℚ))
    let atr ← forLoop (period + 1) highs.length (fun i atr => do
      let p ← getF atr (i - 1)
      let t ← getF tr i
      setF atr i ((p * ((period - 1 : Int) : ℚ) + t) / (period : ℚ))) atr
    forLoop 0 (period + 1) (fun i atr => do
      let t ← getF tr i
      setF atr i t) atr

/-! ## Turtle strategy (`turtle_strategy.go`) -/

/-- Source `TurtleStrategy` (turtle_strategy.go:13-22), without the API client. -/
structure TurtleStrategy where
  lookbackPeriod : Int
  entryBreakoutDays : Int
  exitBreakoutDays : Int
  atrPeriod : Int
  atrMultiplier : ℚ
  riskPerTrade : ℚ
  deriving DecidableEq

namespace TurtleStrategy

/-- Source `TurtleStrategy.calculateBreakout` (turtle_strategy.go:284-296). -/
def calculateBreakout (_ts : TurtleStrategy) (prices : List ℚ) (days : Int)
    (priceType : String) : Option ℚ :=
  if (prices.length : Int) < days then some 0
  else do
    let recentPrices ← sliceFrom prices ((prices.length : Int) - days)
    if priceType = "high" then pure (MaxFloat recentPrices)
    else pure (MinFloat recentPrices)

/-- The backward scan of `findBreakoutDate` (turtle_strategy.go:267-273): `k` is the number
of cells still to visit, the cell visited next is `k-1`; the zero time means "not found". -/
def scanBack (recentPrices : List ℚ) (recentDates : List Time) (breakoutLevel : ℚ) :
    Nat → Option Time
  | 0 => some 0
  | k + 1 => do
    let p ← getF recentPrices (k : Int)
    if |p - breakoutLevel| < 1 / 1000 then getF recentDates (k : Int)
    else scanBack recentPrices recentDates breakoutLevel k

/-- Source `TurtleStrategy.findBreakoutDate` (turtle_strategy.go:257-281). -/
def findBreakoutDate (_ts : TurtleStrategy) (env : Env) (dates : List Time) (prices : List ℚ)
    (breakoutLevel : ℚ) (days : Int) : Option Time :=
  if (prices.length : Int) < days then some env.now
  else do
    let recentPrices ← sliceFrom prices ((prices.length : Int) - days)
    let recentDates ← sliceFrom dates ((dates.length : Int) - days)
    let foundDate ← scanBack recentPrices recentDates breakoutLevel recentPrices.length
    if foundDate = 0 then getF recentDates ((recentDates.length : Int) / 2)
    else pure foundDate

/-- Source `TurtleStrategy.calculateATR` (turtle_strategy.go:299-325): the mean of the last
`atrPeriod` true ranges.  The value is a number for `atrPeriod ≥ 1`; at `atrPeriod = 0` the
float quotient `sum / 0` is NaN, which the rationals do not hold, so the theorems that use
the value keep `atrPeriod ≥ 1`. -/
def calculateATR (ts : TurtleStrategy) (highs lows closes : List ℚ) : Option ℚ :=
  if (highs.length : Int) < ts.atrPeriod + 1 then some 0
  else do
    let trValues ← forLoop 1 highs.length (fun i (trValues : List ℚ) => do
      let h ← getF highs i
      let l ← getF lows i
      let c ← getF closes (i - 1)
      let hl := h - l
      let hcp := |h - c|
      let lcp := |l - c|
      let tr := max hl (max hcp lcp)
      pure (trValues ++ [tr])) []
    if (trValues.length : Int) < ts.atrPeriod then some 0
    else do
      let sum ← forLoop ((trValues.length : Int) - ts.atrPeriod) trValues.length
        (fun i sum => do
          let t ← getF trValues i
          pure (sum + t)) (0 : ℚ)
      pure (sum / (ts.atrPeriod : ℚ))

/-- Source `TurtleStrategy.calculatePositionSize` (turtle_strategy.go:328-343). -/
def calculatePositionSize (ts : TurtleStrategy) (entryPrice stopLoss : ℚ) : ℚ :=
  if stopLoss = 0 then 0
  else
    let riskPerUnit := |entryPrice - stopLoss|
    if riskPerUnit = 0 then 0
    else
      let accountSize : ℚ := 100000
      let riskAmount := accountSize * ts.riskPerTrade
      riskAmount / riskPerUnit

/-- The float read by `candle[key].(float64)`; the array cell keeps its zero otherwise. -/
def floatField (v : Option Value) : ℚ :=
  match v with
  | some (Value.float x) => x
  | _ => 0

/-- The date read from `candle["begin"]` (turtle_strategy.go:83-87); the zero time when the
key is missing, is not a string or does not parse. -/
def beginField (env : Env) (v : Option Value) : Time :=
  match v with
  | some (Value.str s) =>
    match env.parseTime "2006-01-02 15:04:05" s with
    | some t => t
    | none => 0
  | _ => 0

/-- The text of a level line, e.g. `entryHighInfo` (turtle_strategy.go:109-116). -/
def levelInfo (env : Env) (label : String) (level : ℚ) (date : Time) : String :=
  label ++ env.fmtFloat 2 level ++ " (дата установки: " ++ env.fmtTime "02.01.2006" date ++ ")"

/-- The rationale of an entry signal (turtle_strategy.go:128-133, 156-161). -/
def entryReason (env : Env) (info cmp word : String) (currentPrice level distance
    distancePercent atr stopLoss stopPercent takeProfit : ℚ) : String :=
  info ++ "\nТекущая цена: " ++ env.fmtFloat 2 currentPrice ++ cmp ++ env.fmtFloat 2 level
    ++ " (" ++ word ++ " на " ++ env.fmtFloat 2 distance ++ "₽ / "
    ++ env.fmtFloat 2 distancePercent ++ "%)\nATR: " ++ env.fmtFloat 2 atr
    ++ " | Стоп-лосс: " ++ env.fmtFloat 2 stopLoss ++ " (" ++ env.fmtFloat 2 stopPercent
    ++ "% от цены)\nТейк-профит: " ++ env.fmtFloat 2 takeProfit ++ " (риск:прибыль = 1:2)"

/-- The rationale of an exit signal (turtle_strategy.go:180-184, 199-203). -/
def exitReason (env : Env) (info cmp word : String) (currentPrice level distance
    distancePercent : ℚ) (days : Int) : String :=
  info ++ "\nТекущая цена: " ++ env.fmtFloat 2 currentPrice ++ cmp ++ env.fmtFloat 2 level
    ++ " (" ++ word ++ " на " ++ env.fmtFloat 2 distance ++ "₽ / "
    ++ env.fmtFloat 2 distancePercent ++ "%)\nВремя удержания уровня: " ++ env.fmtInt days
    ++ " дней"

/-- The rationale of the `no_signal` record (turtle_strategy.go:216-242). -/
def noSignalReason (env : Env) (instrument : String) (currentPrice atr entryHigh entryLow
    exitLow exitHigh : ℚ) (entryHighDate entryLowDate exitLowDate exitHighDate : Time) :
    String :=
  "Анализ инструмента " ++ instrument ++ "\n\n📊 ТЕКУЩИЕ УРОВНИ:\n• Цена: "
    ++ env.fmtFloat 2 currentPrice ++ "\n• ATR: " ++ env.fmtFloat 2 atr
    ++ " (волатильность)\n\n🎯 УРОВНИ ВХОДА:\n• Для покупки: > " ++ env.fmtFloat 2 entryHigh
    ++ " (" ++ env.fmtTime "02.01" entryHighDate ++ ")\n• Для продажи: < "
    ++ env.fmtFloat 2 entryLow ++ " (" ++ env.fmtTime "02.01" entryLowDate
    ++ ")\n\n🚪 УРОВНИ ВЫХОДА:\n• Из покупки: < " ++ env.fmtFloat 2 exitLow
    ++ " (" ++ env.fmtTime "02.01" exitLowDate ++ ")\n• Из продажи: > "
    ++ env.fmtFloat 2 exitHigh ++ " (" ++ env.fmtTime "02.01" exitHighDate
    ++ ")\n\n📈 РАССТОЯНИЕ ДО УРОВНЕЙ:\n• До входа в лонг: "
    ++ env.fmtFloat 2 (entryHigh - currentPrice) ++ " ("
    ++ env.fmtFloat 2 (((entryHigh - currentPrice) / currentPrice) * 100)
    ++ "%)\n• До входа в шорт: " ++ env.fmtFloat 2 (currentPrice - entryLow) ++ " ("
    ++ env.fmtFloat 2 (((currentPrice - entryLow) / currentPrice) * 100)
    ++ "%)\n• До выхода из лонг: " ++ env.fmtFloat 2 (currentPrice - exitLow) ++ " ("
    ++ env.fmtFloat 2 (((currentPrice - exitLow) / currentPrice) * 100)
    ++ "%)\n• До выхода из шорт: " ++ env.fmtFloat 2 (exitHigh - currentPrice) ++ " ("
    ++ env.fmtFloat 2 (((exitHigh - currentPrice) / currentPrice) * 100)
    ++ "%)\n\n💡 РЕКОМЕНДАЦИЯ: Ожидание пробоя уровней"

/-- The levels and readings computed by `AnalyzeInstrument` before it classifies the latest
close (turtle_strategy.go:91-104). -/
structure Levels where
  entryBreakoutHigh : ℚ
  entryBreakoutLow : ℚ
  exitBreakoutHigh : ℚ
  exitBreakoutLow : ℚ
  atr : ℚ
  entryBreakoutHighDate : Time
  entryBreakoutLowDate : Time
  exitBreakoutHighDate : Time
  exitBreakoutLowDate : Time
  currentPrice : ℚ
  currentDate : Time

/-- The `entry_long` record (turtle_strategy.go:119-145). -/
def entryLongSignal (ts : TurtleStrategy) (env : Env) (instrument : String) (lv : Levels) :
    Signal :=
  let entryHighInfo :=
    levelInfo env "Прорыв входа для лонга: " lv.entryBreakoutHigh lv.entryBreakoutHighDate
  let stopLoss := lv.currentPrice - (lv.atr * ts.atrMultiplier)
  let takeProfit := lv.currentPrice + (2 * (lv.currentPrice - stopLoss))
  let positionSize := ts.calculatePositionSize lv.currentPrice stopLoss
  let distance := lv.currentPrice - lv.entryBreakoutHigh
  let distancePercent := (distance / lv.entryBreakoutHigh) * 100
  let reason := entryReason env entryHighInfo " > " "превышение" lv.currentPrice
    lv.entryBreakoutHigh distance distancePercent lv.atr stopLoss
    (((lv.currentPrice - stopLoss) / lv.currentPrice) * 100) takeProfit
  { Instrument := instrument, SignalType := "entry_long", Price := lv.currentPrice,
    StopLoss := stopLoss, TakeProfit := takeProfit, PositionSize := positionSize,
    Reason := reason, Timestamp := env.now }

/-- The `entry_short` record (turtle_strategy.go:147-173). -/
def entryShortSignal (ts : TurtleStrategy) (env : Env) (instrument : String) (lv : Levels) :
    Signal :=
  let entryLowInfo :=
    levelInfo env "Прорыв входа для шорта: " lv.entryBreakoutLow lv.entryBreakoutLowDate
  let stopLoss := lv.currentPrice + (lv.atr * ts.atrMultiplier)
  let takeProfit := lv.currentPrice - (2 * (stopLoss - lv.currentPrice))
  let positionSize := ts.calculatePositionSize lv.currentPrice stopLoss
  let distance := lv.entryBreakoutLow - lv.currentPrice
  let distancePercent := (distance / lv.entryBreakoutLow) * 100
  let reason := entryReason env entryLowInfo " < " "недобор" lv.currentPrice
    lv.entryBreakoutLow distance distancePercent lv.atr stopLoss
    (((stopLoss - lv.currentPrice) / lv.currentPrice) * 100) takeProfit
  { Instrument := instrument, SignalType := "entry_short", Price := lv.currentPrice,
    StopLoss := stopLoss, TakeProfit := takeProfit, PositionSize := positionSize,
    Reason := reason, Timestamp := env.now }

/-- The `exit_long` record (turtle_strategy.go:176-193). -/
def exitLongSignal (env : Env) (instrument : String) (lv : Levels) : Signal :=
  let exitLowInfo :=
    levelInfo env "Прорыв выхода для лонга: " lv.exitBreakoutLow lv.exitBreakoutLowDate
  let distance := lv.exitBreakoutLow - lv.currentPrice
  let distancePercent := (distance / lv.exitBreakoutLow) * 100
  let reason := exitReason env exitLowInfo " < " "недобор" lv.currentPrice
    lv.exitBreakoutLow distance distancePercent
    (daysBetween lv.currentDate lv.exitBreakoutLowDate)
  { Instrument := instrument, SignalType := "exit_long", Price := lv.currentPrice,
    StopLoss := 0, TakeProfit := 0, PositionSize := 0, Reason := reason,
    Timestamp := env.now }

/-- The `exit_short` record (turtle_strategy.go:195-212). -/
def exitShortSignal (env : Env) (instrument : String) (lv : Levels) : Signal :=
  let exitHighInfo :=
    levelInfo env "Прорыв выхода для шорта: " lv.exitBreakoutHigh lv.exitBreakoutHighDate
  let distance := lv.currentPrice - lv.exitBreakoutHigh
  let distancePercent := (distance / lv.exitBreakoutHigh) * 100
  let reason := exitReason env exitHighInfo " > " "превышение" lv.currentPrice
    lv.exitBreakoutHigh distance distancePercent
    (daysBetween lv.currentDate lv.exitBreakoutHighDate)
  { Instrument := instrument, SignalType := "exit_short", Price := lv.currentPrice,
    StopLoss := 0, TakeProfit := 0, PositionSize := 0, Reason := reason,
    Timestamp := env.now }

/-- The `no_signal` record (turtle_strategy.go:215-251). -/
def noSignal (env : Env) (instrument : String) (lv : Levels) : Signal :=
  let reason := noSignalReason env instrument lv.currentPrice lv.atr lv.entryBreakoutHigh
    lv.entryBreakoutLow lv.exitBreakoutLow lv.exitBreakoutHigh lv.entryBreakoutHighDate
    lv.entryBreakoutLowDate lv.exitBreakoutLowDate lv.exitBreakoutHighDate
  { Instrument := instrument, SignalType := "no_signal", Price := lv.currentPrice,
    StopLoss := 0, TakeProfit := 0, PositionSize := 0, Reason := reason,
    Timestamp := env.now }

/-- The classification of the latest close against the four levels
(turtle_strategy.go:106-253): four independent tests, each appending one record, then the
`no_signal` record when nothing was appended. -/
def classify (ts : TurtleStrategy) (env : Env) (instrument : String) (lv : Levels) :
    List Signal :=
  let signals : List Signal := []
  let signals :=
    if lv.currentPrice ≥ lv.entryBreakoutHigh then
      signals ++ [entryLongSignal ts env instrument lv]
    else signals
  let signals :=
    if lv.currentPrice ≤ lv.entryBreakoutLow then
      signals ++ [entryShortSignal ts env instrument lv]
    else signals
  let signals :=
    if lv.currentPrice ≤ lv.exitBreakoutLow then signals ++ [exitLongSignal env instrument lv]
    else signals
  let signals :=
    if lv.currentPrice ≥ lv.exitBreakoutHigh then signals ++ [exitShortSignal env instrument lv]
    else signals
  if signals.length = 0 then signals ++ [noSignal env instrument lv] else signals

/-- The levels of a candle series (turtle_strategy.go:65-104): the parallel arrays, the four
breakout levels, the ATR, the four breakout dates, the latest close and its date. -/
def computeLevels (ts : TurtleStrategy) (env : Env) (candles : List Candle) : Option Levels := do
  let closes := candles.map (fun candle => floatField candle.close)
  let highs := candles.map (fun candle => floatField candle.high)
  let lows := candles.map (fun candle => floatField candle.low)
  let dates := candles.map (fun candle => beginField env candle.begin)
  let entryBreakoutHigh ← ts.calculateBreakout highs ts.entryBreakoutDays "high"
  let entryBreakoutLow ← ts.calculateBreakout lows ts.entryBreakoutDays "low"
  let exitBreakoutHigh ← ts.calculateBreakout highs ts.exitBreakoutDays "high"
  let exitBreakoutLow ← ts.calculateBreakout lows ts.exitBreakoutDays "low"
  let atr ← ts.calculateATR highs lows closes
  let entryBreakoutHighDate ←
    ts.findBreakoutDate env dates highs entryBreakoutHigh ts.entryBreakoutDays
  let entryBreakoutLowDate ←
    ts.findBreakoutDate env dates lows entryBreakoutLow ts.entryBreakoutDays
  let exitBreakoutHighDate ←
    ts.findBreakoutDate env dates highs exitBreakoutHigh ts.exitBreakoutDays
  let exitBreakoutLowDate ←
    ts.findBreakoutDate env dates lows exitBreakoutLow ts.exitBreakoutDays
  let currentPrice ← getF closes ((closes.length : Int) - 1)
  let currentDate ← getF dates ((dates.length : Int) - 1)
  pure { entryBreakoutHigh := entryBreakoutHigh, entryBreakoutLow := entryBreakoutLow,
         exitBreakoutHigh := exitBreakoutHigh, exitBreakoutLow := exitBreakoutLow,
         atr := atr, entryBreakoutHighDate := entryBreakoutHighDate,
         entryBreakoutLowDate := entryBreakoutLowDate,
         exitBreakoutHighDate := exitBreakoutHighDate,
         exitBreakoutLowDate := exitBreakoutLowDate,
         currentPrice := currentPrice, currentDate := currentDate }

/-- Source `TurtleStrategy.AnalyzeInstrument` (turtle_strategy.go:51-254).  The result of the call
`apiClient.GetCandles` is the argument `fetched`; `none` is a run-time panic. -/
def AnalyzeInstrument (ts : TurtleStrategy) (env : Env) (instrument : String)
    (fetched : Result (List Candle)) : Option (Result (List Signal)) :=
  match fetched with
  | Result.error e => some (Result.error ("ошибка получения свечей: " ++ e))
  | Result.ok candles =>
    if (candles.length : Int) < ts.lookbackPeriod then
      some (Result.error "недостаточно данных для анализа")
    else do
      let lv ← ts.computeLevels env candles
      pure (Result.ok (ts.classify env instrument lv))

end TurtleStrategy

/-! ## MA-Crossover strategy (`ma_crossover.go`) -/

/-- The `CrossoverTypes` block of `MACrossoverConfig` (ma_crossover.go:33-37). -/
structure CrossoverTypes where
  GoldenCross : Bool
  DeathCross : Bool
  RequireConfirmation : Int
  deriving DecidableEq

/-- The `Filters` block of `MACrossoverConfig` (ma_crossover.go:39-44). -/
structure Filters where
  TrendFilter : String
  RSIFilter : Bool
  RSIOverbought : Int
  RSIOversold : Int
  deriving DecidableEq

/-- Source `MACrossoverConfig` (ma_crossover.go:21-45). -/
structure MACrossoverConfig where
  Timeframe : String
  FastPeriod : Int
  SlowPeriod : Int
  SignalPeriod : Int
  UseEMA : Bool
  UseVolumeConfirmation : Bool
  MinVolumeMultiplier : ℚ
  RiskPerTrade : ℚ
  StopLossATRMultiplier : ℚ
  TakeProfitRatio : ℚ
  CrossoverTypes : CrossoverTypes
  Filters : Filters
  deriving DecidableEq

/-- Source `TechnicalIndicators` (ma_crossover.go:48-57); a nil slice is the empty list. -/
structure TechnicalIndicators where
  FastMA : List ℚ
  SlowMA : List ℚ
  SignalMA : List ℚ
  ATR : List ℚ
  RSI : List ℚ
  Volumes : List ℚ
  Prices : List ℚ
  Dates : List Time
  deriving DecidableEq

/-- Source `MACrossoverStrategy` (ma_crossover.go:13-18), without the API client; `indicators` is
a pointer, `none` when nil. -/
structure MACrossoverStrategy where
  config : MACrossoverConfig
  indicators : Option TechnicalIndicators
  deriving DecidableEq

namespace MACrossoverStrategy

/-- The loop of `checkConfirmation` (ma_crossover.go:546-562): `k` iterations remain, the
next one has loop counter `i`. -/
def confirmLoop (fastMA slowMA : List ℚ) (currentIdx : Int) (crossType : String) :
    Nat → Int → Option Bool
  | 0, _ => some true
  | k + 1, i =>
    let idx := currentIdx - i
    if idx < 0 ∨ idx ≥ (fastMA.length : Int) ∨ idx ≥ (slowMA.length : Int) then some false
    else do
      let f ← getF fastMA idx
      let s ← getF slowMA idx
      if crossType = "golden" then
        if f ≤ s then some false else confirmLoop fastMA slowMA currentIdx crossType k (i + 1)
      else if crossType = "death" then
        if f ≥ s then some false else confirmLoop fastMA slowMA currentIdx crossType k (i + 1)
      else confirmLoop fastMA slowMA currentIdx crossType k (i + 1)

/-- Source `MACrossoverStrategy.checkConfirmation` (ma_crossover.go:533-565). -/
def checkConfirmation (m : MACrossoverStrategy) (currentIdx : Int) (crossType : String) :
    Option Bool :=
  if m.config.CrossoverTypes.RequireConfirmation ≤ 0 then some true
  else do
    let ind ← m.indicators
    let fastMA := ind.FastMA
    let slowMA := ind.SlowMA
    if currentIdx < m.config.CrossoverTypes.RequireConfirmation then some false
    else
      confirmLoop fastMA slowMA currentIdx crossType
        m.config.CrossoverTypes.RequireConfirmation.toNat 0

/-- The rationale of a crossover signal (ma_crossover.go:478-484, 510-516). -/
def crossReason (env : Env) (m : MACrossoverStrategy) (title direction : String)
    (fastNow slowNow currentPrice distance : ℚ) : String :=
  title ++ ": SMA" ++ env.fmtInt m.config.FastPeriod ++ " (" ++ env.fmtFloat 2 fastNow
    ++ ") пересекает SMA" ++ env.fmtInt m.config.SlowPeriod ++ " (" ++ env.fmtFloat 2 slowNow
    ++ ") " ++ direction ++ "\nТекущая цена: " ++ env.fmtFloat 2 currentPrice
    ++ " | Расстояние между MA: " ++ env.fmtFloat 2 distance ++ "%\nСигнал подтвержден "
    ++ env.fmtInt m.config.CrossoverTypes.RequireConfirmation ++ " свечами"

/-- The RSI test of a long candidate (ma_crossover.go:473-475), with the short-circuit
evaluation of `||` and `&&`. -/
def rsiAllowsLong (m : MACrossoverStrategy) (ind : TechnicalIndicators) (currentIdx : Int) :
    Option Bool :=
  if !m.config.Filters.RSIFilter then some true
  else if (ind.RSI.length : Int) > currentIdx then do
    let r ← getF ind.RSI currentIdx
    pure (decide (r < (m.config.Filters.RSIOverbought : ℚ)))
  else some false

/-- The RSI test of a short candidate (ma_crossover.go:505-507). -/
def rsiAllowsShort (m : MACrossoverStrategy) (ind : TechnicalIndicators) (currentIdx : Int) :
    Option Bool :=
  if !m.config.Filters.RSIFilter then some true
  else if (ind.RSI.length : Int) > currentIdx then do
    let r ← getF ind.RSI currentIdx
    pure (decide (r > (m.config.Filters.RSIOversold : ℚ)))
  else some false

/-- The golden-cross block of `analyzeCrossovers` (ma_crossover.go:465-495). -/
def goldenBlock (m : MACrossoverStrategy) (env : Env) (ind : TechnicalIndicators)
    (instrument : String) (currentIdx : Int) (currentPrice : ℚ) (currentDate : Time)
    (fastNow fastPrev slowNow slowPrev : ℚ) (signals : List Signal) : Option (List Signal) :=
  if m.config.CrossoverTypes.GoldenCross = true ∧ fastPrev ≤ slowPrev ∧ fastNow > slowNow then do
    let confirmed ← m.checkConfirmation currentIdx "golden"
    if confirmed then do
      let allowed ← m.rsiAllowsLong ind currentIdx
      if allowed then
        let distance := ((fastNow - slowNow) / slowNow) * 100
        let reason := crossReason env m "Золотое пересечение" "снизу вверх" fastNow slowNow
          currentPrice distance
        pure (signals ++ [{ Instrument := instrument, SignalType := "entry_long",
                            Price := currentPrice, StopLoss := 0, TakeProfit := 0,
                            PositionSize := 0, Reason := reason, Timestamp := currentDate }])
      else pure signals
    else pure signals
  else pure signals

/-- The death-cross block of `analyzeCrossovers` (ma_crossover.go:497-527). -/
def deathBlock (m : MACrossoverStrategy) (env : Env) (ind : TechnicalIndicators)
    (instrument : String) (currentIdx : Int) (currentPrice : ℚ) (currentDate : Time)
    (fastNow fastPrev slowNow slowPrev : ℚ) (signals : List Signal) : Option (List Signal) :=
  if m.config.CrossoverTypes.DeathCross = true ∧ fastPrev ≥ slowPrev ∧ fastNow < slowNow then do
    let confirmed ← m.checkConfirmation currentIdx "death"
    if confirmed then do
      let allowed ← m.rsiAllowsShort ind currentIdx
      if allowed then
        let distance := ((slowNow - fastNow) / fastNow) * 100
        let reason := crossReason env m "Мертвое пересечение" "сверху вниз" fastNow slowNow
          currentPrice distance
        pure (signals ++ [{ Instrument := instrument, SignalType := "entry_short",
                            Price := currentPrice, StopLoss := 0, TakeProfit := 0,
                            PositionSize := 0, Reason := reason, Timestamp := currentDate }])
      else pure signals
    else pure signals
  else pure signals

/-- Source `MACrossoverStrategy.analyzeCrossovers` (ma_crossover.go:444-530); `none` is a run-time
panic (nil `indicators`, index out of range). -/
def analyzeCrossovers (m : MACrossoverStrategy) (env : Env) (instrument : String)
    (currentIdx : Int) (currentPrice : ℚ) (currentDate : Time) : Option (List Signal) := do
  let signals : List Signal := []
  let ind ← m.indicators
  let fastMA := ind.FastMA
  let slowMA := ind.SlowMA
  if currentIdx < 1 ∨ fastMA.length < 2 ∨ slowMA.length < 2 then pure signals
  else do
    let fastNow ← getF fastMA currentIdx
    let fastPrev ← getF fastMA (currentIdx - 1)
    let slowNow ← getF slowMA currentIdx
    let slowPrev ← getF slowMA (currentIdx - 1)
    let signals ← m.goldenBlock env ind instrument currentIdx currentPrice currentDate
      fastNow fastPrev slowNow slowPrev signals
    m.deathBlock env ind instrument currentIdx currentPrice currentDate
      fastNow fastPrev slowNow slowPrev signals

end MACrossoverStrategy

/-! ## MA-Crossover strategy: filters, volume confirmation, risk management -/

/-- The float test `x / y >= m` of `filterByVolume` (ma_crossover.go:600-602).  For `y ≠ 0`
it is the comparison of the quotient.  For `y = 0` the float quotient is `+Inf` when
`x > 0`, `-Inf` when `x < 0` and NaN when `x = 0`, so the test holds exactly when `x > 0`. -/
def quotientAtLeast (x y m : ℚ) : Bool :=
  if y = 0 then decide (x > 0) else decide (x / y ≥ m)

namespace MACrossoverStrategy

/-- Source `MACrossoverStrategy.checkTrendFilter` (ma_crossover.go:395-423): every path
returns `true`. -/
def checkTrendFilter (m : MACrossoverStrategy) (currentIdx : Int) : Option Bool :=
  if m.config.Filters.TrendFilter = "none" then some true
  else if m.config.Filters.TrendFilter = "sma50" then do
    let ind ← m.indicators
    if ind.Prices.length ≥ 50 then do
      let sma50 ← calculateSMA ind.Prices 50
      if currentIdx < (sma50.length : Int) then some true else some true
    else some true
  else if m.config.Filters.TrendFilter = "sma200" then do
    let ind ← m.indicators
    if ind.Prices.length ≥ 200 then do
      let sma200 ← calculateSMA ind.Prices 200
      if currentIdx < (sma200.length : Int) then some true else some true
    else some true
  else some true

/-- Source `MACrossoverStrategy.checkRSIFilter` (ma_crossover.go:426-441): every path returns
`true`; the test itself is made in `analyzeCrossovers`. -/
def checkRSIFilter (m : MACrossoverStrategy) (currentIdx : Int) : Option Bool :=
  if !m.config.Filters.RSIFilter then some true
  else do
    let ind ← m.indicators
    if ind.RSI.length = 0 then some true
    else if currentIdx ≥ (ind.RSI.length : Int) then some true
    else some true

/-- Source `MACrossoverStrategy.checkFilters` (ma_crossover.go:380-392). -/
def checkFilters (m : MACrossoverStrategy) (currentIdx : Int) : Option Bool := do
  let trend ← m.checkTrendFilter currentIdx
  if !trend then some false
  else do
    let rsi ← m.checkRSIFilter currentIdx
    if !rsi then some false else some true

/-- The text appended to the rationale of a volume-confirmed signal
(ma_crossover.go:604-605). -/
def volumeText (env : Env) (currentVolume volumeRatio : ℚ) : String :=
  "\n📊 Подтверждение объемом: " ++ env.fmtFloat 0 currentVolume ++ " ("
    ++ env.fmtFloat 1 volumeRatio ++ "x от среднего)"

/-- The averaging loop of `filterByVolume` (ma_crossover.go:584-589); the state is
`(avgVolume, count)`. -/
def volumeSumLoop (volumes : List ℚ) (startIdx currentIdx : Int) : Option (ℚ × Int) :=
  forLoop startIdx (currentIdx + 1) (fun i (st : ℚ × Int) =>
    if i < (volumes.length : Int) then do
      let v ← getF volumes i
      pure (st.1 + v, st.2 + 1)
    else pure st) ((0 : ℚ), (0 : Int))

/-- The filtering loop of `filterByVolume` (ma_crossover.go:598-608). -/
def volumeKeep (m : MACrossoverStrategy) (env : Env) (currentVolume avgVolume : ℚ) :
    List Signal → List Signal
  | [] => []
  | signal :: rest =>
    let volumeRatio := currentVolume / avgVolume
    if quotientAtLeast currentVolume avgVolume m.config.MinVolumeMultiplier = true then
      { signal with Reason := signal.Reason ++ volumeText env currentVolume volumeRatio }
        :: volumeKeep m env currentVolume avgVolume rest
    else volumeKeep m env currentVolume avgVolume rest

/-- Source `MACrossoverStrategy.filterByVolume` (ma_crossover.go:568-611). -/
def filterByVolume (m : MACrossoverStrategy) (env : Env) (signals : List Signal)
    (currentVolume : ℚ) (volumes : List ℚ) (currentIdx : Int) : Option (List Signal) :=
  if volumes.length < 20 then some signals
  else do
    let startIdx := MaxInt 0 (currentIdx - 19)
    let st ← volumeSumLoop volumes startIdx currentIdx
    let count := st.2
    if count = 0 then some signals
    else
      let avgVolume := st.1 / (count : ℚ)
      some (volumeKeep m env currentVolume avgVolume signals)

/-- The text appended to the rationale by `calculateRiskManagement`
(ma_crossover.go:637-644, 661-668). -/
def riskText (env : Env) (stopLoss stopPercent takeProfit ratio positionSize currentATR : ℚ) :
    String :=
  "\n\n🎯 УПРАВЛЕНИЕ РИСКАМИ:\n• Стоп-лосс: " ++ env.fmtFloat 2 stopLoss ++ " ("
    ++ env.fmtFloat 1 stopPercent ++ "%)\n• Тейк-профит: " ++ env.fmtFloat 2 takeProfit
    ++ " (риск:прибыль = 1:" ++ env.fmtFloat 1 ratio ++ ")\n• Размер позиции: "
    ++ env.fmtFloat 0 positionSize ++ " шт.\n• ATR: " ++ env.fmtFloat 2 currentATR
    ++ " (текущая волатильность)"

/-- The `entry_long` case of `calculateRiskManagement` (ma_crossover.go:622-644). -/
def riskLong (m : MACrossoverStrategy) (env : Env) (signal : Signal) (currentATR : ℚ) :
    Signal :=
  let stopLoss := signal.Price - (currentATR * m.config.StopLossATRMultiplier)
  let takeProfit :=
    signal.Price + (currentATR * m.config.StopLossATRMultiplier * m.config.TakeProfitRatio)
  let riskAmount := 100000 * m.config.RiskPerTrade
  let riskPerShare := signal.Price - stopLoss
  let positionSize :=
    if riskPerShare > 0 then riskAmount / riskPerShare else signal.PositionSize
  { signal with
    StopLoss := stopLoss
    TakeProfit := takeProfit
    PositionSize := positionSize
    Reason := signal.Reason ++ riskText env stopLoss
      (((signal.Price - stopLoss) / signal.Price) * 100) takeProfit m.config.TakeProfitRatio
      positionSize currentATR }

/-- The `entry_short` case of `calculateRiskManagement` (ma_crossover.go:646-668). -/
def riskShort (m : MACrossoverStrategy) (env : Env) (signal : Signal) (currentATR : ℚ) :
    Signal :=
  let stopLoss := signal.Price + (currentATR * m.config.StopLossATRMultiplier)
  let takeProfit :=
    signal.Price - (currentATR * m.config.StopLossATRMultiplier * m.config.TakeProfitRatio)
  let riskAmount := 100000 * m.config.RiskPerTrade
  let riskPerShare := stopLoss - signal.Price
  let positionSize :=
    if riskPerShare > 0 then riskAmount / riskPerShare else signal.PositionSize
  { signal with
    StopLoss := stopLoss
    TakeProfit := takeProfit
    PositionSize := positionSize
    Reason := signal.Reason ++ riskText env stopLoss
      (((stopLoss - signal.Price) / signal.Price) * 100) takeProfit m.config.TakeProfitRatio
      positionSize currentATR }

/-- Source `MACrossoverStrategy.calculateRiskManagement` (ma_crossover.go:614-670); the
signal passed by pointer is returned updated. -/
def calculateRiskManagement (m : MACrossoverStrategy) (env : Env) (signal : Signal)
    (currentIdx : Int) : Option Signal := do
  let ind ← m.indicators
  if ind.ATR.length = 0 ∨ currentIdx ≥ (ind.ATR.length : Int) then pure signal
  else do
    let currentATR ← getF ind.ATR currentIdx
    if signal.SignalType = "entry_long" then pure (m.riskLong env signal currentATR)
    else if signal.SignalType = "entry_short" then pure (m.riskShort env signal currentATR)
    else pure signal

/-- The last loop of `analyzeSignals` (ma_crossover.go:370-374). -/
def riskLoop (m : MACrossoverStrategy) (env : Env) (currentIdx : Int) :
    List Signal → Option (List Signal)
  | [] => some []
  | signal :: rest => do
    let signal ←
      if signal.SignalType = "entry_long" ∨ signal.SignalType = "entry_short" then
        m.calculateRiskManagement env signal currentIdx
      else pure signal
    let rest ← riskLoop m env currentIdx rest
    pure (signal :: rest)

/-- Source `MACrossoverStrategy.analyzeSignals` (ma_crossover.go:339-377). -/
def analyzeSignals (m : MACrossoverStrategy) (env : Env) (instrument : String)
    (prices closes volumes : List ℚ) (dates : List Time) : Option (Result (List Signal)) :=
  let signals : List Signal := []
  match m.indicators with
  | none => some (Result.ok signals)
  | some ind =>
    if ind.FastMA.length = 0 ∨ ind.SlowMA.length = 0 then some (Result.ok signals)
    else do
      let currentIdx : Int := (prices.length : Int) - 1
      let currentPrice ← getF closes currentIdx
      let currentDate ← getF dates currentIdx
      let currentVolume ← getF volumes currentIdx
      let pass ← m.checkFilters currentIdx
      if !pass then some (Result.ok signals)
      else do
        let crossSignals ← m.analyzeCrossovers env instrument currentIdx currentPrice currentDate
        let signals := signals ++ crossSignals
        let signals ←
          if m.config.UseVolumeConfirmation = true ∧ signals.length > 0 then
            m.filterByVolume env signals currentVolume volumes currentIdx
          else pure signals
        let signals ← m.riskLoop env currentIdx signals
        pure (Result.ok signals)

end MACrossoverStrategy


/-! ## MA-Crossover strategy: candle parsing, indicators, the analysis pipeline -/

/-- The six parallel arrays returned by `parseCandles` (ma_crossover.go:99-102). -/
structure ParsedCandles where
  prices : List ℚ
  highs : List ℚ
  lows : List ℚ
  closes : List ℚ
  volumes : List ℚ
  dates : List Time
  deriving DecidableEq

namespace MACrossoverStrategy

/-- The pattern `if v, ok := x.(float64); ok { xs = append(xs, v) } else if v, ok := x.(int);
ok { xs = append(xs, float64(v)) }` of `parseCandles` (ma_crossover.go:105-125): nothing is
appended for a missing key or a value of another type. -/
def appendNumber (xs : List ℚ) (v : Option Value) : List ℚ :=
  match v with
  | some (Value.float x) => xs ++ [x]
  | some (Value.int n) => xs ++ [(n : ℚ)]
  | _ => xs

/-- The volume branch of `parseCandles` (ma_crossover.go:128-134): the same pattern with a
final `else` appending `0`. -/
def appendVolume (xs : List ℚ) (v : Option Value) : List ℚ :=
  match v with
  | some (Value.float x) => xs ++ [x]
  | some (Value.int n) => xs ++ [(n : ℚ)]
  | _ => xs ++ [0]

/-- The date branch of `parseCandles` (ma_crossover.go:137-147): the first layout that
parses, `time.Now()` otherwise. -/
def appendDate (env : Env) (xs : List Time) (v : Option Value) : List Time :=
  match v with
  | some (Value.str beginVal) =>
    match env.parseTime "2006-01-02 15:04:05" beginVal with
    | some t => xs ++ [t]
    | none =>
      match env.parseTime "2006-01-02" beginVal with
      | some t => xs ++ [t]
      | none => xs ++ [env.now]
  | _ => xs ++ [env.now]

/-- One iteration of the loop of `parseCandles` (ma_crossover.go:103-148). -/
def parseCandle (env : Env) (p : ParsedCandles) (candle : Candle) : ParsedCandles :=
  { closes := appendNumber p.closes candle.close
    prices := appendNumber p.prices candle.close
    highs := appendNumber p.highs candle.high
    lows := appendNumber p.lows candle.low
    volumes := appendVolume p.volumes candle.volume
    dates := appendDate env p.dates candle.begin }

/-- Source `MACrossoverStrategy.parseCandles` (ma_crossover.go:99-151). -/
def parseCandles (_m : MACrossoverStrategy) (env : Env) (candles : List Candle) :
    ParsedCandles :=
  candles.foldl (parseCandle env)
    { prices := [], highs := [], lows := [], closes := [], volumes := [], dates := [] }

/-- The three moving averages of `calculateIndicators` (ma_crossover.go:165-177), as
`(FastMA, SlowMA, SignalMA)`. -/
def movingAverages (m : MACrossoverStrategy) (closes : List ℚ) :
    Option (List ℚ × List ℚ × List ℚ) :=
  if m.config.UseEMA = true then do
    let fastMA ← calculateEMA closes m.config.FastPeriod
    let slowMA ← calculateEMA closes m.config.SlowPeriod
    if m.config.SignalPeriod > 0 then do
      let signalMA ← calculateEMA closes m.config.SignalPeriod
      pure (fastMA, slowMA, signalMA)
    else pure (fastMA, slowMA, [])
  else do
    let fastMA ← calculateSMA closes m.config.FastPeriod
    let slowMA ← calculateSMA closes m.config.SlowPeriod
    if m.config.SignalPeriod > 0 then do
      let signalMA ← calculateSMA closes m.config.SignalPeriod
      pure (fastMA, slowMA, signalMA)
    else pure (fastMA, slowMA, [])

/-- Source `MACrossoverStrategy.calculateIndicators` (ma_crossover.go:154-186); the strategy
is returned with its `indicators` field set. -/
def calculateIndicators (m : MACrossoverStrategy) (prices highs lows closes volumes : List ℚ)
    (dates : List Time) : Option MACrossoverStrategy := do
  let mas ← m.movingAverages closes
  let atr ← calculateATR highs lows closes 14
  let rsi ← if m.config.Filters.RSIFilter = true then calculateRSI closes 14 else pure []
  let indicators : TechnicalIndicators :=
    { FastMA := mas.1, SlowMA := mas.2.1, SignalMA := mas.2.2, ATR := atr, RSI := rsi,
      Volumes := volumes, Prices := prices, Dates := dates }
  pure { m with indicators := some indicators }

/-- Source `MACrossoverStrategy.Analyze` (ma_crossover.go:69-96).  The result of the call
`apiClient.GetCandles` is the argument `fetched`; `none` is a run-time panic. -/
def Analyze (m : MACrossoverStrategy) (env : Env) (instrument : String)
    (fetched : Result (List Candle)) : Option (Result (List Signal)) :=
  match fetched with
  | Result.error e => some (Result.error ("ошибка получения свечей: " ++ e))
  | Result.ok candles =>
    let p := m.parseCandles env candles
    if (p.prices.length : Int) < m.config.SlowPeriod + 20 then
      some (Result.error "недостаточно данных для анализа")
    else do
      let m ← m.calculateIndicators p.prices p.highs p.lows p.closes p.volumes p.dates
      let r ← m.analyzeSignals env instrument p.prices p.closes p.volumes p.dates
      match r with
      | Result.error e => pure (Result.error e)
      | Result.ok signals => pure (Result.ok signals)

/-- The strategy with another value of `RequireConfirmation`. -/
def withConfirmation (m : MACrossoverStrategy) (k : Int) : MACrossoverStrategy :=
  { m with config := { m.config with
      CrossoverTypes := { m.config.CrossoverTypes with RequireConfirmation := k } } }

end MACrossoverStrategy

/-- A signal without its rationale text. -/
def withoutReason (s : Signal) : Signal := { s with Reason := "" }

/-! ## Configuration validation (`internal/config/validation.go`) -/

/-- Source `TelegramConfig` (config.go:25-29), the fields validation reads. -/
structure TelegramConfig where
  Token : String
  UpdatesTimeout : Int

/-- Source `APIConfig` (config.go:32-38), the fields validation reads; a `time.Duration` is a
count of nanoseconds. -/
structure APIConfig where
  URL : String
  Timeout : Int
  RetryDelay : Int

/-- Source `BotConfig` (config.go:41-49). -/
structure BotConfig where
  Name : String
  Greeting : String
  HelpMessage : String
  RateLimitInterval : Int
  MaxMessageLength : Int
  CommandTimeout : Int
  NotificationChatID : Int

/-- Source `TurtleStrategyConfig` (config.go:59-69). -/
structure TurtleStrategyConfig where
  Enabled : Bool
  Timeframe : String
  LookbackPeriod : Int
  EntryBreakoutDays : Int
  ExitBreakoutDays : Int
  RiskPerTrade : ℚ
  PositionSizing : Bool
  AtrPeriod : Int
  AtrMultiplier : ℚ

/-- Source `StrategyConfig` (config.go:52-56), the block validation reads. -/
structure StrategyConfig where
  Turtles : TurtleStrategyConfig

/-- Source `LoggingConfig` (config.go:121-128), the fields validation reads. -/
structure LoggingConfig where
  Level : String
  MaxSizeMB : Int
  MaxBackups : Int
  MaxAgeDays : Int

/-- Source `SecurityConfig` (config.go:131-135), the fields validation reads. -/
structure SecurityConfig where
  AllowedUsers : List Int
  AdminUsers : List Int
  EnableAuth : Bool

/-- Source `Config` (config.go:15-23), the blocks validation reads. -/
structure Config where
  Telegram : TelegramConfig
  API : APIConfig
  Bot : BotConfig
  Strategy : StrategyConfig
  Logging : LoggingConfig
  Security : SecurityConfig

/-- One nanosecond-counted second, `time.Second`. -/
def Second : Int := 1000000000

/-- One minute, `time.Minute`. -/
def Minute : Int := 60 * Second

/-- Go `strings.HasPrefix`. -/
def HasPrefix (s pre : String) : Bool := pre.data.isPrefixOf s.data

/-- Go `strings.Contains`: some suffix of `s` starts with `sub`. -/
def Contains (s sub : String) : Bool := s.data.tails.any (fun t => sub.data.isPrefixOf t)

/-- The class `\d` of the token pattern. -/
def isDigitChar (ch : Char) : Bool := decide ('0' ≤ ch ∧ ch ≤ '9')

/-- The class `[a-zA-Z0-9_-]` of the token pattern. -/
def isTokenChar (ch : Char) : Bool :=
  decide (('a' ≤ ch ∧ ch ≤ 'z') ∨ ('A' ≤ ch ∧ ch ≤ 'Z') ∨ ('0' ≤ ch ∧ ch ≤ '9')
    ∨ ch = '_' ∨ ch = '-')

/-- The outcome of `regexp.MatchString` on the pattern of `validateTelegramToken`
(validation.go:58), `^\d{9,10}:[a-zA-Z0-9_-]{35}$`: nine or ten digits, a colon, and
thirty-five characters of the class, nothing else. -/
def matchesTokenPattern (token : String) : Bool :=
  let digits := token.data.takeWhile isDigitChar
  let rest := token.data.dropWhile isDigitChar
  (digits.length == 9 || digits.length == 10) &&
    (match rest with
     | ':' :: tail => tail.length == 35 && tail.all isTokenChar
     | _ => false)

/-- Source `validateTelegramToken` (validation.go:52-69); the pattern compiles, so the error of
`regexp.MatchString` is nil. -/
def validateTelegramToken (token : String) : Result Unit :=
  if token = "" then Result.error "токен не может быть пустым"
  else if !matchesTokenPattern token then
    Result.error
      "неверный формат токена. Ожидается: 123456789:ABCdefGHIjklMNOpqrSTUvwxYZ123456789"
  else Result.ok ()

/-- Source `validateURL` (validation.go:72-83). -/
def validateURL (url : String) : Result Unit :=
  if url = "" then Result.error "URL не может быть пустым"
  else if !HasPrefix url "http://" && !HasPrefix url "https://" then
    Result.error "URL должен начинаться с http:// или https://"
  else Result.ok ()

/-- Source `validateTimeouts` (validation.go:86-125). -/
def validateTimeouts (cfg : Config) : Result Unit :=
  if cfg.API.Timeout ≤ 0 then Result.error "API timeout должен быть положительным числом"
  else if cfg.API.Timeout > 5 * Minute then
    Result.error "API timeout не может превышать 5 минут"
  else if cfg.Telegram.UpdatesTimeout < 0 ∨ cfg.Telegram.UpdatesTimeout > 100 then
    Result.error "updates timeout должен быть между 0 и 100 секундами"
  else if cfg.Bot.RateLimitInterval ≤ 0 then
    Result.error "rate limit interval должен быть положительным числом"
  else if cfg.Bot.RateLimitInterval > 10 * Second then
    Result.error "rate limit interval не может превышать 10 секунд"
  else if cfg.Bot.CommandTimeout ≤ 0 then
    Result.error "command timeout должен быть положительным числом"
  else if cfg.Bot.CommandTimeout > 30 * Minute then
    Result.error "command timeout не может превышать 30 минут"
  else if cfg.API.RetryDelay ≤ 0 then
    Result.error "retry delay должен быть положительным числом"
  else if cfg.API.RetryDelay > 30 * Second then
    Result.error "retry delay не может превышать 30 секунд"
  else Result.ok ()

/-- Source `validateLogging` (validation.go:128-168); `lower` is `strings.ToLower`. -/
def validateLogging (lower : String → String) (logging : LoggingConfig) : Result Unit :=
  let validLevels : List String := ["debug", "info", "warn", "error", "panic", "fatal"]
  if !validLevels.contains (lower logging.Level) then
    Result.error ("неверный уровень логирования: " ++ logging.Level
      ++ ". Допустимые значения: debug, info, warn, error, panic, fatal")
  else if logging.MaxSizeMB ≤ 0 then Result.error "max size must be positive"
  else if logging.MaxSizeMB > 1024 then Result.error "max size cannot exceed 1GB"
  else if logging.MaxBackups < 0 then Result.error "max backups cannot be negative"
  else if logging.MaxBackups > 100 then Result.error "max backups cannot exceed 100"
  else if logging.MaxAgeDays < 0 then Result.error "max age cannot be negative"
  else if logging.MaxAgeDays > 365 then Result.error "max age cannot exceed 365 days"
  else Result.ok ()

/-- The first loop of `validateSecurity` (validation.go:178-182). -/
def checkAllowedUsers : List Int → Result Unit
  | [] => Result.ok ()
  | userID :: rest =>
    if userID ≤ 0 then Result.error ("неверный ID пользователя: " ++ toString userID)
    else checkAllowedUsers rest

/-- The second loop of `validateSecurity` (validation.go:184-201). -/
def checkAdminUsers (security : SecurityConfig) : List Int → Result Unit
  | [] => Result.ok ()
  | userID :: rest =>
    if userID ≤ 0 then Result.error ("неверный ID администратора: " ++ toString userID)
    else
      let found := security.AllowedUsers.contains userID
      if security.EnableAuth && !found then
        Result.error ("администратор " ++ toString userID
          ++ " должен быть в списке разрешенных пользователей")
      else checkAdminUsers security rest

/-- Source `validateSecurity` (validation.go:171-204). -/
def validateSecurity (security : SecurityConfig) : Result Unit :=
  if security.EnableAuth && security.AllowedUsers.length = 0 then
    Result.error "при включенной авторизации должен быть указан хотя бы один пользователь"
  else
    match checkAllowedUsers security.AllowedUsers with
    | Result.error e => Result.error e
    | Result.ok _ => checkAdminUsers security security.AdminUsers

/-- Source `validateStrategy` (validation.go:207-245). -/
def validateStrategy (strategy : StrategyConfig) : Result Unit :=
  if strategy.Turtles.Enabled then
    if strategy.Turtles.LookbackPeriod ≤ 0 then
      Result.error "lookback period должен быть положительным числом"
    else if strategy.Turtles.EntryBreakoutDays ≤ 0 then
      Result.error "entry breakout days должен быть положительным числом"
    else if strategy.Turtles.ExitBreakoutDays ≤ 0 then
      Result.error "exit breakout days должен быть положительным числом"
    else if strategy.Turtles.RiskPerTrade ≤ 0 ∨ strategy.Turtles.RiskPerTrade > 1 then
      Result.error "risk per trade должен быть между 0 и 1"
    else if strategy.Turtles.AtrPeriod ≤ 0 then
      Result.error "atr period должен быть положительным числом"
    else if strategy.Turtles.AtrMultiplier ≤ 0 then
      Result.error "atr multiplier должен быть положительным числом"
    else
      let validTimeframes : List String := ["1", "10", "60", "24", "7", "31"]
      if !validTimeframes.contains strategy.Turtles.Timeframe then
        Result.error ("неверный таймфрейм для стратегии: " ++ strategy.Turtles.Timeframe)
      else Result.ok ()
  else Result.ok ()

/-- Source `validateBotSettings` (validation.go:248-281); `len(bot.Name)` counts bytes. -/
def validateBotSettings (bot : BotConfig) : Result Unit :=
  if bot.Name = "" then Result.error "имя бота не может быть пустым"
  else if bot.Name.utf8ByteSize > 64 then
    Result.error "имя бота не может превышать 64 символа"
  else if bot.Greeting = "" then Result.error "приветственное сообщение не может быть пустым"
  else if bot.HelpMessage = "" then Result.error "сообщение помощи не может быть пустым"
  else if bot.MaxMessageLength ≤ 0 then
    Result.error "максимальная длина сообщения должна быть положительным числом"
  else if bot.MaxMessageLength > 4096 then
    Result.error
      "максимальная длина сообщения не может превышать 4096 символов (ограничение Telegram)"
  else if bot.NotificationChatID < 0 then
    Result.error "ID чата для уведомлений не может быть отрицательным"
  else Result.ok ()

/-- The step `if err := check; err != nil { return fmt.Errorf(label + ": %w", err) }` of
`ValidateConfig`, followed by the rest of the function. -/
def checkStep (check : Result Unit) (label : String) (rest : Result Unit) : Result Unit :=
  match check with
  | Result.error e => Result.error (label ++ ": " ++ e)
  | Result.ok _ => rest

/-- Source `ValidateConfig` (validation.go:12-49); `lower` is `strings.ToLower`. -/
def ValidateConfig (lower : String → String) (cfg : Config) : Result Unit :=
  checkStep (validateTelegramToken cfg.Telegram.Token) "неверный Telegram токен" <|
  checkStep (validateURL cfg.API.URL) "неверный URL API" <|
  checkStep (validateTimeouts cfg) "ошибка таймаутов" <|
  checkStep (validateLogging lower cfg.Logging) "ошибка настроек логирования" <|
  checkStep (validateSecurity cfg.Security) "ошибка настроек безопасности" <|
  checkStep (validateStrategy cfg.Strategy) "ошибка настроек стратегии" <|
  checkStep (validateBotSettings cfg.Bot) "ошибка настроек бота" <|
  Result.ok ()

/-! ## HTML escaping (`internal/bot/handlers_utils.go`) -/

/-- The scan of `strings.ReplaceAll` for a non-empty `old`: at each position, an occurrence of
`old` is replaced by `new` and skipped, any other character is copied.  `fuel` bounds the
number of steps; the length of the text suffices. -/
def replaceScan (old new : List Char) : Nat → List Char → List Char
  | 0, s => s
  | _ + 1, [] => []
  | fuel + 1, ch :: rest =>
    if old.isPrefixOf (ch :: rest) then
      new ++ replaceScan old new fuel ((ch :: rest).drop old.length)
    else ch :: replaceScan old new fuel rest

/-- Go `strings.ReplaceAll(s, old, new)`: every non-overlapping occurrence of `old`, from left
to right; for an empty `old`, `new` is inserted before every character and at the end. -/
def ReplaceAll (s old new : String) : String :=
  if old.data = [] then
    ⟨(s.data.flatMap (fun ch => new.data ++ [ch])) ++ new.data⟩
  else ⟨replaceScan old.data new.data s.data.length s.data⟩

/-- The map literal `replacements` of `escapeSpecialChars` (handlers_utils.go:107-114), its
entries in the order of the source text. -/
def replacements : List (String × String) :=
  [("<", "&lt;"), (">", "&gt;"), ("&", "&amp;"), ("\x22", "&quot;"), ("\x27", "&#39;"),
   ("\x60", "&#96;")]

/-- Source `Bot.escapeSpecialChars` (handlers_utils.go:105-121).  The loop ranges over a map,
whose iteration order Go leaves unspecified: `order` is the order in which the entries are
visited, a permutation of `replacements`. -/
def escapeSpecialChars (order : List (String × String)) (text : String) : String :=
  order.foldl (fun result entry => ReplaceAll result entry.1 entry.2) text

/-- The HTML entity of a character, or the character itself. -/
def htmlEntity (ch : Char) : List Char :=
  if ch = '<' then "&lt;".data
  else if ch = '>' then "&gt;".data
  else if ch = '&' then "&amp;".data
  else if ch = Char.ofNat 34 then "&quot;".data
  else if ch = Char.ofNat 39 then "&#39;".data
  else if ch = Char.ofNat 96 then "&#96;".data
  else [ch]

/-- Reference escaping of a text: each character replaced once by its HTML entity. -/
def escapeOnce (text : String) : String := ⟨text.data.flatMap htmlEntity⟩

/-- An iteration order of `replacements` that visits `&` first. -/
def ampersandFirst : List (String × String) :=
  [("&", "&amp;"), ("<", "&lt;"), (">", "&gt;"), ("\x22", "&quot;"), ("\x27", "&#39;"),
   ("\x60", "&#96;")]
/-! ## Reference definitions (from the specification) -/

/-- Arithmetic mean of the `len` values `data[lo], …, data[lo+len-1]`. -/
def windowMean (data : List ℚ) (lo len : Nat) : ℚ :=
  ((data.drop lo).take len).sum / (len : ℚ)

/-- Reference SMA of the specification: the mean of `data[i-period+1 .. i]` for
`i ≥ period-1`, the value `data[i]` itself on the warm-up indices. -/
def smaRef (data : List ℚ) (period : Int) (i : Nat) : ℚ :=
  if period - 1 ≤ (i : Int) then windowMean data ((i : Int) - period + 1).toNat period.toNat
  else data.getD i 0

/-- Reference EMA of the specification: pass-through warm-up, the seed
`mean(data[0..period-1])` at `period-1`, then `ema[i] = (data[i]-ema[i-1])*m + ema[i-1]`
with `m = 2/(period+1)`. -/
def emaRef (data : List ℚ) (period : Int) : Nat → ℚ
  | 0 => if (0 : Int) < period - 1 then data.getD 0 0 else windowMean data 0 period.toNat
  | i + 1 =>
    if ((i + 1 : Nat) : Int) < period - 1 then data.getD (i + 1) 0
    else if ((i + 1 : Nat) : Int) = period - 1 then windowMean data 0 period.toNat
    else (data.getD (i + 1) 0 - emaRef data period i) * (2 / ((period : ℚ) + 1))
      + emaRef data period i

/-- True range of bar `i ≥ 1`:
`max(high[i]-low[i], |high[i]-close[i-1]|, |low[i]-close[i-1]|)`. -/
def trueRange (highs lows closes : List ℚ) (i : Nat) : ℚ :=
  max (highs.getD i 0 - lows.getD i 0)
    (max |highs.getD i 0 - closes.getD (i - 1) 0| |lows.getD i 0 - closes.getD (i - 1) 0|)

/-- The `tr` series as an array: `tr[0]` is never computed (it reads `0`), `tr[i]` is the
true range of bar `i` for `i ≥ 1`. -/
def trList (highs lows closes : List ℚ) : List ℚ :=
  (List.range highs.length).map (fun i => if 1 ≤ i then trueRange highs lows closes i else 0)

/-- Wilder smoothing of a per-bar series `x` from its seed onward:
`avg[period] = mean(x[1..period])` and `avg[i] = (avg[i-1]*(period-1) + x[i]) / period` for
`i > period`.  Cells below the seed are not part of the series and read `0`. -/
def wilderSmooth (x : List ℚ) (period : Nat) : Nat → ℚ
  | 0 => if period = 0 then windowMean x 1 period else 0
  | i + 1 =>
    if i + 1 < period then 0
    else if i + 1 = period then windowMean x 1 period
    else (wilderSmooth x period i * (((period : Int) - 1 : Int) : ℚ) + x.getD (i + 1) 0)
      / ((period : Int) : ℚ)

/-- Per-bar gains `gain[i] = max(close[i]-close[i-1], 0)` for `i ≥ 1` (`gain[0]` reads `0`). -/
def gainList (closes : List ℚ) : List ℚ :=
  (List.range closes.length).map
    (fun i => if 1 ≤ i then max (closes.getD i 0 - closes.getD (i - 1) 0) 0 else 0)

/-- Per-bar losses `loss[i] = max(close[i-1]-close[i], 0)` for `i ≥ 1` (`loss[0]` reads `0`). -/
def lossList (closes : List ℚ) : List ℚ :=
  (List.range closes.length).map
    (fun i => if 1 ≤ i then max (closes.getD (i - 1) 0 - closes.getD i 0) 0 else 0)

/-- Reference Wilder RSI of the specification: `50` on the warm-up indices `i < period`;
from `period` on, `100` when the smoothed loss is zero and `100 - 100/(1 + avgGain/avgLoss)`
otherwise, the averages being the Wilder-smoothed gains and losses. -/
def rsiRef (closes : List ℚ) (period : Nat) (i : Nat) : ℚ :=
  if i < period then 50
  else
    let avgGain := wilderSmooth (gainList closes) period i
    let avgLoss := wilderSmooth (lossList closes) period i
    if avgLoss = 0 then 100 else 100 - 100 / (1 + avgGain / avgLoss)

/-! ## Loop invariants -/

/-- The state of an array-filling loop: same length as `init`, cells `a ≤ j < k` hold `g j`,
the other cells are untouched. -/
def Filled (init : List ℚ) (g : Nat → ℚ) (a k : Nat) (arr : List ℚ) : Prop :=
  arr.length = init.length ∧
    ∀ j, j < init.length → arr[j]? = some (if a ≤ j ∧ j < k then g j else init.getD j 0)

/-! ## Concrete inputs -/

/-- A candle whose high, low and close are all `x`; no volume, no date. -/
def flatCandle (x : ℚ) : Candle :=
  { close := some (Value.float x), high := some (Value.float x), low := some (Value.float x),
    volume := none, begin := none }

/-- A strategy with an entry window of two days and an exit window of one day. -/
def twoDayStrategy : TurtleStrategy :=
  { lookbackPeriod := 2, entryBreakoutDays := 2, exitBreakoutDays := 1, atrPeriod := 1,
    atrMultiplier := 2, riskPerTrade := 1 / 50 }

/-- An MA-Crossover strategy with both crossover types on, no confirmation, no RSI filter,
the fast average crossing above the slow one at index 2. -/
def crossingStrategy : MACrossoverStrategy :=
  { config :=
      { Timeframe := "24", FastPeriod := 2, SlowPeriod := 4, SignalPeriod := 0, UseEMA := false,
        UseVolumeConfirmation := false, MinVolumeMultiplier := 1, RiskPerTrade := 1 / 50,
        StopLossATRMultiplier := 2, TakeProfitRatio := 2,
        CrossoverTypes := { GoldenCross := true, DeathCross := true, RequireConfirmation := 0 },
        Filters := { TrendFilter := "none", RSIFilter := false, RSIOverbought := 70,
                     RSIOversold := 30 } },
    indicators := some
      { FastMA := [1, 2, 3], SlowMA := [2, 2, 2], SignalMA := [], ATR := [], RSI := [],
        Volumes := [], Prices := [], Dates := [] } }

/-- The signals the two-day strategy returns on the two flat bars 10, 12. -/
def twoDaySignals : List Signal :=
  match twoDayStrategy.AnalyzeInstrument Env.plain "SBER"
      (Result.ok [flatCandle 10, flatCandle 12]) with
  | some (Result.ok sigs) => sigs
  | _ => []

/-- A long candidate at price 9, as `analyzeCrossovers` emits it. -/
def longCandidate : Signal :=
  { Instrument := "SBER", SignalType := "entry_long", Price := 9, StopLoss := 0,
    TakeProfit := 0, PositionSize := 0, Reason := "", Timestamp := 0 }

/-- The crossing strategy with an ATR series `[0, 1, 2]`. -/
def crossingWithATR : MACrossoverStrategy :=
  { config := crossingStrategy.config,
    indicators := some
      { FastMA := [1, 2, 3], SlowMA := [2, 2, 2], SignalMA := [], ATR := [0, 1, 2], RSI := [],
        Volumes := [], Prices := [], Dates := [] } }

/-- A strategy requiring three confirmation bars, on averages of three bars with the fast
one above the slow one on every bar. -/
def threeBarStrategy : MACrossoverStrategy :=
  { config :=
      { Timeframe := "24", FastPeriod := 2, SlowPeriod := 4, SignalPeriod := 0, UseEMA := false,
        UseVolumeConfirmation := false, MinVolumeMultiplier := 1, RiskPerTrade := 1 / 50,
        StopLossATRMultiplier := 2, TakeProfitRatio := 2,
        CrossoverTypes := { GoldenCross := true, DeathCross := true, RequireConfirmation := 3 },
        Filters := { TrendFilter := "none", RSIFilter := false, RSIOverbought := 70,
                     RSIOversold := 30 } },
    indicators := some
      { FastMA := [2, 2, 2], SlowMA := [1, 1, 1], SignalMA := [], ATR := [], RSI := [],
        Volumes := [], Prices := [], Dates := [] } }

/-- A strategy requiring two confirmation bars, on averages of four bars. -/
def twoBarStrategy : MACrossoverStrategy :=
  { config :=
      { Timeframe := "24", FastPeriod := 2, SlowPeriod := 4, SignalPeriod := 0, UseEMA := false,
        UseVolumeConfirmation := false, MinVolumeMultiplier := 1, RiskPerTrade := 1 / 50,
        StopLossATRMultiplier := 2, TakeProfitRatio := 2,
        CrossoverTypes := { GoldenCross := true, DeathCross := true, RequireConfirmation := 2 },
        Filters := { TrendFilter := "none", RSIFilter := false, RSIOverbought := 70,
                     RSIOversold := 30 } },
    indicators := some
      { FastMA := [1, 1, 3, 4], SlowMA := [2, 2, 2, 2], SignalMA := [], ATR := [], RSI := [],
        Volumes := [], Prices := [], Dates := [] } }

/-- The crossing strategy with the RSI filter on (overbought 70, oversold 30) and an RSI
series reading 80 at the last index. -/
def rsiGatedStrategy : MACrossoverStrategy :=
  { config :=
      { Timeframe := "24", FastPeriod := 2, SlowPeriod := 4, SignalPeriod := 0, UseEMA := false,
        UseVolumeConfirmation := false, MinVolumeMultiplier := 1, RiskPerTrade := 1 / 50,
        StopLossATRMultiplier := 2, TakeProfitRatio := 2,
        CrossoverTypes := { GoldenCross := true, DeathCross := true, RequireConfirmation := 0 },
        Filters := { TrendFilter := "none", RSIFilter := true, RSIOverbought := 70,
                     RSIOversold := 30 } },
    indicators := some
      { FastMA := [1, 2, 3], SlowMA := [2, 2, 2], SignalMA := [], ATR := [], RSI := [50, 50, 80],
        Volumes := [], Prices := [], Dates := [] } }

/-- The candidates the crossing strategy detects at index 2. -/
def crossingSignals : List Signal :=
  match crossingStrategy.analyzeCrossovers Env.plain "SBER" 2 9 0 with
  | some sigs => sigs
  | none => []

/-- Twenty-two volumes: twenty-one of 10 and a last one of 30. -/
def volumeSeries : List ℚ := List.replicate 21 10 ++ [30]

/-- The Turtle strategy with the parameters of `DefaultConfig` (config.go:208-218). -/
def defaultTurtle : TurtleStrategy :=
  { lookbackPeriod := 20, entryBreakoutDays := 20, exitBreakoutDays := 10, atrPeriod := 20,
    atrMultiplier := 2, riskPerTrade := 1 / 50 }

/-- Twenty flat bars: nineteen at 10 and a last one at 15. -/
def breakoutSeries : List Candle := List.replicate 19 (flatCandle 10) ++ [flatCandle 15]

/-- The signals of the default Turtle strategy on `breakoutSeries`. -/
def defaultTurtleSignals : List Signal :=
  match defaultTurtle.AnalyzeInstrument Env.plain "SBER" (Result.ok breakoutSeries) with
  | some (Result.ok sigs) => sigs
  | _ => []

/-- A strategy whose entry window (5 days) is longer than its lookback period (2 bars). -/
def longWindowStrategy : TurtleStrategy :=
  { lookbackPeriod := 2, entryBreakoutDays := 5, exitBreakoutDays := 1, atrPeriod := 1,
    atrMultiplier := 2, riskPerTrade := 1 / 50 }

/-- The signals of `longWindowStrategy` on the two flat bars 10, 12. -/
def longWindowSignals : List Signal :=
  match longWindowStrategy.AnalyzeInstrument Env.plain "SBER"
      (Result.ok [flatCandle 10, flatCandle 12]) with
  | some (Result.ok sigs) => sigs
  | _ => []

/-- The fields of a signal the examples compare: type, price, stop-loss, position size. -/
def signalSummary (s : Signal) : String × ℚ × ℚ × ℚ :=
  (s.SignalType, s.Price, s.StopLoss, s.PositionSize)

/-- The crossing strategy with an ATR series of zeros. -/
def zeroATRStrategy : MACrossoverStrategy :=
  { config := crossingStrategy.config,
    indicators := some
      { FastMA := [1, 2, 3], SlowMA := [2, 2, 2], SignalMA := [], ATR := [0, 0, 0], RSI := [],
        Volumes := [], Prices := [], Dates := [] } }

/-- The signals of `zeroATRStrategy` on three bars closing at 7, 8, 9. -/
def zeroATRSignals : List Signal :=
  match zeroATRStrategy.analyzeSignals Env.plain "SBER" [7, 8, 9] [7, 8, 9] [1, 1, 1]
      [0, 0, 0] with
  | some (Result.ok sigs) => sigs
  | _ => []

/-- Levels with a zero ATR at price 12. -/
def zeroATRLevels : TurtleStrategy.Levels :=
  { entryBreakoutHigh := 12, entryBreakoutLow := 10, exitBreakoutHigh := 12,
    exitBreakoutLow := 10, atr := 0, entryBreakoutHighDate := 0, entryBreakoutLowDate := 0,
    exitBreakoutHighDate := 0, exitBreakoutLowDate := 0, currentPrice := 12, currentDate := 0 }


/-! ## Concrete inputs of the end-to-end scenarios -/

/-- Whether `x.(float64)` or `x.(int)` succeeds on a candle field. -/
def isNumber (v : Option Value) : Bool :=
  match v with
  | some (Value.float _) => true
  | some (Value.int _) => true
  | _ => false

/-- A flat candle at `x` whose `close` key is missing. -/
def candleWithoutClose (x : ℚ) : Candle := { flatCandle x with close := none }

/-- A flat candle at `x` whose `low` key is missing. -/
def candleWithoutLow (x : ℚ) : Candle := { flatCandle x with low := none }

/-- Twenty-four bars at 10, the last one without its `low`. -/
def seriesWithoutLastLow : List Candle :=
  List.replicate 23 (flatCandle 10) ++ [candleWithoutLow 10]

/-- A Turtle strategy with an ATR period of two bars. -/
def twoBarATRStrategy : TurtleStrategy :=
  { lookbackPeriod := 2, entryBreakoutDays := 2, exitBreakoutDays := 1, atrPeriod := 2,
    atrMultiplier := 2, riskPerTrade := 1 / 50 }

/-- The configuration of the MA-Crossover scenario: periods 2 and 4, SMA mode, golden cross
only, no confirmation, RSI filter on with the given overbought threshold. -/
def scenarioConfig (overbought : Int) : MACrossoverConfig :=
  { Timeframe := "24", FastPeriod := 2, SlowPeriod := 4, SignalPeriod := 0, UseEMA := false,
    UseVolumeConfirmation := false, MinVolumeMultiplier := 1, RiskPerTrade := 1 / 50,
    StopLossATRMultiplier := 2, TakeProfitRatio := 2,
    CrossoverTypes := { GoldenCross := true, DeathCross := false, RequireConfirmation := 0 },
    Filters := { TrendFilter := "none", RSIFilter := true, RSIOverbought := overbought,
                 RSIOversold := 30 } }

/-- The closes of the MA-Crossover scenario. -/
def scenarioCloses : List ℚ := [5, 5, 5, 5, 6, 7, 8, 9]

/-- The scenario strategy after `calculateIndicators` on the scenario closes (highs and lows
equal to the closes, no volume, zero dates). -/
def scenarioStrategy (overbought : Int) : MACrossoverStrategy :=
  match MACrossoverStrategy.calculateIndicators
      { config := scenarioConfig overbought, indicators := none }
      scenarioCloses scenarioCloses scenarioCloses scenarioCloses
      (List.replicate 8 0) (List.replicate 8 0) with
  | some m => m
  | none => { config := scenarioConfig overbought, indicators := none }

/-- The candidates the scenario strategy detects at index `t`, by signal type and price. -/
def scenarioCandidates (overbought : Int) (t : Int) : Option (List (String × ℚ)) :=
  ((scenarioStrategy overbought).analyzeCrossovers Env.plain "SBER" t
      (scenarioCloses.getD t.toNat 0) 0).map
    (fun sigs => sigs.map (fun s => (s.SignalType, s.Price)))

/-- The configuration of the test case 'Invalid strategy timeframe' of `TestValidateConfig`
(config_test.go:141-170); the fields the test leaves out hold their zero values. -/
def invalidTimeframeCase : Config :=
  { Telegram := { Token := "123456789:ABCdefGHIjklMNOpqrSTUvwxYZ123456789",
                  UpdatesTimeout := 0 },
    API := { URL := "http://localhost:8080", Timeout := 0, RetryDelay := 0 },
    Bot := { Name := "Test", Greeting := "Hello", HelpMessage := "Help",
             RateLimitInterval := 0, MaxMessageLength := 0, CommandTimeout := 0,
             NotificationChatID := 0 },
    Strategy := { Turtles :=
      { Enabled := true, Timeframe := "invalid", LookbackPeriod := 20,
        EntryBreakoutDays := 20, ExitBreakoutDays := 10, RiskPerTrade := 1 / 50,
        PositionSizing := false, AtrPeriod := 0, AtrMultiplier := 0 } },
    Logging := { Level := "info", MaxSizeMB := 0, MaxBackups := 0, MaxAgeDays := 0 },
    Security := { AllowedUsers := [], AdminUsers := [], EnableAuth := false } }

/-- The test case 'Valid config' of `TestValidateConfig` (config_test.go:16-82) with the
timeframe `"invalid"`. -/
def validCaseWithBadTimeframe : Config :=
  { Telegram := { Token := "123456789:ABCdefGHIjklMNOpqrSTUvwxYZ123456789",
                  UpdatesTimeout := 60 },
    API := { URL := "http://localhost:8080", Timeout := 30 * Second,
             RetryDelay := 2 * Second },
    Bot := { Name := "Test Bot", Greeting := "Hello", HelpMessage := "Help",
             RateLimitInterval := Second, MaxMessageLength := 4096,
             CommandTimeout := 5 * Minute, NotificationChatID := 0 },
    Strategy := { Turtles :=
      { Enabled := true, Timeframe := "invalid", LookbackPeriod := 20,
        EntryBreakoutDays := 20, ExitBreakoutDays := 10, RiskPerTrade := 1 / 50,
        PositionSizing := true, AtrPeriod := 20, AtrMultiplier := 2 } },
    Logging := { Level := "info", MaxSizeMB := 100, MaxBackups := 3, MaxAgeDays := 30 },
    Security := { AllowedUsers := [123456789], AdminUsers := [123456789],
                  EnableAuth := true } }

/-- The action of `strings.ToLower` on ASCII text. -/
def asciiLower (s : String) : String := ⟨s.data.map Char.toLower⟩
/-! ## Theorems -/

open MoexBot

/-- Inside the 64-bit range nothing wraps. -/
theorem wrapInt_of_range (x : Int) (h1 : -9223372036854775808 ≤ x)
    (h2 : x < 9223372036854775808) : wrapInt x = x := by
  unfold wrapInt; omega

/-- Above the lower end of the range a wrapped value is at most the exact one. -/
theorem wrapInt_le (x : Int) (h : -9223372036854775808 ≤ x) : wrapInt x ≤ x := by
  unfold wrapInt; omega

theorem getF_nat {α : Type} (xs : List α) (n : Nat) : getF xs (n : Int) = xs[n]? := by
  simp [getF]

theorem getF_neg {α : Type} (xs : List α) (i : Int) (h : i < 0) : getF xs i = none := by
  simp [getF, h]

theorem setF_nat {α : Type} (xs : List α) (n : Nat) (v : α) (h : n < xs.length) :
    setF xs (n : Int) v = some (xs.set n v) := by
  simp [setF, h]

theorem setF_neg {α : Type} (xs : List α) (i : Int) (v : α) (h : i < 0) : setF xs i v = none := by
  simp [setF]; omega

theorem forRange_inv {σ : Type} (P : Nat → σ → Prop) (body : Int → σ → Option σ) :
    ∀ (n a : Nat) (s : σ), P a s →
      (∀ i s, a ≤ i → i < a + n → P i s → ∃ s', body (i : Int) s = some s' ∧ P (i + 1) s') →
      ∃ s', forRange (a : Int) n body s = some s' ∧ P (a + n) s' := by
  intro n
  induction n with
  | zero => intro a s h0 _; exact ⟨s, rfl, h0⟩
  | succ n ih =>
    intro a s h0 hstep
    obtain ⟨s1, hs1, hP1⟩ := hstep a s (le_refl a) (by omega) h0
    obtain ⟨s2, hs2, hP2⟩ := ih (a + 1) s1 hP1 (fun i s hi hlt hP => hstep i s (by omega) (by omega) hP)
    refine ⟨s2, ?_, ?_⟩
    · simp only [forRange, hs1, Option.some_bind]
      rw [← hs2]; push_cast; rfl
    · have e : a + (n + 1) = a + 1 + n := by omega
      rw [e]; exact hP2

theorem forRange_fill (init : List ℚ) (g : Nat → ℚ) (body : Int → List ℚ → Option (List ℚ))
    (a m : Nat) (hm : a + m ≤ init.length)
    (hbody : ∀ (i : Nat) (arr : List ℚ), a ≤ i → i < a + m → Filled init g a i arr →
      body (i : Int) arr = setF arr (i : Int) (g i)) :
    ∃ out, forRange (a : Int) m body init = some out ∧ Filled init g a (a + m) out := by
  apply forRange_inv (fun k arr => Filled init g a k arr) body m a init
  · refine ⟨rfl, fun j hj => ?_⟩
    have : ¬ (a ≤ j ∧ j < a) := by omega
    simp [this, List.getD_eq_getElem?_getD, List.getElem?_eq_getElem hj]
  · intro i arr hai him hF
    refine ⟨arr.set i (g i), ?_, ?_⟩
    · rw [hbody i arr hai him hF, setF_nat]
      rw [hF.1]; omega
    · refine ⟨by simp [hF.1], fun j hj => ?_⟩
      rw [List.getElem?_set]
      by_cases hji : i = j
      · subst hji
        have : i < arr.length := by rw [hF.1]; exact hj
        simp [this, hai]
      · rw [if_neg hji, hF.2 j hj]
        by_cases hj2 : a ≤ j ∧ j < i
        · have : a ≤ j ∧ j < i + 1 := by omega
          simp [hj2, this]
        · have : ¬ (a ≤ j ∧ j < i + 1) := by omega
          simp [hj2, this]

theorem forRange_sum (data : List ℚ) :
    ∀ (m a : Nat) (s0 : ℚ), a + m ≤ data.length →
      forRange (a : Int) m (fun j sum => (getF data j).bind (fun d => some (sum + d))) s0
        = some (s0 + ((data.drop a).take m).sum) := by
  intro m
  induction m with
  | zero => intro a s0 _; simp [forRange]
  | succ m ih =>
    intro a s0 h
    have ha : a < data.length := by omega
    have hd : data.drop a = data[a] :: data.drop (a + 1) := by
      rw [List.drop_eq_getElem_cons ha]
    simp only [forRange, getF_nat, List.getElem?_eq_getElem ha, Option.some_bind]
    have := ih (a + 1) (s0 + data[a]) (by omega)
    push_cast at this
    rw [this, hd, List.take_succ_cons, List.sum_cons, add_assoc]


theorem forLoop_nat {σ : Type} (a b : Nat) (body : Int → σ → Option σ) (s : σ) :
    forLoop (a : Int) (b : Int) body s = forRange (a : Int) (b - a) body s := by
  unfold forLoop
  congr 1
  omega

theorem forLoop_of_nat {σ : Type} (lo hi : Int) (a b : Nat) (ha : lo = (a : Int))
    (hb : hi = (b : Int)) (body : Int → σ → Option σ) (s : σ) :
    forLoop lo hi body s = forRange (a : Int) (b - a) body s := by
  subst ha hb
  exact forLoop_nat a b body s

theorem list_eq_map_range (out : List ℚ) (n : Nat) (f : Nat → ℚ) (hlen : out.length = n)
    (h : ∀ j, j < n → out[j]? = some (f j)) : out = (List.range n).map f := by
  apply List.ext_getElem?
  intro j
  by_cases hj : j < n
  · rw [h j hj]; simp [List.getElem?_map, List.getElem?_range hj]
  · rw [List.getElem?_eq_none (by omega), List.getElem?_eq_none (by simp; omega)]

theorem calculateSMA_eq (data : List ℚ) (period : Int) (hp : 1 ≤ period)
    (hlen : period ≤ (data.length : Int)) :
    calculateSMA data period = some ((List.range data.length).map (smaRef data period)) := by
  obtain ⟨p, rfl⟩ : ∃ p : Nat, period = (p : Int) := ⟨period.toNat, by omega⟩
  have hp1 : 1 ≤ p := by omega
  have hpn : p ≤ data.length := by omega
  have e1 : ((p : Int) - 1) = ((p - 1 : Nat) : Int) := by omega
  -- first loop: the window means
  obtain ⟨out1, h1, hF1⟩ := forRange_fill (makeFloats data.length)
    (fun i => windowMean data (i + 1 - p) p)
    (fun i sma => do
      let sum ← forLoop (i - (p : Int) + 1) (i + 1) (fun j sum => do
        let d ← getF data j
        pure (sum + d)) (0 : ℚ)
      setF sma i (sum / ((p : Int) : ℚ)))
    (p - 1) (data.length - (p - 1)) (by simp [makeFloats]; omega)
    (by
      intro i arr hai hib _
      have e2 : ((i : Int) - (p : Int) + 1) = ((i + 1 - p : Nat) : Int) := by omega
      have e3 : ((i : Int) + 1) = ((i + 1 : Nat) : Int) := by omega
      have hs := forRange_sum data p (i + 1 - p) 0 (by omega)
      have e4 : i + 1 - (i + 1 - p) = p := by omega
      show Option.bind (forLoop ((i : Int) - (p : Int) + 1) ((i : Int) + 1)
        (fun j sum => (getF data j).bind (fun d => some (sum + d))) 0) _ = _
      rw [e2, e3, forLoop_nat, e4, hs]
      simp [windowMean])
  -- second loop: the warm-up cells
  obtain ⟨out2, h2, hF2⟩ := forRange_fill out1 (fun i => data.getD i 0)
    (fun i sma => do
      let d ← getF data i
      setF sma i d)
    0 (p - 1) (by rw [hF1.1]; simp [makeFloats]; omega)
    (by
      intro i arr _ hib _
      have hi : i < data.length := by omega
      show Option.bind (getF data i) _ = _
      rw [getF_nat, List.getElem?_eq_getElem hi]
      simp [List.getD_eq_getElem?_getD, List.getElem?_eq_getElem hi])
  have hlen' : ¬ ((data.length : Int) < (p : Int)) := by omega
  unfold calculateSMA
  rw [if_neg hlen']
  show Option.bind (forLoop ((p : Int) - 1) (data.length : Int) _ (makeFloats data.length)) _ = _
  rw [e1, forLoop_nat, h1, Option.some_bind]
  have e0 : (0 : Int) = ((0 : Nat) : Int) := rfl
  rw [e0, forLoop_nat, Nat.sub_zero, h2]
  congr 1
  apply list_eq_map_range
  · rw [hF2.1, hF1.1]; simp [makeFloats]
  · intro j hj
    have hj1 : j < out1.length := by rw [hF1.1]; simpa [makeFloats] using hj
    rw [hF2.2 j hj1]
    have hj0 : j < (makeFloats data.length).length := by simpa [makeFloats] using hj
    have h1j := hF1.2 j hj0
    congr 1
    unfold smaRef
    by_cases hw : j < p - 1
    · have : ¬ ((p : Int) - 1 ≤ (j : Int)) := by omega
      simp [hw, this]
    · have hw2 : (p : Int) - 1 ≤ (j : Int) := by omega
      have hw3 : p - 1 ≤ j ∧ j < p - 1 + (data.length - (p - 1)) := by omega
      have e5 : ((j : Int) - (p : Int) + 1).toNat = j + 1 - p := by omega
      have hg : out1.getD j 0 = windowMean data (j + 1 - p) p := by
        rw [List.getD_eq_getElem?_getD, h1j, if_pos hw3]; rfl
      rw [if_pos hw2, e5]
      simp only [Nat.zero_le, true_and, Nat.zero_add, hw, if_false, hg, Int.toNat_ofNat]


theorem emaRef_warm (data : List ℚ) (p : Nat) (i : Nat) (h : i + 1 < p) :
    emaRef data p i = data.getD i 0 := by
  cases i with
  | zero => simp [emaRef]; omega
  | succ k =>
    have : ((k + 1 : Nat) : Int) < (p : Int) - 1 := by omega
    simp only [emaRef, if_pos this]

theorem emaRef_seed (data : List ℚ) (p : Nat) (hp : 1 ≤ p) :
    emaRef data p (p - 1) = windowMean data 0 p := by
  obtain ⟨k, rfl⟩ : ∃ k, p = k + 1 := ⟨p - 1, by omega⟩
  cases k with
  | zero => simp [emaRef]
  | succ k =>
    have h1 : ¬ (((k + 1 : Nat) : Int) < ((k + 1 + 1 : Nat) : Int) - 1) := by omega
    have h2 : (((k + 1 : Nat) : Int) = ((k + 1 + 1 : Nat) : Int) - 1) := by omega
    simp only [Nat.add_sub_cancel, emaRef, if_neg h1, if_pos h2, Int.toNat_ofNat]

theorem emaRef_step (data : List ℚ) (p : Nat) (i : Nat) (hp : 1 ≤ p) (h : p ≤ i) :
    emaRef data p i = (data.getD i 0 - emaRef data p (i - 1)) * (2 / (((p : Int) : ℚ) + 1))
      + emaRef data p (i - 1) := by
  obtain ⟨k, rfl⟩ : ∃ k, i = k + 1 := ⟨i - 1, by omega⟩
  have h1 : ¬ (((k + 1 : Nat) : Int) < (p : Int) - 1) := by omega
  have h2 : ¬ (((k + 1 : Nat) : Int) = (p : Int) - 1) := by omega
  simp only [Nat.add_sub_cancel, emaRef, if_neg h1, if_neg h2]

theorem calculateEMA_eq (data : List ℚ) (period : Int) (hp : 1 ≤ period)
    (hlen : period ≤ (data.length : Int)) :
    calculateEMA data period = some ((List.range data.length).map (emaRef data period)) := by
  obtain ⟨p, rfl⟩ : ∃ p : Nat, period = (p : Int) := ⟨period.toNat, by omega⟩
  have hp1 : 1 ≤ p := by omega
  have hpn : p ≤ data.length := by omega
  have e1 : ((p : Int) - 1) = ((p - 1 : Nat) : Int) := by omega
  have e0 : (0 : Int) = ((0 : Nat) : Int) := rfl
  have hsum := forRange_sum data p 0 0 (by omega)
  have hset : setF (makeFloats data.length) ((p - 1 : Nat) : Int) (windowMean data 0 p)
      = some ((makeFloats data.length).set (p - 1) (windowMean data 0 p)) :=
    setF_nat _ _ _ (by simp [makeFloats]; omega)
  set ema1 := (makeFloats data.length).set (p - 1) (windowMean data 0 p) with hema1
  have hl1 : ema1.length = data.length := by simp [hema1, makeFloats]
  have hseed : ema1[p - 1]? = some (windowMean data 0 p) := by
    rw [hema1, List.getElem?_set]; simp [makeFloats]; omega
  -- the recurrence loop
  obtain ⟨out1, h1, hF1⟩ := forRange_fill ema1 (emaRef data p)
    (fun i ema => do
      let d ← getF data i
      let q ← getF ema (i - 1)
      setF ema i ((d - q) * (2 / (((p : Int) : ℚ) + 1)) + q))
    p (data.length - p) (by rw [hl1]; omega)
    (by
      intro i arr hai hib hF
      have hi : i < data.length := by omega
      have e2 : ((i : Int) - 1) = ((i - 1 : Nat) : Int) := by omega
      have hprev : arr[i - 1]? = some (emaRef data p (i - 1)) := by
        rw [hF.2 (i - 1) (by rw [hl1]; omega)]
        by_cases hc : p ≤ i - 1 ∧ i - 1 < i
        · rw [if_pos hc]
        · have hip : i = p := by omega
          subst hip
          rw [if_neg hc, List.getD_eq_getElem?_getD, hseed, emaRef_seed data i hp1]; rfl
      show Option.bind (getF data i) (fun d => Option.bind (getF arr ((i : Int) - 1)) _) = _
      rw [getF_nat, List.getElem?_eq_getElem hi, e2, getF_nat, hprev]
      simp only [Option.some_bind]
      rw [emaRef_step data p i hp1 hai]
      simp [List.getD_eq_getElem?_getD, List.getElem?_eq_getElem hi])
  -- the warm-up loop
  obtain ⟨out2, h2, hF2⟩ := forRange_fill out1 (fun i => data.getD i 0)
    (fun i ema => do
      let d ← getF data i
      setF ema i d)
    0 (p - 1) (by rw [hF1.1, hl1]; omega)
    (by
      intro i arr _ hib _
      have hi : i < data.length := by omega
      show Option.bind (getF data i) _ = _
      rw [getF_nat, List.getElem?_eq_getElem hi]
      simp [List.getD_eq_getElem?_getD, List.getElem?_eq_getElem hi])
  have hlen' : ¬ ((data.length : Int) < (p : Int)) := by omega
  unfold calculateEMA
  rw [if_neg hlen']
  show Option.bind (forLoop 0 (p : Int) (fun j sum => (getF data j).bind (fun d => some (sum + d))) 0) _ = _
  rw [e0, forLoop_nat, Nat.sub_zero, hsum, Option.some_bind]
  show Option.bind (setF (makeFloats data.length) ((p : Int) - 1) _) _ = _
  have hw0 : (0 + (List.take p (List.drop 0 data)).sum) / ((p : Int) : ℚ) = windowMean data 0 p := by
    simp [windowMean]
  rw [hw0, e1, hset, Option.some_bind]
  show Option.bind (forLoop (p : Int) (data.length : Int) _ ema1) _ = _
  rw [forLoop_nat, h1, Option.some_bind, forLoop_nat, Nat.sub_zero, h2]
  congr 1
  apply list_eq_map_range
  · rw [hF2.1, hF1.1, hl1]
  · intro j hj
    have hj1 : j < out1.length := by rw [hF1.1, hl1]; exact hj
    rw [hF2.2 j hj1]
    have h1j := hF1.2 j (by rw [hl1]; exact hj)
    congr 1
    by_cases hw : j < p - 1
    · simp only [Nat.zero_le, true_and, Nat.zero_add, hw, if_true]
      rw [emaRef_warm data p j (by omega)]
    · have hg : out1.getD j 0 = emaRef data p j := by
        rw [List.getD_eq_getElem?_getD, h1j]
        by_cases hc : p ≤ j ∧ j < p + (data.length - p)
        · rw [if_pos hc]; rfl
        · have hjp : j = p - 1 := by omega
          rw [if_neg hc, hjp, List.getD_eq_getElem?_getD, hseed, emaRef_seed data p hp1]; rfl
      simp only [Nat.zero_le, true_and, Nat.zero_add, hw, if_false, hg]


theorem trList_length (h l c : List ℚ) : (trList h l c).length = h.length := by
  simp [trList]

theorem trList_getElem? (h l c : List ℚ) (j : Nat) (hj : j < h.length) :
    (trList h l c)[j]? = some (if 1 ≤ j then trueRange h l c j else 0) := by
  simp [trList, List.getElem?_map, List.getElem?_range hj]

theorem trueRangeLoop_eq (h l c : List ℚ) (hn : 1 ≤ h.length) (hl : l.length = h.length)
    (hc : c.length = h.length) :
    trueRangeLoop h l c (makeFloats h.length) = some (trList h l c) := by
  have e1 : (1 : Int) = ((1 : Nat) : Int) := rfl
  obtain ⟨out, ho, hF⟩ := forRange_fill (makeFloats h.length) (trueRange h l c)
    (fun i tr => do
      let hi ← getF h i
      let lo ← getF l i
      let cl ← getF c (i - 1)
      let hl := hi - lo
      let hcp := |hi - cl|
      let lcp := |lo - cl|
      setF tr i (max hl (max hcp lcp)))
    1 (h.length - 1) (by simp [makeFloats]; omega)
    (by
      intro i arr hai hib _
      have hi : i < h.length := by omega
      have hil : i < l.length := by omega
      have hic : i - 1 < c.length := by omega
      have e2 : ((i : Int) - 1) = ((i - 1 : Nat) : Int) := by omega
      show Option.bind (getF h i) (fun hi => Option.bind (getF l i)
        (fun lo => Option.bind (getF c ((i : Int) - 1)) _)) = _
      rw [getF_nat, List.getElem?_eq_getElem hi, e2, getF_nat, getF_nat,
        List.getElem?_eq_getElem hil, List.getElem?_eq_getElem hic]
      simp [trueRange, List.getD_eq_getElem?_getD, List.getElem?_eq_getElem hi,
        List.getElem?_eq_getElem hil, List.getElem?_eq_getElem hic])
  unfold trueRangeLoop
  rw [forLoop_of_nat 1 _ 1 h.length rfl rfl, ho]
  congr 1
  apply list_eq_map_range
  · rw [hF.1]; simp [makeFloats]
  · intro j hj
    rw [hF.2 j (by simpa [makeFloats] using hj)]
    congr 1
    by_cases hj1 : 1 ≤ j
    · have : 1 ≤ j ∧ j < 1 + (h.length - 1) := by omega
      rw [if_pos this, if_pos hj1]
    · have : ¬ (1 ≤ j ∧ j < 1 + (h.length - 1)) := by omega
      rw [if_neg this, if_neg hj1]
      simp [makeFloats, List.getD_eq_getElem?_getD, List.getElem?_replicate, hj]

/-- What `calculateATR` returns on a long-enough aligned input: raw true ranges up to and
including index `period`, the Wilder recurrence (started from the seed) after it. -/
theorem calculateATR_eq (h l c : List ℚ) (period : Int) (hp : 1 ≤ period)
    (hlen : period + 1 ≤ (h.length : Int)) (hl : l.length = h.length)
    (hc : c.length = h.length) :
    calculateATR h l c period = some ((List.range h.length).map (fun (i : Nat) =>
      if (i : Int) ≤ period then (trList h l c).getD i 0
      else wilderSmooth (trList h l c) period.toNat i)) := by
  obtain ⟨p, rfl⟩ : ∃ p : Nat, period = (p : Int) := ⟨period.toNat, by omega⟩
  have hp1 : 1 ≤ p := by omega
  have hpn : p + 1 ≤ h.length := by omega
  have e1 : (1 : Int) = ((1 : Nat) : Int) := rfl
  have e0 : (0 : Int) = ((0 : Nat) : Int) := rfl
  have ep : ((p : Int) + 1) = ((p + 1 : Nat) : Int) := by omega
  have hsum := forRange_sum (trList h l c) p 1 0 (by rw [trList_length]; omega)
  set seed := windowMean (trList h l c) 1 p with hseedDef
  have hset : setF (makeFloats h.length) (p : Int) seed
      = some ((makeFloats h.length).set p seed) :=
    setF_nat _ _ _ (by simp [makeFloats]; omega)
  set atr1 := (makeFloats h.length).set p seed with hatr1
  have hl1 : atr1.length = h.length := by simp [hatr1, makeFloats]
  have hseed : atr1[p]? = some seed := by
    rw [hatr1, List.getElem?_set]; simp [makeFloats]; omega
  have hwseed : wilderSmooth (trList h l c) p p = seed := by
    obtain ⟨k, rfl⟩ : ∃ k, p = k + 1 := ⟨p - 1, by omega⟩
    simp [wilderSmooth, hseedDef]
  -- the Wilder loop
  obtain ⟨out1, h1, hF1⟩ := forRange_fill atr1 (wilderSmooth (trList h l c) p)
    (fun i atr => do
      let q ← getF atr (i - 1)
      let t ← getF (trList h l c) i
      setF atr i ((q * (((p : Int) - 1 : Int) : ℚ) + t) / ((p : Int) : ℚ)))
    (p + 1) (h.length - (p + 1)) (by rw [hl1]; omega)
    (by
      intro i arr hai hib hF
      have hi : i < h.length := by omega
      have e2 : ((i : Int) - 1) = ((i - 1 : Nat) : Int) := by omega
      have hprev : arr[i - 1]? = some (wilderSmooth (trList h l c) p (i - 1)) := by
        rw [hF.2 (i - 1) (by rw [hl1]; omega)]
        by_cases hcc : p + 1 ≤ i - 1 ∧ i - 1 < i
        · rw [if_pos hcc]
        · have hip : i - 1 = p := by omega
          rw [if_neg hcc, hip, List.getD_eq_getElem?_getD, hseed, hwseed]; rfl
      have hit : i < (trList h l c).length := by rw [trList_length]; exact hi
      have htr : (trList h l c)[i]? = some ((trList h l c).getD i 0) := by
        simp [List.getD_eq_getElem?_getD, List.getElem?_eq_getElem hit]
      show Option.bind (getF arr ((i : Int) - 1)) (fun q => Option.bind (getF (trList h l c) i) _) = _
      rw [e2, getF_nat, getF_nat, hprev, htr]
      simp only [Option.some_bind]
      congr 1
      obtain ⟨k, rfl⟩ : ∃ k, i = k + 1 := ⟨i - 1, by omega⟩
      have c1 : ¬ (k + 1 < p) := by omega
      have c2 : ¬ (k + 1 = p) := by omega
      simp only [wilderSmooth, if_neg c1, if_neg c2, Nat.add_sub_cancel])
  -- the warm-up loop
  obtain ⟨out2, h2, hF2⟩ := forRange_fill out1 (fun i => (trList h l c).getD i 0)
    (fun i atr => do
      let t ← getF (trList h l c) i
      setF atr i t)
    0 (p + 1) (by rw [hF1.1, hl1]; omega)
    (by
      intro i arr _ hib _
      have hi : i < (trList h l c).length := by rw [trList_length]; omega
      show Option.bind (getF (trList h l c) i) _ = _
      rw [getF_nat, List.getElem?_eq_getElem hi]
      simp [List.getD_eq_getElem?_getD, List.getElem?_eq_getElem hi])
  have hlen' : ¬ ((h.length : Int) < wrapInt ((p : Int) + 1)) := by
    have := wrapInt_le ((p : Int) + 1) (by omega)
    omega
  unfold calculateATR
  rw [if_neg hlen']
  show Option.bind (trueRangeLoop h l c (makeFloats h.length)) _ = _
  rw [trueRangeLoop_eq h l c (by omega) hl hc, Option.some_bind]
  show Option.bind (forLoop 1 ((p : Int) + 1)
    (fun j sum => (getF (trList h l c) j).bind (fun d => some (sum + d))) 0) _ = _
  rw [forLoop_of_nat 1 _ 1 (p + 1) rfl ep, Nat.add_sub_cancel, hsum, Option.some_bind]
  have hw0 : (0 + (List.take p (List.drop 1 (trList h l c))).sum) / ((p : Int) : ℚ) = seed := by
    simp [hseedDef, windowMean]
  show Option.bind (setF (makeFloats h.length) (p : Int) _) _ = _
  rw [hw0, hset, Option.some_bind]
  show Option.bind (forLoop ((p : Int) + 1) (h.length : Int) _ atr1) _ = _
  rw [forLoop_of_nat _ _ (p + 1) h.length ep rfl, h1, Option.some_bind]
  show forLoop 0 ((p : Int) + 1) _ out1 = _
  rw [forLoop_of_nat 0 _ 0 (p + 1) rfl ep, Nat.sub_zero, h2]
  congr 1
  apply list_eq_map_range
  · rw [hF2.1, hF1.1, hl1]
  · intro j hj
    have hj1 : j < out1.length := by rw [hF1.1, hl1]; exact hj
    rw [hF2.2 j hj1]
    have h1j := hF1.2 j (by rw [hl1]; exact hj)
    congr 1
    by_cases hw : j < p + 1
    · have hw' : (j : Int) ≤ (p : Int) := by omega
      simp only [Nat.zero_le, true_and, Nat.zero_add, hw, if_true, hw']
    · have hw' : ¬ ((j : Int) ≤ (p : Int)) := by omega
      have hg : out1.getD j 0 = wilderSmooth (trList h l c) p j := by
        rw [List.getD_eq_getElem?_getD, h1j, if_pos (by omega)]; rfl
      simp only [Nat.zero_le, true_and, Nat.zero_add, hw, if_false, hg, hw', Int.toNat_ofNat]


theorem Filled.step {init : List ℚ} {g : Nat → ℚ} {a i : Nat} {arr : List ℚ}
    (hF : Filled init g a i arr) (hai : a ≤ i) (hi : i < init.length) (v : ℚ) (hv : v = g i) :
    setF arr (i : Int) v = some (arr.set i v) ∧ Filled init g a (i + 1) (arr.set i v) := by
  subst hv
  refine ⟨setF_nat _ _ _ (by rw [hF.1]; exact hi), by simp [hF.1], fun j hj => ?_⟩
  rw [List.getElem?_set]
  by_cases hji : i = j
  · subst hji
    have : i < arr.length := by rw [hF.1]; exact hj
    simp [this, hai]
  · rw [if_neg hji, hF.2 j hj]
    by_cases hj2 : a ≤ j ∧ j < i
    · have : a ≤ j ∧ j < i + 1 := by omega
      simp [hj2, this]
    · have : ¬ (a ≤ j ∧ j < i + 1) := by omega
      simp [hj2, this]

theorem Filled.init (init : List ℚ) (g : Nat → ℚ) (a : Nat) : Filled init g a a init := by
  refine ⟨rfl, fun j hj => ?_⟩
  have : ¬ (a ≤ j ∧ j < a) := by omega
  simp [this, List.getD_eq_getElem?_getD, List.getElem?_eq_getElem hj]

theorem Filled.eq_map {n : Nat} {g : Nat → ℚ} {a k : Nat} {arr : List ℚ}
    (hF : Filled (makeFloats n) g a k arr) (hk : n ≤ k) :
    arr = (List.range n).map (fun i => if a ≤ i then g i else 0) := by
  apply list_eq_map_range
  · rw [hF.1]; simp [makeFloats]
  · intro j hj
    rw [hF.2 j (by simpa [makeFloats] using hj)]
    congr 1
    by_cases hj1 : a ≤ j
    · rw [if_pos ⟨hj1, by omega⟩, if_pos hj1]
    · rw [if_neg (by omega), if_neg hj1]
      simp [makeFloats, List.getD_eq_getElem?_getD, List.getElem?_replicate, hj]

theorem gainList_length (cs : List ℚ) : (gainList cs).length = cs.length := by
  simp [gainList]

theorem lossList_length (cs : List ℚ) : (lossList cs).length = cs.length := by
  simp [lossList]

theorem gainLossLoop_eq (cs : List ℚ) (hn : 1 ≤ cs.length) :
    gainLossLoop cs (makeFloats cs.length, makeFloats cs.length)
      = some (gainList cs, lossList cs) := by
  obtain ⟨out, ho, hG, hL⟩ := forRange_inv
    (fun k (gl : List ℚ × List ℚ) =>
      Filled (makeFloats cs.length) (fun i => max (cs.getD i 0 - cs.getD (i - 1) 0) 0) 1 k gl.1 ∧
      Filled (makeFloats cs.length) (fun i => max (cs.getD (i - 1) 0 - cs.getD i 0) 0) 1 k gl.2)
    (fun i gl => do
      let x ← getF cs i
      let y ← getF cs (i - 1)
      let change := x - y
      if change > 0 then do
        let gains ← setF gl.1 i change
        let losses ← setF gl.2 i 0
        pure (gains, losses)
      else do
        let gains ← setF gl.1 i 0
        let losses ← setF gl.2 i (-change)
        pure (gains, losses))
    (cs.length - 1) 1 (makeFloats cs.length, makeFloats cs.length)
    ⟨Filled.init _ _ _, Filled.init _ _ _⟩
    (by
      intro i gl hai hib hP
      obtain ⟨hG, hL⟩ := hP
      have hi : i < cs.length := by omega
      have hi1 : i - 1 < cs.length := by omega
      have hin : i < (makeFloats cs.length).length := by simpa [makeFloats] using hi
      have e2 : ((i : Int) - 1) = ((i - 1 : Nat) : Int) := by omega
      have gx : cs.getD i 0 = cs[i] := by
        simp [List.getD_eq_getElem?_getD, List.getElem?_eq_getElem hi]
      have gy : cs.getD (i - 1) 0 = cs[i - 1] := by
        simp [List.getD_eq_getElem?_getD, List.getElem?_eq_getElem hi1]
      show ∃ s', Option.bind (getF cs i) (fun x => Option.bind (getF cs ((i : Int) - 1)) _) = some s' ∧ _
      rw [getF_nat, List.getElem?_eq_getElem hi, e2, getF_nat, List.getElem?_eq_getElem hi1]
      simp only [Option.some_bind]
      by_cases hch : cs[i] - cs[i - 1] > 0
      · obtain ⟨sg, fg⟩ := hG.step hai hin (cs[i] - cs[i - 1])
          (by rw [gx, gy]; exact (max_eq_left (le_of_lt hch)).symm)
        obtain ⟨sl, fl⟩ := hL.step hai hin 0
          (by rw [gx, gy]; exact (max_eq_right (by linarith)).symm)
        refine ⟨(gl.1.set i (cs[i] - cs[i - 1]), gl.2.set i 0), ?_, fg, fl⟩
        rw [if_pos hch]
        show Option.bind (setF gl.1 (i : Int) _) (fun gains => Option.bind (setF gl.2 (i : Int) 0) _) = _
        rw [sg, sl]; rfl
      · obtain ⟨sg, fg⟩ := hG.step hai hin 0
          (by rw [gx, gy]; exact (max_eq_right (by linarith)).symm)
        obtain ⟨sl, fl⟩ := hL.step hai hin (-(cs[i] - cs[i - 1]))
          (by rw [gx, gy]; rw [max_eq_left (by linarith)]; ring)
        refine ⟨(gl.1.set i 0, gl.2.set i (-(cs[i] - cs[i - 1]))), ?_, fg, fl⟩
        rw [if_neg hch]
        show Option.bind (setF gl.1 (i : Int) 0) (fun gains => Option.bind (setF gl.2 (i : Int) _) _) = _
        rw [sg, sl]; rfl)
  unfold gainLossLoop
  rw [forLoop_of_nat 1 _ 1 cs.length rfl rfl, ho]
  have e1 : 1 + (cs.length - 1) = cs.length := by omega
  rw [e1] at hG hL
  have h1 := hG.eq_map (le_refl _)
  have h2 := hL.eq_map (le_refl _)
  show some out = some (gainList cs, lossList cs)
  congr 1
  exact Prod.ext h1 h2

theorem forRange_sum2 (gs ls : List ℚ) :
    ∀ (m a : Nat) (acc : ℚ × ℚ), a + m ≤ gs.length → a + m ≤ ls.length →
      forRange (a : Int) m (fun i (acc : ℚ × ℚ) =>
          (getF gs i).bind (fun g => (getF ls i).bind (fun l => some (acc.1 + g, acc.2 + l)))) acc
        = some (acc.1 + ((gs.drop a).take m).sum, acc.2 + ((ls.drop a).take m).sum) := by
  intro m
  induction m with
  | zero => intro a acc _ _; simp [forRange]
  | succ m ih =>
    intro a acc hg hl
    have hag : a < gs.length := by omega
    have hal : a < ls.length := by omega
    have hdg : gs.drop a = gs[a] :: gs.drop (a + 1) := by rw [List.drop_eq_getElem_cons hag]
    have hdl : ls.drop a = ls[a] :: ls.drop (a + 1) := by rw [List.drop_eq_getElem_cons hal]
    simp only [forRange, getF_nat, List.getElem?_eq_getElem hag, List.getElem?_eq_getElem hal,
      Option.some_bind]
    have := ih (a + 1) (acc.1 + gs[a], acc.2 + ls[a]) (by omega) (by omega)
    push_cast at this
    rw [this, hdg, hdl, List.take_succ_cons, List.take_succ_cons, List.sum_cons, List.sum_cons,
      add_assoc, add_assoc]

theorem wilderSmooth_seed (x : List ℚ) (p : Nat) (hp : 1 ≤ p) :
    wilderSmooth x p p = windowMean x 1 p := by
  obtain ⟨k, rfl⟩ : ∃ k, p = k + 1 := ⟨p - 1, by omega⟩
  simp [wilderSmooth]

theorem wilderSmooth_step (x : List ℚ) (p i : Nat) (h : p < i) :
    wilderSmooth x p i = (wilderSmooth x p (i - 1) * (((p : Int) - 1 : Int) : ℚ) + x.getD i 0)
      / ((p : Int) : ℚ) := by
  obtain ⟨k, rfl⟩ : ∃ k, i = k + 1 := ⟨i - 1, by omega⟩
  have c1 : ¬ (k + 1 < p) := by omega
  have c2 : ¬ (k + 1 = p) := by omega
  simp only [wilderSmooth, if_neg c1, if_neg c2, Nat.add_sub_cancel]

/-- What `calculateRSI` returns on a long-enough input. -/
theorem calculateRSI_eq (cs : List ℚ) (period : Int) (hp : 1 ≤ period)
    (hlen : period + 1 ≤ (cs.length : Int)) :
    calculateRSI cs period = some ((List.range cs.length).map (rsiRef cs period.toNat)) := by
  obtain ⟨p, rfl⟩ : ∃ p : Nat, period = (p : Int) := ⟨period.toNat, by omega⟩
  have hp1 : 1 ≤ p := by omega
  have hpn : p + 1 ≤ cs.length := by omega
  have ep : ((p : Int) + 1) = ((p + 1 : Nat) : Int) := by omega
  set G := gainList cs with hG
  set L := lossList cs with hL
  have hGl : G.length = cs.length := gainList_length cs
  have hLl : L.length = cs.length := lossList_length cs
  have hsum := forRange_sum2 G L p 1 (0, 0) (by omega) (by omega)
  set R : Nat → ℚ := fun i => rsiValue (wilderSmooth G p i) (wilderSmooth L p i) with hR
  have hset : setF (makeFloats cs.length) (p : Int) (R p) = some ((makeFloats cs.length).set p (R p)) :=
    setF_nat _ _ _ (by simp [makeFloats]; omega)
  set rsi1 := (makeFloats cs.length).set p (R p) with hrsi1
  have hl1 : rsi1.length = cs.length := by simp [hrsi1, makeFloats]
  have hseed : rsi1[p]? = some (R p) := by
    rw [hrsi1, List.getElem?_set]; simp [makeFloats]; omega
  -- the smoothing loop
  obtain ⟨st, hst, hA, hB, hF1⟩ := forRange_inv
    (fun k (st : ℚ × ℚ × List ℚ) =>
      st.1 = wilderSmooth G p (k - 1) ∧ st.2.1 = wilderSmooth L p (k - 1) ∧
      Filled rsi1 R (p + 1) k st.2.2)
    (fun i (st : ℚ × ℚ × List ℚ) => do
        let g ← getF G i
        let l ← getF L i
        let avgGain := (st.1 * (((p : Int) - 1 : Int) : ℚ) + g) / ((p : Int) : ℚ)
        let avgLoss := (st.2.1 * (((p : Int) - 1 : Int) : ℚ) + l) / ((p : Int) : ℚ)
        let rsi ← setF st.2.2 i (rsiValue avgGain avgLoss)
        pure (avgGain, avgLoss, rsi))
    (cs.length - (p + 1)) (p + 1) (wilderSmooth G p p, wilderSmooth L p p, rsi1)
    ⟨rfl, rfl, Filled.init _ _ _⟩
    (by
      intro i st hai hib hP
      obtain ⟨hA, hB, hF⟩ := hP
      have hi : i < cs.length := by omega
      have hiG : i < G.length := by omega
      have hiL : i < L.length := by omega
      have gG : G.getD i 0 = G[i] := by
        simp [List.getD_eq_getElem?_getD, List.getElem?_eq_getElem hiG]
      have gL : L.getD i 0 = L[i] := by
        simp [List.getD_eq_getElem?_getD, List.getElem?_eq_getElem hiL]
      have sA : (st.1 * (((p : Int) - 1 : Int) : ℚ) + G[i]) / ((p : Int) : ℚ) = wilderSmooth G p i := by
        rw [wilderSmooth_step G p i (by omega), hA, gG]
      have sB : (st.2.1 * (((p : Int) - 1 : Int) : ℚ) + L[i]) / ((p : Int) : ℚ) = wilderSmooth L p i := by
        rw [wilderSmooth_step L p i (by omega), hB, gL]
      obtain ⟨ss, fs⟩ := hF.step hai (by rw [hl1]; exact hi) (R i) rfl
      refine ⟨(wilderSmooth G p i, wilderSmooth L p i, st.2.2.set i (R i)), ?_, ?_, ?_, fs⟩
      · show Option.bind (getF G i) (fun g => Option.bind (getF L i) _) = _
        rw [getF_nat, getF_nat, List.getElem?_eq_getElem hiG, List.getElem?_eq_getElem hiL]
        simp only [Option.some_bind]
        show Option.bind (setF st.2.2 (i : Int) _) _ = _
        rw [sA, sB, ss]; rfl
      · simp
      · simp)
  -- the warm-up loop
  obtain ⟨out2, h2, hF2⟩ := forRange_fill st.2.2 (fun _ => (50 : ℚ))
    (fun i rsi => setF rsi i 50)
    0 p (by rw [hF1.1, hl1]; omega)
    (by intro i arr _ _ _; rfl)
  have hlen' : ¬ ((cs.length : Int) < wrapInt ((p : Int) + 1)) := by
    have := wrapInt_le ((p : Int) + 1) (by omega)
    omega
  unfold calculateRSI
  rw [if_neg hlen']
  show Option.bind (gainLossLoop cs (makeFloats cs.length, makeFloats cs.length)) _ = _
  rw [gainLossLoop_eq cs (by omega), Option.some_bind]
  show Option.bind (forLoop 1 ((p : Int) + 1) (fun i (acc : ℚ × ℚ) =>
          (getF G i).bind (fun g => (getF L i).bind (fun l => some (acc.1 + g, acc.2 + l))))
          (0, 0)) _ = _
  rw [forLoop_of_nat 1 _ 1 (p + 1) rfl ep, Nat.add_sub_cancel, hsum, Option.some_bind]
  have hsa : ((0 : ℚ) + (List.take p (List.drop 1 G)).sum) / ((p : Int) : ℚ) = wilderSmooth G p p := by
    rw [wilderSmooth_seed G p hp1]; simp [windowMean]
  have hsb : ((0 : ℚ) + (List.take p (List.drop 1 L)).sum) / ((p : Int) : ℚ) = wilderSmooth L p p := by
    rw [wilderSmooth_seed L p hp1]; simp [windowMean]
  show Option.bind (setF (makeFloats cs.length) (p : Int)
    (rsiValue (((0 : ℚ) + (List.take p (List.drop 1 G)).sum) / ((p : Int) : ℚ))
      (((0 : ℚ) + (List.take p (List.drop 1 L)).sum) / ((p : Int) : ℚ)))) _ = _
  rw [hsa, hsb]
  show Option.bind (setF (makeFloats cs.length) (p : Int) (R p)) _ = _
  rw [hset, Option.some_bind]
  show Option.bind (forLoop ((p : Int) + 1) (cs.length : Int) _ (_, _, rsi1)) _ = _
  rw [forLoop_of_nat _ _ (p + 1) cs.length ep rfl]
  dsimp only at hst ⊢
  rw [hst, Option.some_bind]
  rw [forLoop_of_nat 0 _ 0 p rfl rfl, Nat.sub_zero, h2]
  congr 1
  apply list_eq_map_range
  · rw [hF2.1, hF1.1, hl1]
  · intro j hj
    have hj1 : j < st.2.2.length := by rw [hF1.1, hl1]; exact hj
    rw [hF2.2 j hj1]
    have h1j := hF1.2 j (by rw [hl1]; exact hj)
    congr 1
    by_cases hw : j < p
    · simp only [Nat.zero_le, true_and, Nat.zero_add, hw, if_true, rsiRef, Int.toNat_ofNat]
    · have hg : st.2.2.getD j 0 = R j := by
        rw [List.getD_eq_getElem?_getD, h1j]
        by_cases hc : p + 1 ≤ j ∧ j < p + 1 + (cs.length - (p + 1))
        · rw [if_pos hc]; rfl
        · have hjp : j = p := by omega
          rw [if_neg hc, hjp, List.getD_eq_getElem?_getD, hseed]; rfl
      simp only [Nat.zero_le, true_and, Nat.zero_add, hw, if_false, hg, rsiRef, Int.toNat_ofNat]
      rfl

/-! ### Bounds for the RSI -/

theorem windowMean_nonneg (x : List ℚ) (lo len : Nat) (hx : ∀ v ∈ x, 0 ≤ v) :
    0 ≤ windowMean x lo len := by
  unfold windowMean
  apply div_nonneg
  · apply List.sum_nonneg
    intro v hv
    exact hx v (List.mem_of_mem_drop (List.mem_of_mem_take hv))
  · exact Nat.cast_nonneg len

theorem getD_nonneg (x : List ℚ) (i : Nat) (hx : ∀ v ∈ x, 0 ≤ v) : 0 ≤ x.getD i 0 := by
  rw [List.getD_eq_getElem?_getD]
  by_cases hi : i < x.length
  · rw [List.getElem?_eq_getElem hi]
    exact hx _ (List.getElem_mem hi)
  · rw [List.getElem?_eq_none (by omega)]
    exact le_refl _

theorem wilderSmooth_nonneg (x : List ℚ) (p : Nat) (hp : 1 ≤ p) (hx : ∀ v ∈ x, 0 ≤ v) :
    ∀ i, 0 ≤ wilderSmooth x p i := by
  intro i
  induction i with
  | zero =>
    have : p ≠ 0 := by omega
    simp [wilderSmooth, this]
  | succ k ih =>
    unfold wilderSmooth
    split_ifs
    · exact le_refl _
    · exact windowMean_nonneg x 1 p hx
    · apply div_nonneg
      · apply add_nonneg
        · apply mul_nonneg ih
          have : (0 : Int) ≤ (p : Int) - 1 := by omega
          exact_mod_cast this
        · exact getD_nonneg x (k + 1) hx
      · exact_mod_cast Nat.zero_le p

theorem gainList_nonneg (cs : List ℚ) : ∀ v ∈ gainList cs, 0 ≤ v := by
  intro v hv
  simp only [gainList, List.mem_map] at hv
  obtain ⟨i, _, rfl⟩ := hv
  split_ifs
  · exact le_max_right _ _
  · exact le_refl _

theorem lossList_nonneg (cs : List ℚ) : ∀ v ∈ lossList cs, 0 ≤ v := by
  intro v hv
  simp only [lossList, List.mem_map] at hv
  obtain ⟨i, _, rfl⟩ := hv
  split_ifs
  · exact le_max_right _ _
  · exact le_refl _

theorem rsi_formula_bounds (g l : ℚ) (hg : 0 ≤ g) (hl : 0 ≤ l) :
    0 ≤ (if l = 0 then (100 : ℚ) else 100 - 100 / (1 + g / l)) ∧
      (if l = 0 then (100 : ℚ) else 100 - 100 / (1 + g / l)) ≤ 100 := by
  by_cases h0 : l = 0
  · simp [h0]
  · rw [if_neg h0]
    have hlpos : 0 < l := lt_of_le_of_ne hl (Ne.symm h0)
    have hrs : 0 ≤ g / l := div_nonneg hg hl
    have hden : (1 : ℚ) ≤ 1 + g / l := by linarith
    have hpos : (0 : ℚ) < 1 + g / l := by linarith
    have h1 : 100 / (1 + g / l) ≤ 100 := by
      rw [div_le_iff₀ hpos]; nlinarith
    have h2 : 0 ≤ 100 / (1 + g / l) := div_nonneg (by norm_num) (le_of_lt hpos)
    constructor <;> linarith

theorem rsiRef_bounds (cs : List ℚ) (p : Nat) (hp : 1 ≤ p) (i : Nat) :
    0 ≤ rsiRef cs p i ∧ rsiRef cs p i ≤ 100 := by
  unfold rsiRef
  by_cases hi : i < p
  · rw [if_pos hi]; constructor <;> norm_num
  · rw [if_neg hi]
    exact rsi_formula_bounds _ _ (wilderSmooth_nonneg _ p hp (gainList_nonneg cs) i)
      (wilderSmooth_nonneg _ p hp (lossList_nonneg cs) i)

theorem map_range_getElem? (n : Nat) (f : Nat → ℚ) (i : Nat) (hi : i < n) :
    ((List.range n).map f)[i]? = some (f i) := by
  simp [List.getElem?_map, List.getElem?_range hi]

theorem getF_getD (xs : List ℚ) (i : Nat) (h : i < xs.length) :
    getF xs (i : Int) = some (xs.getD i 0) := by
  rw [getF_nat, List.getD_eq_getElem?_getD, List.getElem?_eq_getElem h]; rfl

/-! ### Turtle strategy: the analysis runs to completion -/

theorem sliceFrom_some {α : Type} (xs : List α) (lo : Int) (h0 : 0 ≤ lo)
    (h1 : lo ≤ (xs.length : Int)) : sliceFrom xs lo = some (xs.drop lo.toNat) := by
  simp [sliceFrom, h0, h1]

theorem getF_some_of_lt {α : Type} (xs : List α) (i : Int) (h0 : 0 ≤ i)
    (h1 : i < (xs.length : Int)) : ∃ v, getF xs i = some v := by
  have hlt : i.toNat < xs.length := by omega
  exact ⟨xs[i.toNat], by simp [getF, h0, List.getElem?_eq_getElem hlt]⟩

theorem TurtleStrategy.calculateBreakout_eq (ts : TurtleStrategy) (prices : List ℚ)
    (days : Int) (priceType : String) (hd : 0 ≤ days) :
    ts.calculateBreakout prices days priceType = some
      (if (prices.length : Int) < days then 0
       else if priceType = "high" then
         MaxFloat (prices.drop ((prices.length : Int) - days).toNat)
       else MinFloat (prices.drop ((prices.length : Int) - days).toNat)) := by
  unfold TurtleStrategy.calculateBreakout
  by_cases h : (prices.length : Int) < days
  · rw [if_pos h, if_pos h]
  · rw [if_neg h, if_neg h, sliceFrom_some prices _ (by omega) (by omega)]
    by_cases hp : priceType = "high"
    · simp [hp]
    · simp [hp]

/-- The records appended by `classify`, as one expression. -/
theorem TurtleStrategy.classify_eq (ts : TurtleStrategy) (env : Env) (instrument : String)
    (lv : TurtleStrategy.Levels) :
    ts.classify env instrument lv =
      (if (if lv.currentPrice ≥ lv.entryBreakoutHigh then [ts.entryLongSignal env instrument lv]
            else []) ++
          (if lv.currentPrice ≤ lv.entryBreakoutLow then [ts.entryShortSignal env instrument lv]
            else []) ++
          (if lv.currentPrice ≤ lv.exitBreakoutLow then
            [TurtleStrategy.exitLongSignal env instrument lv] else []) ++
          (if lv.currentPrice ≥ lv.exitBreakoutHigh then
            [TurtleStrategy.exitShortSignal env instrument lv] else []) = []
        then [TurtleStrategy.noSignal env instrument lv]
        else
          (if lv.currentPrice ≥ lv.entryBreakoutHigh then [ts.entryLongSignal env instrument lv]
            else []) ++
          (if lv.currentPrice ≤ lv.entryBreakoutLow then [ts.entryShortSignal env instrument lv]
            else []) ++
          (if lv.currentPrice ≤ lv.exitBreakoutLow then
            [TurtleStrategy.exitLongSignal env instrument lv] else []) ++
          (if lv.currentPrice ≥ lv.exitBreakoutHigh then
            [TurtleStrategy.exitShortSignal env instrument lv] else [])) := by
  unfold TurtleStrategy.classify
  by_cases h1 : lv.currentPrice ≥ lv.entryBreakoutHigh <;>
  by_cases h2 : lv.currentPrice ≤ lv.entryBreakoutLow <;>
  by_cases h3 : lv.currentPrice ≤ lv.exitBreakoutLow <;>
  by_cases h4 : lv.currentPrice ≥ lv.exitBreakoutHigh <;>
  simp [h1, h2, h3, h4]

@[simp] theorem TurtleStrategy.entryLongSignal_type (ts : TurtleStrategy) (env : Env)
    (instrument : String) (lv : TurtleStrategy.Levels) :
    (ts.entryLongSignal env instrument lv).SignalType = "entry_long" := rfl

@[simp] theorem TurtleStrategy.entryShortSignal_type (ts : TurtleStrategy) (env : Env)
    (instrument : String) (lv : TurtleStrategy.Levels) :
    (ts.entryShortSignal env instrument lv).SignalType = "entry_short" := rfl

@[simp] theorem TurtleStrategy.exitLongSignal_type (env : Env)
    (instrument : String) (lv : TurtleStrategy.Levels) :
    (TurtleStrategy.exitLongSignal env instrument lv).SignalType = "exit_long" := rfl

@[simp] theorem TurtleStrategy.exitShortSignal_type (env : Env)
    (instrument : String) (lv : TurtleStrategy.Levels) :
    (TurtleStrategy.exitShortSignal env instrument lv).SignalType = "exit_short" := rfl

@[simp] theorem TurtleStrategy.noSignal_type (env : Env)
    (instrument : String) (lv : TurtleStrategy.Levels) :
    (TurtleStrategy.noSignal env instrument lv).SignalType = "no_signal" := rfl

@[simp] theorem TurtleStrategy.entryLongSignal_price (ts : TurtleStrategy) (env : Env)
    (instrument : String) (lv : TurtleStrategy.Levels) :
    (ts.entryLongSignal env instrument lv).Price = lv.currentPrice := rfl

@[simp] theorem TurtleStrategy.entryShortSignal_price (ts : TurtleStrategy) (env : Env)
    (instrument : String) (lv : TurtleStrategy.Levels) :
    (ts.entryShortSignal env instrument lv).Price = lv.currentPrice := rfl

@[simp] theorem TurtleStrategy.exitLongSignal_price (env : Env)
    (instrument : String) (lv : TurtleStrategy.Levels) :
    (TurtleStrategy.exitLongSignal env instrument lv).Price = lv.currentPrice := rfl

@[simp] theorem TurtleStrategy.exitShortSignal_price (env : Env)
    (instrument : String) (lv : TurtleStrategy.Levels) :
    (TurtleStrategy.exitShortSignal env instrument lv).Price = lv.currentPrice := rfl

@[simp] theorem TurtleStrategy.noSignal_price (env : Env)
    (instrument : String) (lv : TurtleStrategy.Levels) :
    (TurtleStrategy.noSignal env instrument lv).Price = lv.currentPrice := rfl

/-- The classification of the latest close: which records `classify` returns. -/
theorem TurtleStrategy.classify_spec (ts : TurtleStrategy) (env : Env) (instrument : String)
    (lv : TurtleStrategy.Levels) :
    ((∃ s ∈ ts.classify env instrument lv, s.SignalType = "entry_long") ↔
        lv.currentPrice ≥ lv.entryBreakoutHigh) ∧
    ((∃ s ∈ ts.classify env instrument lv, s.SignalType = "entry_short") ↔
        lv.currentPrice ≤ lv.entryBreakoutLow) ∧
    ((∃ s ∈ ts.classify env instrument lv, s.SignalType = "exit_long") ↔
        lv.currentPrice ≤ lv.exitBreakoutLow) ∧
    ((∃ s ∈ ts.classify env instrument lv, s.SignalType = "exit_short") ↔
        lv.currentPrice ≥ lv.exitBreakoutHigh) ∧
    (∀ ty : String,
      (ts.classify env instrument lv).countP (fun s => decide (s.SignalType = ty)) ≤ 1) ∧
    (∀ s ∈ ts.classify env instrument lv, s.Price = lv.currentPrice) ∧
    ((¬ lv.currentPrice ≥ lv.entryBreakoutHigh ∧ ¬ lv.currentPrice ≤ lv.entryBreakoutLow ∧
        ¬ lv.currentPrice ≤ lv.exitBreakoutLow ∧ ¬ lv.currentPrice ≥ lv.exitBreakoutHigh) ↔
      ∃ s, ts.classify env instrument lv = [s] ∧ s.SignalType = "no_signal") ∧
    ((∃ s ∈ ts.classify env instrument lv, s.SignalType = "no_signal") →
      ∃ s, ts.classify env instrument lv = [s]) ∧
    ts.classify env instrument lv ≠ [] := by
  rw [ts.classify_eq env instrument lv]
  have n1 : ("entry_long" : String) ≠ "entry_short" := by decide
  have n2 : ("entry_long" : String) ≠ "exit_long" := by decide
  have n3 : ("entry_long" : String) ≠ "exit_short" := by decide
  have n4 : ("entry_long" : String) ≠ "no_signal" := by decide
  have n5 : ("entry_short" : String) ≠ "exit_long" := by decide
  have n6 : ("entry_short" : String) ≠ "exit_short" := by decide
  have n7 : ("entry_short" : String) ≠ "no_signal" := by decide
  have n8 : ("exit_long" : String) ≠ "exit_short" := by decide
  have n9 : ("exit_long" : String) ≠ "no_signal" := by decide
  have n10 : ("exit_short" : String) ≠ "no_signal" := by decide
  by_cases h1 : lv.currentPrice ≥ lv.entryBreakoutHigh <;>
  by_cases h2 : lv.currentPrice ≤ lv.entryBreakoutLow <;>
  by_cases h3 : lv.currentPrice ≤ lv.exitBreakoutLow <;>
  by_cases h4 : lv.currentPrice ≥ lv.exitBreakoutHigh <;>
  simp [h1, h2, h3, h4, n1, n2, n3, n4, n5, n6, n7, n8, n9, n10, n1.symm, n2.symm, n3.symm,
    n4.symm, n5.symm, n6.symm, n7.symm, n8.symm, n9.symm, n10.symm, List.countP_cons] <;>
  (intro ty; split_ifs <;> simp_all)

/-! ### Breakout levels -/

theorem foldl_max_spec (l : List ℚ) :
    ∀ acc : ℚ,
      acc ≤ l.foldl (fun maxVal v => if v > maxVal then v else maxVal) acc ∧
      (∀ x ∈ l, x ≤ l.foldl (fun maxVal v => if v > maxVal then v else maxVal) acc) ∧
      (l.foldl (fun maxVal v => if v > maxVal then v else maxVal) acc = acc ∨
        l.foldl (fun maxVal v => if v > maxVal then v else maxVal) acc ∈ l) := by
  induction l with
  | nil => intro acc; simp
  | cons a t ih =>
    intro acc
    simp only [List.foldl_cons]
    obtain ⟨h1, h2, h3⟩ := ih (if a > acc then a else acc)
    have hacc : acc ≤ (if a > acc then a else acc) := by
      split_ifs with h
      · exact le_of_lt h
      · exact le_refl _
    have ha : a ≤ (if a > acc then a else acc) := by
      split_ifs with h
      · exact le_refl _
      · exact not_lt.mp h
    refine ⟨le_trans hacc h1, ?_, ?_⟩
    · intro x hx
      rcases List.mem_cons.mp hx with rfl | hx
      · exact le_trans ha h1
      · exact h2 x hx
    · rcases h3 with h3 | h3
      · rw [h3]
        split_ifs with h
        · right; exact List.mem_cons_self _ _
        · left; rfl
      · right; exact List.mem_cons_of_mem _ h3

theorem foldl_min_spec (l : List ℚ) :
    ∀ acc : ℚ,
      l.foldl (fun minVal v => if v < minVal then v else minVal) acc ≤ acc ∧
      (∀ x ∈ l, l.foldl (fun minVal v => if v < minVal then v else minVal) acc ≤ x) ∧
      (l.foldl (fun minVal v => if v < minVal then v else minVal) acc = acc ∨
        l.foldl (fun minVal v => if v < minVal then v else minVal) acc ∈ l) := by
  induction l with
  | nil => intro acc; simp
  | cons a t ih =>
    intro acc
    simp only [List.foldl_cons]
    obtain ⟨h1, h2, h3⟩ := ih (if a < acc then a else acc)
    have hacc : (if a < acc then a else acc) ≤ acc := by
      split_ifs with h
      · exact le_of_lt h
      · exact le_refl _
    have ha : (if a < acc then a else acc) ≤ a := by
      split_ifs with h
      · exact le_refl _
      · exact not_lt.mp h
    refine ⟨le_trans h1 hacc, ?_, ?_⟩
    · intro x hx
      rcases List.mem_cons.mp hx with rfl | hx
      · exact le_trans h1 ha
      · exact h2 x hx
    · rcases h3 with h3 | h3
      · rw [h3]
        split_ifs with h
        · right; exact List.mem_cons_self _ _
        · left; rfl
      · right; exact List.mem_cons_of_mem _ h3

theorem MaxFloat_spec (values : List ℚ) (hne : values ≠ []) :
    MaxFloat values ∈ values ∧ ∀ x ∈ values, x ≤ MaxFloat values := by
  cases values with
  | nil => exact absurd rfl hne
  | cons v0 t =>
    obtain ⟨_, h2, h3⟩ := foldl_max_spec (v0 :: t) v0
    refine ⟨?_, h2⟩
    rcases h3 with h3 | h3
    · show List.foldl _ v0 (v0 :: t) ∈ v0 :: t
      rw [h3]; exact List.mem_cons_self _ _
    · exact h3

theorem MinFloat_spec (values : List ℚ) (hne : values ≠ []) :
    MinFloat values ∈ values ∧ ∀ x ∈ values, MinFloat values ≤ x := by
  cases values with
  | nil => exact absurd rfl hne
  | cons v0 t =>
    obtain ⟨_, h2, h3⟩ := foldl_min_spec (v0 :: t) v0
    refine ⟨?_, h2⟩
    rcases h3 with h3 | h3
    · show List.foldl _ v0 (v0 :: t) ∈ v0 :: t
      rw [h3]; exact List.mem_cons_self _ _
    · exact h3

/-- The trailing window of `days` values exists and both breakout levels are its extremes. -/
theorem TurtleStrategy.calculateBreakout_window (ts : TurtleStrategy) (prices : List ℚ)
    (days : Int) (hd1 : 1 ≤ days) (hd2 : days ≤ (prices.length : Int)) :
    (prices.drop (prices.length - days.toNat)).length = days.toNat ∧
    ts.calculateBreakout prices days "high"
      = some (MaxFloat (prices.drop (prices.length - days.toNat))) ∧
    ts.calculateBreakout prices days "low"
      = some (MinFloat (prices.drop (prices.length - days.toNat))) := by
  have e : ((prices.length : Int) - days).toNat = prices.length - days.toNat := by omega
  have hn : ¬ ((prices.length : Int) < days) := by omega
  refine ⟨by rw [List.length_drop]; omega, ?_, ?_⟩
  · rw [ts.calculateBreakout_eq prices days "high" (by omega), if_neg hn, e]; simp
  · rw [ts.calculateBreakout_eq prices days "low" (by omega), if_neg hn, e]
    have : ¬ (("low" : String) = "high") := by decide
    rw [if_neg this]

/-! ### Turtle strategy: what a returned analysis contains -/

theorem TurtleStrategy.classify_mem (ts : TurtleStrategy) (env : Env) (instrument : String)
    (lv : TurtleStrategy.Levels) (s : Signal) (hs : s ∈ ts.classify env instrument lv) :
    s = ts.entryLongSignal env instrument lv ∨ s = ts.entryShortSignal env instrument lv ∨
      s = TurtleStrategy.exitLongSignal env instrument lv ∨
      s = TurtleStrategy.exitShortSignal env instrument lv ∨
      s = TurtleStrategy.noSignal env instrument lv := by
  rw [ts.classify_eq env instrument lv] at hs
  by_cases h1 : lv.currentPrice ≥ lv.entryBreakoutHigh <;>
  by_cases h2 : lv.currentPrice ≤ lv.entryBreakoutLow <;>
  by_cases h3 : lv.currentPrice ≤ lv.exitBreakoutLow <;>
  by_cases h4 : lv.currentPrice ≥ lv.exitBreakoutHigh <;>
  simp [h1, h2, h3, h4] at hs <;> tauto

theorem TurtleStrategy.computeLevels_atr (ts : TurtleStrategy) (env : Env)
    (candles : List Candle) (lv : TurtleStrategy.Levels)
    (h : ts.computeLevels env candles = some lv) :
    ts.calculateATR (candles.map (fun candle => TurtleStrategy.floatField candle.high))
      (candles.map (fun candle => TurtleStrategy.floatField candle.low))
      (candles.map (fun candle => TurtleStrategy.floatField candle.close)) = some lv.atr := by
  simp only [TurtleStrategy.computeLevels, Option.bind_eq_bind, Option.bind_eq_some,
    Option.pure_def, Option.some.injEq] at h
  obtain ⟨_, _, _, _, _, _, _, _, a, ha, _, _, _, _, _, _, _, _, _, _, _, _, rfl⟩ := h
  exact ha

theorem TurtleStrategy.AnalyzeInstrument_ok (ts : TurtleStrategy) (env : Env)
    (instrument : String) (candles : List Candle) (sigs : List Signal)
    (h : ts.AnalyzeInstrument env instrument (Result.ok candles) = some (Result.ok sigs)) :
    ¬ ((candles.length : Int) < ts.lookbackPeriod) ∧
      ∃ lv, ts.computeLevels env candles = some lv ∧ sigs = ts.classify env instrument lv := by
  unfold TurtleStrategy.AnalyzeInstrument at h
  by_cases hlen : (candles.length : Int) < ts.lookbackPeriod
  · simp [hlen] at h
  · refine ⟨hlen, ?_⟩
    simp only [if_neg hlen, Option.bind_eq_bind, Option.bind_eq_some, Option.pure_def,
      Option.some.injEq, Result.ok.injEq] at h
    obtain ⟨lv, hlv, rfl⟩ := h
    exact ⟨lv, hlv, rfl⟩

/-! ### MA-Crossover: shape of the crossover result -/

theorem MACrossoverStrategy.goldenBlock_cases (m : MACrossoverStrategy) (env : Env)
    (ind : TechnicalIndicators) (instrument : String) (currentIdx : Int) (currentPrice : ℚ)
    (currentDate : Time) (fastNow fastPrev slowNow slowPrev : ℚ) (signals out : List Signal)
    (h : m.goldenBlock env ind instrument currentIdx currentPrice currentDate fastNow fastPrev
      slowNow slowPrev signals = some out) :
    out = signals ∨
      (∃ s : Signal, out = signals ++ [s] ∧ s.SignalType = "entry_long" ∧
        s.Price = currentPrice ∧ s.StopLoss = 0 ∧ s.TakeProfit = 0 ∧ s.PositionSize = 0 ∧
        s.Instrument = instrument ∧ s.Timestamp = currentDate) ∧
      m.config.CrossoverTypes.GoldenCross = true ∧ fastPrev ≤ slowPrev ∧ fastNow > slowNow ∧
      m.checkConfirmation currentIdx "golden" = some true ∧
      m.rsiAllowsLong ind currentIdx = some true := by
  unfold MACrossoverStrategy.goldenBlock at h
  by_cases hc : m.config.CrossoverTypes.GoldenCross = true ∧ fastPrev ≤ slowPrev ∧
      fastNow > slowNow
  · rw [if_pos hc] at h
    simp only [Option.bind_eq_bind, Option.bind_eq_some] at h
    obtain ⟨confirmed, hconf, h⟩ := h
    cases confirmed with
    | false =>
      simp only [Bool.false_eq_true, if_false, Option.pure_def, Option.some.injEq] at h
      exact Or.inl h.symm
    | true =>
      simp only [if_true, Option.bind_eq_some] at h
      obtain ⟨allowed, hall, h⟩ := h
      cases allowed with
      | false =>
        simp only [Bool.false_eq_true, if_false, Option.pure_def, Option.some.injEq] at h
        exact Or.inl h.symm
      | true =>
        simp only [if_true, Option.pure_def, Option.some.injEq] at h
        exact Or.inr ⟨⟨_, h.symm, rfl, rfl, rfl, rfl, rfl, rfl, rfl⟩, hc.1, hc.2.1, hc.2.2,
          hconf, hall⟩
  · rw [if_neg hc] at h
    simp only [Option.pure_def, Option.some.injEq] at h
    exact Or.inl h.symm

theorem MACrossoverStrategy.deathBlock_cases (m : MACrossoverStrategy) (env : Env)
    (ind : TechnicalIndicators) (instrument : String) (currentIdx : Int) (currentPrice : ℚ)
    (currentDate : Time) (fastNow fastPrev slowNow slowPrev : ℚ) (signals out : List Signal)
    (h : m.deathBlock env ind instrument currentIdx currentPrice currentDate fastNow fastPrev
      slowNow slowPrev signals = some out) :
    out = signals ∨
      (∃ s : Signal, out = signals ++ [s] ∧ s.SignalType = "entry_short" ∧
        s.Price = currentPrice ∧ s.StopLoss = 0 ∧ s.TakeProfit = 0 ∧ s.PositionSize = 0 ∧
        s.Instrument = instrument ∧ s.Timestamp = currentDate) ∧
      m.config.CrossoverTypes.DeathCross = true ∧ fastPrev ≥ slowPrev ∧ fastNow < slowNow ∧
      m.checkConfirmation currentIdx "death" = some true ∧
      m.rsiAllowsShort ind currentIdx = some true := by
  unfold MACrossoverStrategy.deathBlock at h
  by_cases hc : m.config.CrossoverTypes.DeathCross = true ∧ fastPrev ≥ slowPrev ∧
      fastNow < slowNow
  · rw [if_pos hc] at h
    simp only [Option.bind_eq_bind, Option.bind_eq_some] at h
    obtain ⟨confirmed, hconf, h⟩ := h
    cases confirmed with
    | false =>
      simp only [Bool.false_eq_true, if_false, Option.pure_def, Option.some.injEq] at h
      exact Or.inl h.symm
    | true =>
      simp only [if_true, Option.bind_eq_some] at h
      obtain ⟨allowed, hall, h⟩ := h
      cases allowed with
      | false =>
        simp only [Bool.false_eq_true, if_false, Option.pure_def, Option.some.injEq] at h
        exact Or.inl h.symm
      | true =>
        simp only [if_true, Option.pure_def, Option.some.injEq] at h
        exact Or.inr ⟨⟨_, h.symm, rfl, rfl, rfl, rfl, rfl, rfl, rfl⟩, hc.1, hc.2.1, hc.2.2,
          hconf, hall⟩
  · rw [if_neg hc] at h
    simp only [Option.pure_def, Option.some.injEq] at h
    exact Or.inl h.symm

/-- Every result of `analyzeCrossovers` is empty or a single entry candidate with zeroed
risk fields. -/
theorem MACrossoverStrategy.analyzeCrossovers_cases (m : MACrossoverStrategy) (env : Env)
    (instrument : String) (currentIdx : Int) (currentPrice : ℚ) (currentDate : Time)
    (sigs : List Signal)
    (h : m.analyzeCrossovers env instrument currentIdx currentPrice currentDate = some sigs) :
    sigs = [] ∨
      ∃ s : Signal, sigs = [s] ∧
        (s.SignalType = "entry_long" ∨ s.SignalType = "entry_short") ∧
        s.Price = currentPrice ∧ s.StopLoss = 0 ∧ s.TakeProfit = 0 ∧ s.PositionSize = 0 ∧
        s.Instrument = instrument ∧ s.Timestamp = currentDate := by
  unfold MACrossoverStrategy.analyzeCrossovers at h
  simp only [Option.bind_eq_bind, Option.bind_eq_some] at h
  obtain ⟨ind, _, h⟩ := h
  by_cases hg : currentIdx < 1 ∨ ind.FastMA.length < 2 ∨ ind.SlowMA.length < 2
  · rw [if_pos hg] at h
    simp only [Option.pure_def, Option.some.injEq] at h
    exact Or.inl h.symm
  · rw [if_neg hg] at h
    simp only [Option.bind_eq_some] at h
    obtain ⟨fastNow, _, fastPrev, _, slowNow, _, slowPrev, _, mid, hmid, hout⟩ := h
    rcases m.goldenBlock_cases env ind instrument currentIdx currentPrice currentDate fastNow
        fastPrev slowNow slowPrev [] mid hmid with rfl | ⟨⟨s, rfl, hs⟩, _, _, hgt, _, _⟩
    · rcases m.deathBlock_cases env ind instrument currentIdx currentPrice currentDate fastNow
          fastPrev slowNow slowPrev [] sigs hout with rfl | ⟨⟨s, rfl, hs⟩, _⟩
      · exact Or.inl rfl
      · exact Or.inr ⟨s, rfl, Or.inr hs.1, hs.2⟩
    · rcases m.deathBlock_cases env ind instrument currentIdx currentPrice currentDate fastNow
          fastPrev slowNow slowPrev ([] ++ [s]) sigs hout with rfl | ⟨_, _, _, hlt, _, _⟩
      · exact Or.inr ⟨s, rfl, Or.inl hs.1, hs.2⟩
      · exact absurd hgt (not_lt.mpr (le_of_lt hlt))

/-! ### MA-Crossover: volume confirmation and risk management keep the record -/

theorem MACrossoverStrategy.volumeKeep_eq (m : MACrossoverStrategy) (env : Env)
    (currentVolume avgVolume : ℚ) (signals : List Signal) :
    m.volumeKeep env currentVolume avgVolume signals =
      if quotientAtLeast currentVolume avgVolume m.config.MinVolumeMultiplier = true then
        signals.map (fun s => { s with
          Reason := s.Reason ++ MACrossoverStrategy.volumeText env currentVolume
            (currentVolume / avgVolume) })
      else [] := by
  induction signals with
  | nil => simp [MACrossoverStrategy.volumeKeep]
  | cons s rest ih =>
    by_cases hq : quotientAtLeast currentVolume avgVolume m.config.MinVolumeMultiplier = true
    · rw [if_pos hq] at ih ⊢
      simp only [MACrossoverStrategy.volumeKeep, if_pos hq, ih, List.map_cons]
    · rw [if_neg hq] at ih ⊢
      simp only [MACrossoverStrategy.volumeKeep, if_neg hq, ih]

/-- A record returned by `filterByVolume` is one of the candidates up to its `Reason`. -/
theorem MACrossoverStrategy.filterByVolume_mem (m : MACrossoverStrategy) (env : Env)
    (signals out : List Signal) (currentVolume : ℚ) (volumes : List ℚ) (currentIdx : Int)
    (h : m.filterByVolume env signals currentVolume volumes currentIdx = some out)
    (s : Signal) (hs : s ∈ out) :
    ∃ s0 ∈ signals, ∃ reason : String, s = { s0 with Reason := reason } := by
  unfold MACrossoverStrategy.filterByVolume at h
  by_cases h20 : volumes.length < 20
  · rw [if_pos h20] at h
    simp only [Option.some.injEq] at h
    subst h
    exact ⟨s, hs, s.Reason, rfl⟩
  · rw [if_neg h20] at h
    simp only [Option.bind_eq_bind, Option.bind_eq_some] at h
    obtain ⟨st, _, h⟩ := h
    by_cases hc : st.2 = 0
    · rw [if_pos hc] at h
      simp only [Option.some.injEq] at h
      subst h
      exact ⟨s, hs, s.Reason, rfl⟩
    · rw [if_neg hc] at h
      simp only [Option.some.injEq] at h
      subst h
      rw [m.volumeKeep_eq] at hs
      split_ifs at hs with hq
      · obtain ⟨s0, hs0, rfl⟩ := List.mem_map.mp hs
        exact ⟨s0, hs0, _, rfl⟩
      · exact absurd hs (List.not_mem_nil _)

/-- An entry record whose `PositionSize` was `0` leaves `calculateRiskManagement` with
`PositionSize = 0` whenever its `StopLoss` equals its `Price`. -/
theorem MACrossoverStrategy.calculateRiskManagement_guard (m : MACrossoverStrategy)
    (env : Env) (signal out : Signal) (currentIdx : Int)
    (h : m.calculateRiskManagement env signal currentIdx = some out)
    (h0 : signal.PositionSize = 0) :
    out.SignalType = signal.SignalType ∧ (out.StopLoss = out.Price → out.PositionSize = 0) := by
  unfold MACrossoverStrategy.calculateRiskManagement at h
  simp only [Option.bind_eq_bind, Option.bind_eq_some] at h
  obtain ⟨ind, _, h⟩ := h
  by_cases hg : ind.ATR.length = 0 ∨ currentIdx ≥ (ind.ATR.length : Int)
  · rw [if_pos hg] at h
    simp only [Option.pure_def, Option.some.injEq] at h
    subst h
    exact ⟨rfl, fun _ => h0⟩
  · rw [if_neg hg] at h
    simp only [Option.bind_eq_some] at h
    obtain ⟨atr, _, h⟩ := h
    by_cases hl : signal.SignalType = "entry_long"
    · rw [if_pos hl] at h
      simp only [Option.pure_def, Option.some.injEq] at h
      subst h
      refine ⟨rfl, ?_⟩
      intro hsl
      simp only [MACrossoverStrategy.riskLong] at hsl ⊢
      have hz : ¬ (signal.Price
          - (signal.Price - atr * m.config.StopLossATRMultiplier) > 0) := by
        rw [hsl]; simp
      rw [if_neg hz]; exact h0
    · rw [if_neg hl] at h
      by_cases hsh : signal.SignalType = "entry_short"
      · rw [if_pos hsh] at h
        simp only [Option.pure_def, Option.some.injEq] at h
        subst h
        refine ⟨rfl, ?_⟩
        intro hsl
        simp only [MACrossoverStrategy.riskShort] at hsl ⊢
        have hz : ¬ (signal.Price + atr * m.config.StopLossATRMultiplier
            - signal.Price > 0) := by
          rw [hsl]; simp
        rw [if_neg hz]; exact h0
      · rw [if_neg hsh] at h
        simp only [Option.pure_def, Option.some.injEq] at h
        subst h
        exact ⟨rfl, fun _ => h0⟩

theorem MACrossoverStrategy.riskLoop_guard (m : MACrossoverStrategy) (env : Env)
    (currentIdx : Int) :
    ∀ (signals out : List Signal), m.riskLoop env currentIdx signals = some out →
      (∀ s ∈ signals, s.PositionSize = 0) →
      ∀ s ∈ out, s.StopLoss = s.Price → s.PositionSize = 0 := by
  intro signals
  induction signals with
  | nil =>
    intro out h _ s hs
    simp only [MACrossoverStrategy.riskLoop, Option.some.injEq] at h
    subst h
    exact absurd hs (List.not_mem_nil _)
  | cons a rest ih =>
    intro out h h0 s hs
    rw [MACrossoverStrategy.riskLoop] at h
    by_cases he : a.SignalType = "entry_long" ∨ a.SignalType = "entry_short"
    · simp only [if_pos he, Option.bind_eq_bind, Option.bind_eq_some,
        Option.pure_def, Option.some.injEq] at h
      obtain ⟨a1, ha1, rest1, hrest, rfl⟩ := h
      rcases List.mem_cons.mp hs with rfl | hs
      · exact (m.calculateRiskManagement_guard env a s currentIdx ha1
          (h0 a (List.mem_cons_self _ _))).2
      · exact ih rest1 hrest (fun x hx => h0 x (List.mem_cons_of_mem _ hx)) s hs
    · simp only [if_neg he, Option.bind_eq_bind, Option.bind_eq_some,
        Option.pure_def, Option.some.injEq, Option.some_bind] at h
      obtain ⟨rest1, hrest, rfl⟩ := h
      rcases List.mem_cons.mp hs with rfl | hs
      · exact fun _ => h0 _ (List.mem_cons_self _ _)
      · exact ih rest1 hrest (fun x hx => h0 x (List.mem_cons_of_mem _ hx)) s hs

/-- Every record returned by `analyzeSignals` whose `StopLoss` equals its `Price` has
`PositionSize = 0`. -/
theorem MACrossoverStrategy.analyzeSignals_guard (m : MACrossoverStrategy) (env : Env)
    (instrument : String) (prices closes volumes : List ℚ) (dates : List Time)
    (sigs : List Signal)
    (h : m.analyzeSignals env instrument prices closes volumes dates = some (Result.ok sigs)) :
    ∀ s ∈ sigs, s.StopLoss = s.Price → s.PositionSize = 0 := by
  unfold MACrossoverStrategy.analyzeSignals at h
  cases hind : m.indicators with
  | none =>
    rw [hind] at h
    simp only [Option.some.injEq, Result.ok.injEq] at h
    subst h
    intro s hs; exact absurd hs (List.not_mem_nil _)
  | some ind =>
    rw [hind] at h
    simp only at h
    by_cases hl : ind.FastMA.length = 0 ∨ ind.SlowMA.length = 0
    · rw [if_pos hl] at h
      simp only [Option.some.injEq, Result.ok.injEq] at h
      subst h
      intro s hs; exact absurd hs (List.not_mem_nil _)
    · rw [if_neg hl] at h
      simp only [Option.bind_eq_bind, Option.bind_eq_some] at h
      obtain ⟨currentPrice, _, currentDate, _, currentVolume, _, pass, _, h⟩ := h
      cases pass with
      | false =>
        simp only [Bool.not_false, if_true, Option.some.injEq, Result.ok.injEq] at h
        subst h
        intro s hs; exact absurd hs (List.not_mem_nil _)
      | true =>
        simp only [Bool.not_true, Bool.false_eq_true, if_false, Option.bind_eq_some,
          List.nil_append] at h
        obtain ⟨cross, hcross, h⟩ := h
        have hcross0 : ∀ s ∈ cross, s.PositionSize = 0 := by
          rcases m.analyzeCrossovers_cases env instrument _ _ _ cross hcross with
            rfl | ⟨s0, rfl, _, _, _, _, hps, _⟩
          · intro s hs; exact absurd hs (List.not_mem_nil _)
          · intro s hs
            rw [List.mem_singleton] at hs
            rw [hs]; exact hps
        by_cases hv : m.config.UseVolumeConfirmation = true ∧ cross.length > 0
        · simp only [if_pos hv, Option.bind_eq_some, Option.pure_def, Option.some.injEq,
            Result.ok.injEq] at h
          obtain ⟨filtered, hfil, out, hout, rfl⟩ := h
          refine m.riskLoop_guard env _ filtered out hout ?_
          intro s hs
          obtain ⟨s0, hs0, reason, rfl⟩ :=
            m.filterByVolume_mem env cross filtered _ volumes _ hfil s hs
          exact hcross0 s0 hs0
        · simp only [if_neg hv, Option.bind_eq_some, Option.pure_def, Option.some.injEq,
            Result.ok.injEq, Option.some_bind] at h
          obtain ⟨out, hout, rfl⟩ := h
          exact m.riskLoop_guard env _ cross out hout hcross0

/-! ### MA-Crossover: confirmation window and RSI gate -/

theorem MACrossoverStrategy.confirmLoop_golden (fastMA slowMA : List ℚ) (t : Nat)
    (hf : t < fastMA.length) (hs : t < slowMA.length) :
    ∀ (k i : Nat), i + k ≤ t + 1 →
      ∃ b : Bool,
        MACrossoverStrategy.confirmLoop fastMA slowMA (t : Int) "golden" k (i : Int) = some b ∧
        (b = true ↔ ∀ j : Nat, j < k →
          fastMA.getD (t - (i + j)) 0 > slowMA.getD (t - (i + j)) 0) := by
  intro k
  induction k with
  | zero => intro i _; exact ⟨true, rfl, by simp⟩
  | succ k ih =>
    intro i hik
    have e : ((t : Int) - (i : Int)) = ((t - i : Nat) : Int) := by omega
    have hb : ¬ (((t - i : Nat) : Int) < 0 ∨ ((t - i : Nat) : Int) ≥ (fastMA.length : Int) ∨
        ((t - i : Nat) : Int) ≥ (slowMA.length : Int)) := by omega
    obtain ⟨b, hb1, hb2⟩ := ih (i + 1) (by omega)
    have hb1' : MACrossoverStrategy.confirmLoop fastMA slowMA (t : Int) "golden" k
        ((i : Int) + 1) = some b := by
      rw [← hb1]; push_cast; rfl
    simp only [MACrossoverStrategy.confirmLoop, e, if_neg hb, getF_getD _ _ (show t - i <
      fastMA.length by omega), getF_getD _ _ (show t - i < slowMA.length by omega),
      Option.bind_eq_bind, Option.some_bind, if_true, hb1']
    by_cases hc : fastMA.getD (t - i) 0 ≤ slowMA.getD (t - i) 0
    · rw [if_pos hc]
      refine ⟨false, rfl, ?_⟩
      constructor
      · intro h; exact absurd h (by decide)
      · intro h
        have := h 0 (by omega)
        simp only [Nat.add_zero] at this
        exact absurd hc (not_le.mpr this)
    · rw [if_neg hc]
      refine ⟨b, rfl, ?_⟩
      rw [hb2]
      constructor
      · intro h j hj
        cases j with
        | zero => simpa using not_le.mp hc
        | succ j =>
          have := h j (by omega)
          have e2 : t - (i + 1 + j) = t - (i + (j + 1)) := by omega
          rw [e2] at this; exact this
      · intro h j hj
        have := h (j + 1) (by omega)
        have e2 : t - (i + (j + 1)) = t - (i + 1 + j) := by omega
        rw [e2] at this; exact this

theorem MACrossoverStrategy.confirmLoop_death (fastMA slowMA : List ℚ) (t : Nat)
    (hf : t < fastMA.length) (hs : t < slowMA.length) :
    ∀ (k i : Nat), i + k ≤ t + 1 →
      ∃ b : Bool,
        MACrossoverStrategy.confirmLoop fastMA slowMA (t : Int) "death" k (i : Int) = some b ∧
        (b = true ↔ ∀ j : Nat, j < k →
          fastMA.getD (t - (i + j)) 0 < slowMA.getD (t - (i + j)) 0) := by
  intro k
  induction k with
  | zero => intro i _; exact ⟨true, rfl, by simp⟩
  | succ k ih =>
    intro i hik
    have e : ((t : Int) - (i : Int)) = ((t - i : Nat) : Int) := by omega
    have hb : ¬ (((t - i : Nat) : Int) < 0 ∨ ((t - i : Nat) : Int) ≥ (fastMA.length : Int) ∨
        ((t - i : Nat) : Int) ≥ (slowMA.length : Int)) := by omega
    have hng : ¬ (("death" : String) = "golden") := by decide
    obtain ⟨b, hb1, hb2⟩ := ih (i + 1) (by omega)
    have hb1' : MACrossoverStrategy.confirmLoop fastMA slowMA (t : Int) "death" k
        ((i : Int) + 1) = some b := by
      rw [← hb1]; push_cast; rfl
    simp only [MACrossoverStrategy.confirmLoop, e, if_neg hb, getF_getD _ _ (show t - i <
      fastMA.length by omega), getF_getD _ _ (show t - i < slowMA.length by omega),
      Option.bind_eq_bind, Option.some_bind, if_true, if_neg hng, hb1']
    by_cases hc : fastMA.getD (t - i) 0 ≥ slowMA.getD (t - i) 0
    · rw [if_pos hc]
      refine ⟨false, rfl, ?_⟩
      constructor
      · intro h; exact absurd h (by decide)
      · intro h
        have := h 0 (by omega)
        simp only [Nat.add_zero] at this
        exact absurd hc (not_le.mpr this)
    · rw [if_neg hc]
      refine ⟨b, rfl, ?_⟩
      rw [hb2]
      constructor
      · intro h j hj
        cases j with
        | zero => simpa using not_le.mp hc
        | succ j =>
          have := h j (by omega)
          have e2 : t - (i + 1 + j) = t - (i + (j + 1)) := by omega
          rw [e2] at this; exact this
      · intro h j hj
        have := h (j + 1) (by omega)
        have e2 : t - (i + (j + 1)) = t - (i + 1 + j) := by omega
        rw [e2] at this; exact this

/-- The loop of `checkConfirmation` never faults: every index is tested before it is read. -/
theorem MACrossoverStrategy.confirmLoop_some (fastMA slowMA : List ℚ) (currentIdx : Int)
    (crossType : String) :
    ∀ (k : Nat) (i : Int), ∃ b : Bool,
      MACrossoverStrategy.confirmLoop fastMA slowMA currentIdx crossType k i = some b := by
  intro k
  induction k with
  | zero => intro i; exact ⟨true, rfl⟩
  | succ k ih =>
    intro i
    obtain ⟨b, hb⟩ := ih (i + 1)
    unfold MACrossoverStrategy.confirmLoop
    by_cases hbnd : currentIdx - i < 0 ∨ currentIdx - i ≥ (fastMA.length : Int) ∨
        currentIdx - i ≥ (slowMA.length : Int)
    · exact ⟨false, by simp only [if_pos hbnd]⟩
    · obtain ⟨f, hf⟩ := getF_some_of_lt fastMA (currentIdx - i) (by omega) (by omega)
      obtain ⟨s, hs⟩ := getF_some_of_lt slowMA (currentIdx - i) (by omega) (by omega)
      simp only [if_neg hbnd, hf, hs, Option.bind_eq_bind, Option.some_bind, hb]
      by_cases h1 : crossType = "golden"
      · by_cases h2 : f ≤ s
        · exact ⟨false, by simp only [if_pos h1, if_pos h2]⟩
        · exact ⟨b, by simp only [if_pos h1, if_neg h2]⟩
      · by_cases h3 : crossType = "death"
        · by_cases h4 : f ≥ s
          · exact ⟨false, by simp only [if_neg h1, if_pos h3, if_pos h4]⟩
          · exact ⟨b, by simp only [if_neg h1, if_pos h3, if_neg h4]⟩
        · exact ⟨b, by simp only [if_neg h1, if_neg h3]⟩

theorem MACrossoverStrategy.checkConfirmation_some (m : MACrossoverStrategy)
    (ind : TechnicalIndicators) (hind : m.indicators = some ind) (currentIdx : Int)
    (crossType : String) : ∃ b : Bool, m.checkConfirmation currentIdx crossType = some b := by
  unfold MACrossoverStrategy.checkConfirmation
  by_cases hk : m.config.CrossoverTypes.RequireConfirmation ≤ 0
  · exact ⟨true, by rw [if_pos hk]⟩
  · rw [if_neg hk, hind]
    simp only [Option.bind_eq_bind, Option.some_bind]
    by_cases hlt : currentIdx < m.config.CrossoverTypes.RequireConfirmation
    · exact ⟨false, by rw [if_pos hlt]⟩
    · rw [if_neg hlt]
      exact MACrossoverStrategy.confirmLoop_some _ _ _ _ _ _

theorem MACrossoverStrategy.rsiAllowsLong_eq (m : MACrossoverStrategy)
    (ind : TechnicalIndicators) (t : Nat) :
    m.rsiAllowsLong ind (t : Int) = some
      (if m.config.Filters.RSIFilter = true then
        (if t < ind.RSI.length then
          decide (ind.RSI.getD t 0 < (m.config.Filters.RSIOverbought : ℚ)) else false)
       else true) := by
  unfold MACrossoverStrategy.rsiAllowsLong
  cases hr : m.config.Filters.RSIFilter with
  | false => simp
  | true =>
    by_cases hlen : t < ind.RSI.length
    · have h1 : ((ind.RSI.length : Int) > (t : Int)) := by omega
      simp only [Bool.not_true, Bool.false_eq_true, if_false, if_pos h1, getF_getD _ _ hlen,
        Option.bind_eq_bind, Option.some_bind, Option.pure_def, if_true, if_pos hlen]
    · have h1 : ¬ ((ind.RSI.length : Int) > (t : Int)) := by omega
      simp only [Bool.not_true, Bool.false_eq_true, if_false, if_neg h1, if_true, if_neg hlen]

theorem MACrossoverStrategy.rsiAllowsShort_eq (m : MACrossoverStrategy)
    (ind : TechnicalIndicators) (t : Nat) :
    m.rsiAllowsShort ind (t : Int) = some
      (if m.config.Filters.RSIFilter = true then
        (if t < ind.RSI.length then
          decide (ind.RSI.getD t 0 > (m.config.Filters.RSIOversold : ℚ)) else false)
       else true) := by
  unfold MACrossoverStrategy.rsiAllowsShort
  cases hr : m.config.Filters.RSIFilter with
  | false => simp
  | true =>
    by_cases hlen : t < ind.RSI.length
    · have h1 : ((ind.RSI.length : Int) > (t : Int)) := by omega
      simp only [Bool.not_true, Bool.false_eq_true, if_false, if_pos h1, getF_getD _ _ hlen,
        Option.bind_eq_bind, Option.some_bind, Option.pure_def, if_true, if_pos hlen]
    · have h1 : ¬ ((ind.RSI.length : Int) > (t : Int)) := by omega
      simp only [Bool.not_true, Bool.false_eq_true, if_false, if_neg h1, if_true, if_neg hlen]

theorem MACrossoverStrategy.goldenBlock_eq (m : MACrossoverStrategy) (env : Env)
    (ind : TechnicalIndicators) (instrument : String) (currentIdx : Int) (currentPrice : ℚ)
    (currentDate : Time) (fastNow fastPrev slowNow slowPrev : ℚ) (signals : List Signal)
    (g a : Bool) (hg : m.checkConfirmation currentIdx "golden" = some g)
    (ha : m.rsiAllowsLong ind currentIdx = some a) :
    ∃ s : Signal, s.SignalType = "entry_long" ∧ s.Price = currentPrice ∧
      m.goldenBlock env ind instrument currentIdx currentPrice currentDate fastNow fastPrev
          slowNow slowPrev signals
        = some (if (m.config.CrossoverTypes.GoldenCross = true ∧ fastPrev ≤ slowPrev ∧
              fastNow > slowNow) ∧ g = true ∧ a = true
            then signals ++ [s] else signals) := by
  refine ⟨{ Instrument := instrument, SignalType := "entry_long", Price := currentPrice,
            StopLoss := 0, TakeProfit := 0, PositionSize := 0,
            Reason := MACrossoverStrategy.crossReason env m "Золотое пересечение" "снизу вверх"
              fastNow slowNow currentPrice (((fastNow - slowNow) / slowNow) * 100),
            Timestamp := currentDate }, rfl, rfl, ?_⟩
  unfold MACrossoverStrategy.goldenBlock
  by_cases hc : m.config.CrossoverTypes.GoldenCross = true ∧ fastPrev ≤ slowPrev ∧
      fastNow > slowNow
  · rw [if_pos hc, hg, ha]
    cases g <;> cases a <;> simp [hc]
  · rw [if_neg hc]
    simp [hc]

theorem MACrossoverStrategy.deathBlock_eq (m : MACrossoverStrategy) (env : Env)
    (ind : TechnicalIndicators) (instrument : String) (currentIdx : Int) (currentPrice : ℚ)
    (currentDate : Time) (fastNow fastPrev slowNow slowPrev : ℚ) (signals : List Signal)
    (d a : Bool) (hd : m.checkConfirmation currentIdx "death" = some d)
    (ha : m.rsiAllowsShort ind currentIdx = some a) :
    ∃ s : Signal, s.SignalType = "entry_short" ∧ s.Price = currentPrice ∧
      m.deathBlock env ind instrument currentIdx currentPrice currentDate fastNow fastPrev
          slowNow slowPrev signals
        = some (if (m.config.CrossoverTypes.DeathCross = true ∧ fastPrev ≥ slowPrev ∧
              fastNow < slowNow) ∧ d = true ∧ a = true
            then signals ++ [s] else signals) := by
  refine ⟨{ Instrument := instrument, SignalType := "entry_short", Price := currentPrice,
            StopLoss := 0, TakeProfit := 0, PositionSize := 0,
            Reason := MACrossoverStrategy.crossReason env m "Мертвое пересечение" "сверху вниз"
              fastNow slowNow currentPrice (((slowNow - fastNow) / fastNow) * 100),
            Timestamp := currentDate }, rfl, rfl, ?_⟩
  unfold MACrossoverStrategy.deathBlock
  by_cases hc : m.config.CrossoverTypes.DeathCross = true ∧ fastPrev ≥ slowPrev ∧
      fastNow < slowNow
  · rw [if_pos hc, hd, ha]
    cases d <;> cases a <;> simp [hc]
  · rw [if_neg hc]
    simp [hc]

/-- The result of `analyzeCrossovers` at an index `t ≥ 1` inside both moving averages, as
one expression in the outcomes `g`, `d` of the two confirmation checks. -/
theorem MACrossoverStrategy.analyzeCrossovers_closed (m : MACrossoverStrategy) (env : Env)
    (ind : TechnicalIndicators) (instrument : String) (t : Nat) (currentPrice : ℚ)
    (currentDate : Time) (hind : m.indicators = some ind) (ht : 1 ≤ t)
    (hf : t < ind.FastMA.length) (hs : t < ind.SlowMA.length) (g d : Bool)
    (hg : m.checkConfirmation (t : Int) "golden" = some g)
    (hd : m.checkConfirmation (t : Int) "death" = some d) :
    ∃ sl ss : Signal, sl.SignalType = "entry_long" ∧ ss.SignalType = "entry_short" ∧
      sl.Price = currentPrice ∧ ss.Price = currentPrice ∧
      m.analyzeCrossovers env instrument (t : Int) currentPrice currentDate = some
        ((if (m.config.CrossoverTypes.GoldenCross = true ∧
              ind.FastMA.getD (t - 1) 0 ≤ ind.SlowMA.getD (t - 1) 0 ∧
              ind.FastMA.getD t 0 > ind.SlowMA.getD t 0) ∧ g = true ∧
              (if m.config.Filters.RSIFilter = true then
                (if t < ind.RSI.length then
                  decide (ind.RSI.getD t 0 < (m.config.Filters.RSIOverbought : ℚ)) else false)
               else true) = true
            then [sl] else []) ++
          (if (m.config.CrossoverTypes.DeathCross = true ∧
              ind.FastMA.getD (t - 1) 0 ≥ ind.SlowMA.getD (t - 1) 0 ∧
              ind.FastMA.getD t 0 < ind.SlowMA.getD t 0) ∧ d = true ∧
              (if m.config.Filters.RSIFilter = true then
                (if t < ind.RSI.length then
                  decide (ind.RSI.getD t 0 > (m.config.Filters.RSIOversold : ℚ)) else false)
               else true) = true
            then [ss] else [])) := by
  have e1 : ((t : Int) - 1) = ((t - 1 : Nat) : Int) := by omega
  have hguard : ¬ ((t : Int) < 1 ∨ ind.FastMA.length < 2 ∨ ind.SlowMA.length < 2) := by omega
  obtain ⟨sl, hsl1, hsl2, hgb⟩ := m.goldenBlock_eq env ind instrument (t : Int) currentPrice
    currentDate (ind.FastMA.getD t 0) (ind.FastMA.getD (t - 1) 0) (ind.SlowMA.getD t 0)
    (ind.SlowMA.getD (t - 1) 0) [] g _ hg (m.rsiAllowsLong_eq ind t)
  refine ⟨sl, ?_⟩
  by_cases hG : (m.config.CrossoverTypes.GoldenCross = true ∧
      ind.FastMA.getD (t - 1) 0 ≤ ind.SlowMA.getD (t - 1) 0 ∧
      ind.FastMA.getD t 0 > ind.SlowMA.getD t 0) ∧ g = true ∧
      (if m.config.Filters.RSIFilter = true then
        (if t < ind.RSI.length then
          decide (ind.RSI.getD t 0 < (m.config.Filters.RSIOverbought : ℚ)) else false)
       else true) = true
  · obtain ⟨ss, hss1, hss2, hdb⟩ := m.deathBlock_eq env ind instrument (t : Int) currentPrice
      currentDate (ind.FastMA.getD t 0) (ind.FastMA.getD (t - 1) 0) (ind.SlowMA.getD t 0)
      (ind.SlowMA.getD (t - 1) 0) ([] ++ [sl]) d _ hd (m.rsiAllowsShort_eq ind t)
    refine ⟨ss, hsl1, hss1, hsl2, hss2, ?_⟩
    simp only [MACrossoverStrategy.analyzeCrossovers, hind, Option.bind_eq_bind,
      Option.some_bind, if_neg hguard, e1, getF_getD _ _ hf, getF_getD _ _ hs,
      getF_getD ind.FastMA (t - 1) (by omega), getF_getD ind.SlowMA (t - 1) (by omega)]
    rw [hgb, if_pos hG, Option.some_bind, hdb, if_pos hG]
    congr 1
    split_ifs <;> simp
  · obtain ⟨ss, hss1, hss2, hdb⟩ := m.deathBlock_eq env ind instrument (t : Int) currentPrice
      currentDate (ind.FastMA.getD t 0) (ind.FastMA.getD (t - 1) 0) (ind.SlowMA.getD t 0)
      (ind.SlowMA.getD (t - 1) 0) [] d _ hd (m.rsiAllowsShort_eq ind t)
    refine ⟨ss, hsl1, hss1, hsl2, hss2, ?_⟩
    simp only [MACrossoverStrategy.analyzeCrossovers, hind, Option.bind_eq_bind,
      Option.some_bind, if_neg hguard, e1, getF_getD _ _ hf, getF_getD _ _ hs,
      getF_getD ind.FastMA (t - 1) (by omega), getF_getD ind.SlowMA (t - 1) (by omega)]
    rw [hgb, if_neg hG, Option.some_bind, hdb, if_neg hG]
    simp

/-! ### MA-Crossover: the volume average -/

theorem forRange_volume (volumes : List ℚ) :
    ∀ (k a : Nat) (st : ℚ × Int), a + k ≤ volumes.length →
      forRange (a : Int) k (fun i (st : ℚ × Int) =>
          if i < (volumes.length : Int) then
            (getF volumes i).bind (fun v => some (st.1 + v, st.2 + 1))
          else some st) st
        = some (st.1 + ((volumes.drop a).take k).sum, st.2 + (k : Int)) := by
  intro k
  induction k with
  | zero => intro a st _; simp [forRange]
  | succ k ih =>
    intro a st h
    have ha : a < volumes.length := by omega
    have ha' : ((a : Int) < (volumes.length : Int)) := by omega
    have hd : volumes.drop a = volumes[a] :: volumes.drop (a + 1) := by
      rw [List.drop_eq_getElem_cons ha]
    simp only [forRange, if_pos ha', getF_nat, List.getElem?_eq_getElem ha, Option.some_bind]
    have := ih (a + 1) (st.1 + volumes[a], st.2 + 1) (by omega)
    push_cast at this
    rw [this, hd, List.take_succ_cons, List.sum_cons]
    congr 1
    refine Prod.ext ?_ ?_
    · simp only [add_assoc]
    · simp only []; push_cast; ring

/-- On at least 20 volumes and an index `t` inside them, `filterByVolume` averages the
trailing `min(20, t+1)` values and keeps all candidates or none. -/
theorem MACrossoverStrategy.filterByVolume_eq (m : MACrossoverStrategy) (env : Env)
    (signals : List Signal) (currentVolume : ℚ) (volumes : List ℚ) (t : Nat)
    (h20 : 20 ≤ volumes.length) (ht : t < volumes.length) :
    m.filterByVolume env signals currentVolume volumes (t : Int) = some
      (if quotientAtLeast currentVolume (windowMean volumes (t - 19) (t + 1 - (t - 19)))
          m.config.MinVolumeMultiplier = true then
        signals.map (fun s => { s with
          Reason := s.Reason ++ MACrossoverStrategy.volumeText env currentVolume
            (currentVolume / windowMean volumes (t - 19) (t + 1 - (t - 19))) })
      else []) := by
  have hn20 : ¬ (volumes.length < 20) := by omega
  have hstart : MaxInt 0 ((t : Int) - 19) = ((t - 19 : Nat) : Int) := by
    unfold MaxInt
    split_ifs <;> omega
  have e1 : ((t : Int) + 1) = ((t + 1 : Nat) : Int) := by omega
  have hloop := forRange_volume volumes (t + 1 - (t - 19)) (t - 19) (0, 0) (by omega)
  have hcount : ¬ (((0 : Int) + ((t + 1 - (t - 19) : Nat) : Int)) = 0) := by omega
  simp only [MACrossoverStrategy.filterByVolume, if_neg hn20, hstart,
    MACrossoverStrategy.volumeSumLoop, e1, forLoop_nat, Option.bind_eq_bind, Option.pure_def]
  rw [hloop, Option.some_bind]
  simp only [if_neg hcount]
  have havg : ((0 : ℚ) + (List.take (t + 1 - (t - 19)) (List.drop (t - 19) volumes)).sum)
      / (((0 : Int) + ((t + 1 - (t - 19) : Nat) : Int) : Int) : ℚ)
      = windowMean volumes (t - 19) (t + 1 - (t - 19)) := by
    unfold windowMean
    push_cast
    simp
  rw [havg, m.volumeKeep_eq]

/-! ### Candle parsing and the analysis pipeline -/

theorem MACrossoverStrategy.appendNumber_eq (xs : List ℚ) (v : Option Value) :
    MACrossoverStrategy.appendNumber xs v = xs ++ MACrossoverStrategy.appendNumber [] v := by
  rcases v with _ | v
  · simp [MACrossoverStrategy.appendNumber]
  · cases v <;> simp [MACrossoverStrategy.appendNumber]

theorem MACrossoverStrategy.appendNumber_length (v : Option Value) :
    (MACrossoverStrategy.appendNumber [] v).length = if isNumber v = true then 1 else 0 := by
  rcases v with _ | v
  · simp [MACrossoverStrategy.appendNumber, isNumber]
  · cases v <;> simp [MACrossoverStrategy.appendNumber, isNumber]

theorem MACrossoverStrategy.appendVolume_length (xs : List ℚ) (v : Option Value) :
    (MACrossoverStrategy.appendVolume xs v).length = xs.length + 1 := by
  rcases v with _ | v
  · simp [MACrossoverStrategy.appendVolume]
  · cases v <;> simp [MACrossoverStrategy.appendVolume]

theorem MACrossoverStrategy.appendDate_length (env : Env) (xs : List Time) (v : Option Value) :
    (MACrossoverStrategy.appendDate env xs v).length = xs.length + 1 := by
  rcases v with _ | v
  · simp [MACrossoverStrategy.appendDate]
  · cases v with
    | str s =>
      simp only [MACrossoverStrategy.appendDate]
      cases env.parseTime "2006-01-02 15:04:05" s with
      | some t => simp
      | none =>
        cases env.parseTime "2006-01-02" s with
        | some t => simp
        | none => simp
    | float x => simp [MACrossoverStrategy.appendDate]
    | int n => simp [MACrossoverStrategy.appendDate]
    | other => simp [MACrossoverStrategy.appendDate]

/-- The arrays after the loop of `parseCandles`, from any starting arrays: the numeric
arrays grow by one cell per candle carrying a number under the key, the volumes and dates by
one cell per candle. -/
theorem MACrossoverStrategy.parseCandle_foldl (env : Env) (candles : List Candle) :
    ∀ p : ParsedCandles,
      (candles.foldl (MACrossoverStrategy.parseCandle env) p).closes
          = p.closes ++ candles.flatMap (fun c => MACrossoverStrategy.appendNumber [] c.close) ∧
      (candles.foldl (MACrossoverStrategy.parseCandle env) p).prices
          = p.prices ++ candles.flatMap (fun c => MACrossoverStrategy.appendNumber [] c.close) ∧
      (candles.foldl (MACrossoverStrategy.parseCandle env) p).highs
          = p.highs ++ candles.flatMap (fun c => MACrossoverStrategy.appendNumber [] c.high) ∧
      (candles.foldl (MACrossoverStrategy.parseCandle env) p).lows
          = p.lows ++ candles.flatMap (fun c => MACrossoverStrategy.appendNumber [] c.low) ∧
      (candles.foldl (MACrossoverStrategy.parseCandle env) p).volumes.length
          = p.volumes.length + candles.length ∧
      (candles.foldl (MACrossoverStrategy.parseCandle env) p).dates.length
          = p.dates.length + candles.length := by
  induction candles with
  | nil => intro p; simp
  | cons c rest ih =>
    intro p
    obtain ⟨h1, h2, h3, h4, h5, h6⟩ := ih (MACrossoverStrategy.parseCandle env p c)
    simp only [List.foldl_cons, List.flatMap_cons, List.length_cons]
    refine ⟨?_, ?_, ?_, ?_, ?_, ?_⟩
    · rw [h1]
      simp only [MACrossoverStrategy.parseCandle]
      rw [MACrossoverStrategy.appendNumber_eq p.closes, List.append_assoc]
    · rw [h2]
      simp only [MACrossoverStrategy.parseCandle]
      rw [MACrossoverStrategy.appendNumber_eq p.prices, List.append_assoc]
    · rw [h3]
      simp only [MACrossoverStrategy.parseCandle]
      rw [MACrossoverStrategy.appendNumber_eq p.highs, List.append_assoc]
    · rw [h4]
      simp only [MACrossoverStrategy.parseCandle]
      rw [MACrossoverStrategy.appendNumber_eq p.lows, List.append_assoc]
    · rw [h5]
      simp only [MACrossoverStrategy.parseCandle, MACrossoverStrategy.appendVolume_length]
      omega
    · rw [h6]
      simp only [MACrossoverStrategy.parseCandle, MACrossoverStrategy.appendDate_length]
      omega

theorem flatMap_appendNumber_length (candles : List Candle) (f : Candle → Option Value) :
    (candles.flatMap (fun c => MACrossoverStrategy.appendNumber [] (f c))).length
      = candles.countP (fun c => isNumber (f c)) := by
  induction candles with
  | nil => simp
  | cons c rest ih =>
    simp only [List.flatMap_cons, List.length_append, ih,
      MACrossoverStrategy.appendNumber_length, List.countP_cons]
    omega

/-- A fault at one iteration, whatever the state, is a fault of the loop. -/
theorem forRange_fault {σ : Type} (body : Int → σ → Option σ) :
    ∀ (n : Nat) (lo : Int) (k : Nat) (s : σ), k < n →
      (∀ s, body (lo + (k : Int)) s = none) → forRange lo n body s = none := by
  intro n
  induction n with
  | zero => intro lo k s hk; omega
  | succ n ih =>
    intro lo k s hk hb
    rw [forRange]
    cases k with
    | zero =>
      have := hb s
      simp only [Nat.cast_zero, add_zero] at this
      rw [this]; rfl
    | succ k =>
      cases hbody : body lo s with
      | none => rfl
      | some s' =>
        simp only [Option.some_bind]
        apply ih (lo + 1) k s' (by omega)
        intro s
        have := hb s
        rw [show lo + ((k + 1 : Nat) : Int) = lo + 1 + (k : Int) by push_cast; ring] at this
        exact this

/-- The ATR of the indicator engine faults when the lows are fewer than the highs and the
highs pass the length guard. -/
theorem calculateATR_fault (highs lows closes : List ℚ) (period : Int) (hp : 0 ≤ period)
    (hh : period + 1 ≤ (highs.length : Int)) (h2 : 2 ≤ highs.length)
    (hl : lows.length < highs.length) :
    calculateATR highs lows closes period = none := by
  have hloop : ∀ tr : List ℚ, trueRangeLoop highs lows closes tr = none := by
    intro tr
    rw [trueRangeLoop, forLoop]
    have hn : ((highs.length : Int) - 1).toNat = highs.length - 1 := by omega
    rw [hn]
    apply forRange_fault _ (highs.length - 1) 1 (max 1 lows.length - 1) tr (by omega)
    intro s
    have hidx : (1 : Int) + ((max 1 lows.length - 1 : Nat) : Int)
        = ((max 1 lows.length : Nat) : Int) := by omega
    rw [hidx]
    have hlow : getF lows ((max 1 lows.length : Nat) : Int) = none := by
      rw [getF_nat]
      exact List.getElem?_eq_none (by omega)
    cases hhigh : getF highs ((max 1 lows.length : Nat) : Int) with
    | none => simp only [hhigh, Option.bind_eq_bind, Option.none_bind]
    | some h => simp only [hhigh, hlow, Option.bind_eq_bind, Option.none_bind, Option.some_bind]
  have hguard : ¬ ((highs.length : Int) < wrapInt (period + 1)) := by
    have := wrapInt_le (period + 1) (by omega)
    omega
  rw [calculateATR, if_neg hguard]
  simp only [Option.bind_eq_bind, hloop, Option.none_bind]

/-! ### The ATR of the Turtle strategy -/

/-- The two comparisons of `MathUtils.CalculateATR` take a maximum: it is the same function
as `MACrossoverStrategy.calculateATR`. -/
theorem CalculateATR_eq_calculateATR (highs lows closes : List ℚ) (period : Int) :
    CalculateATR highs lows closes period = calculateATR highs lows closes period := by
  have hmax : ∀ a b c : ℚ,
      (if c > (if b > a then b else a) then c else (if b > a then b else a))
        = max a (max b c) := by
    intro a b c
    by_cases h1 : b > a
    · rw [if_pos h1]
      by_cases h2 : c > b
      · rw [if_pos h2, max_eq_right (le_of_lt h2), max_eq_right (le_of_lt (lt_trans h1 h2))]
      · rw [if_neg h2, max_eq_left (not_lt.mp h2), max_eq_right (le_of_lt h1)]
    · rw [if_neg h1]
      by_cases h2 : c > a
      · rw [if_pos h2, max_eq_right (le_trans (not_lt.mp h1) (le_of_lt h2)),
          max_eq_right (le_of_lt h2)]
      · rw [if_neg h2, max_eq_left]
        exact max_le (not_lt.mp h1) (not_lt.mp h2)
  unfold CalculateATR calculateATR trueRangeLoop
  simp only [hmax]

/-- The `tr` array is a zero followed by the true ranges of the bars `1, 2, …`. -/
theorem trList_eq_cons (h l c : List ℚ) (hn : 1 ≤ h.length) :
    trList h l c = 0 :: (List.range (h.length - 1)).map (fun j => trueRange h l c (j + 1)) := by
  apply List.ext_getElem?
  intro j
  by_cases hj : j < h.length
  · rw [trList_getElem? h l c j hj]
    cases j with
    | zero => simp
    | succ k =>
      have hk : k < h.length - 1 := by omega
      simp [List.getElem?_map, List.getElem?_range hk]
  · have h1 : (trList h l c)[j]? = none :=
      List.getElem?_eq_none (by rw [trList_length]; omega)
    have h2 : (0 :: (List.range (h.length - 1)).map (fun j => trueRange h l c (j + 1)))[j]?
        = none := List.getElem?_eq_none (by simp; omega)
    rw [h1, h2]

/-- What `TurtleStrategy.calculateATR` returns on an aligned series with more bars than the
period: the arithmetic mean of the last `atrPeriod` true ranges. -/
theorem TurtleStrategy.calculateATR_mean (ts : TurtleStrategy) (h l c : List ℚ) (p : Nat)
    (hp : ts.atrPeriod = (p : Int)) (hlen : p + 1 ≤ h.length)
    (hl : l.length = h.length) (hc : c.length = h.length) :
    ts.calculateATR h l c = some (windowMean (trList h l c) (h.length - p) p) := by
  unfold TurtleStrategy.calculateATR
  have hg : ¬ ((h.length : Int) < ts.atrPeriod + 1) := by omega
  rw [if_neg hg]
  obtain ⟨tr, htr, hval⟩ := forRange_inv
    (fun k (trValues : List ℚ) =>
      trValues = (List.range (k - 1)).map (fun j => trueRange h l c (j + 1)))
    (fun i (trValues : List ℚ) => do
      let hi ← getF h i
      let lo ← getF l i
      let cl ← getF c (i - 1)
      let hl := hi - lo
      let hcp := |hi - cl|
      let lcp := |lo - cl|
      let tr := max hl (max hcp lcp)
      pure (trValues ++ [tr]))
    (h.length - 1) 1 [] (by simp)
    (by
      intro i s hai hib hP
      have hi : i < h.length := by omega
      have hil : i < l.length := by omega
      have hic : i - 1 < c.length := by omega
      have e2 : ((i : Int) - 1) = ((i - 1 : Nat) : Int) := by omega
      refine ⟨s ++ [trueRange h l c i], ?_, ?_⟩
      · show Option.bind (getF h i) (fun hi => Option.bind (getF l i)
          (fun lo => Option.bind (getF c ((i : Int) - 1)) _)) = _
        rw [getF_nat, List.getElem?_eq_getElem hi, e2, getF_nat, getF_nat,
          List.getElem?_eq_getElem hil, List.getElem?_eq_getElem hic]
        simp [trueRange, List.getD_eq_getElem?_getD, List.getElem?_eq_getElem hi,
          List.getElem?_eq_getElem hil, List.getElem?_eq_getElem hic]
      · rw [hP]
        show _ = List.map (fun j => trueRange h l c (j + 1)) (List.range (i + 1 - 1))
        have e3 : i + 1 - 1 = (i - 1) + 1 := by omega
        rw [e3, List.range_succ, List.map_append]
        have e4 : i - 1 + 1 = i := by omega
        simp [e4])
  rw [forLoop_of_nat 1 _ 1 h.length rfl rfl, htr]
  simp only [Option.bind_eq_bind, Option.some_bind]
  have e5 : 1 + (h.length - 1) - 1 = h.length - 1 := by omega
  rw [e5] at hval
  have hlen2 : tr.length = h.length - 1 := by rw [hval]; simp
  have h2 : ¬ ((tr.length : Int) < ts.atrPeriod) := by omega
  rw [if_neg h2]
  have e6 : ((tr.length : Int) - ts.atrPeriod) = ((tr.length - p : Nat) : Int) := by omega
  have hs := forRange_sum tr p (tr.length - p) 0 (by omega)
  have e7 : tr.length - (tr.length - p) = p := by omega
  rw [forLoop_of_nat _ _ (tr.length - p) tr.length e6 rfl, e7]
  show Option.bind (forRange _ p
    (fun j sum => (getF tr j).bind (fun d => some (sum + d))) 0) _ = _
  rw [hs, Option.some_bind, hp]
  show some _ = some _
  congr 1
  rw [windowMean, trList_eq_cons h l c (by omega), ← hval]
  have e8 : h.length - p = (tr.length - p) + 1 := by omega
  rw [e8, List.drop_succ_cons, zero_add]
  push_cast
  rfl

theorem windowMean_one (x : List ℚ) (i : Nat) (hi : i < x.length) :
    windowMean x i 1 = x.getD i 0 := by
  rw [windowMean, List.drop_eq_getElem_cons hi, List.getD_eq_getElem?_getD,
    List.getElem?_eq_getElem hi]
  simp only [List.take_succ_cons, List.take_zero, List.sum_cons, List.sum_nil, add_zero,
    Nat.cast_one, div_one, Option.getD_some]

/-- With a period of one bar the last element of the Wilder ATR is the last true range. -/
theorem calculateATR_one_last (h l c : List ℚ) (hlen : 2 ≤ h.length)
    (hl : l.length = h.length) (hc : c.length = h.length) :
    ∃ out, calculateATR h l c 1 = some out ∧
      out.getLast? = some ((trList h l c).getD (h.length - 1) 0) := by
  refine ⟨_, calculateATR_eq h l c 1 (by omega) (by omega) hl hc, ?_⟩
  rw [List.getLast?_eq_getElem?, List.length_map, List.length_range,
    map_range_getElem? _ _ _ (by omega)]
  congr 1
  by_cases hle : ((h.length - 1 : Nat) : Int) ≤ 1
  · rw [if_pos hle]
  · rw [if_neg hle]
    have e : (1 : Int).toNat = 1 := rfl
    rw [e, wilderSmooth_step _ 1 _ (by omega)]
    simp

/-! ### Nested channels of the Turtle strategy -/

theorem mem_drop_of_le {α : Type} (xs : List α) (a b : Nat) (hab : a ≤ b) (x : α)
    (hx : x ∈ xs.drop b) : x ∈ xs.drop a := by
  have e : xs.drop b = (xs.drop a).drop (b - a) := by
    rw [List.drop_drop]; congr 1; omega
  rw [e] at hx
  exact List.mem_of_mem_drop hx

theorem TurtleStrategy.computeLevels_entry (ts : TurtleStrategy) (env : Env)
    (candles : List Candle) (lv : TurtleStrategy.Levels)
    (h : ts.computeLevels env candles = some lv) :
    ts.calculateBreakout (candles.map (fun candle => TurtleStrategy.floatField candle.high))
        ts.entryBreakoutDays "high" = some lv.entryBreakoutHigh ∧
      ts.calculateBreakout (candles.map (fun candle => TurtleStrategy.floatField candle.low))
        ts.entryBreakoutDays "low" = some lv.entryBreakoutLow ∧
      getF (candles.map (fun candle => TurtleStrategy.floatField candle.close))
        ((candles.length : Int) - 1) = some lv.currentPrice := by
  simp only [TurtleStrategy.computeLevels, Option.bind_eq_bind, Option.bind_eq_some,
    Option.pure_def, Option.some.injEq, List.length_map] at h
  obtain ⟨eh, heh, el, hel, _, _, _, _, _, _, _, _, _, _, _, _, _, _, cp, hcp, _, _, rfl⟩ := h
  exact ⟨heh, hel, hcp⟩

/-- The last cell of a series belongs to every trailing window of at least one cell. -/
theorem last_mem_drop (xs : List ℚ) (k : Nat) (hk : 1 ≤ k) (hn : k ≤ xs.length) :
    xs.getD (xs.length - 1) 0 ∈ xs.drop (xs.length - k) := by
  have hi : xs.length - 1 < xs.length := by omega
  apply mem_drop_of_le xs (xs.length - k) (xs.length - 1) (by omega)
  rw [List.drop_eq_getElem_cons hi, List.getD_eq_getElem?_getD, List.getElem?_eq_getElem hi]
  exact List.mem_cons_self _ _

/-! ### MA-Crossover: confirmation against the crossover condition -/

/-- With `K ≥ 1` confirmation bars at an index inside both averages, `checkConfirmation`
returns; a positive answer means the strict relation on the bars `t, t-1, …, t-K+1`, and for
`t ≥ K` that relation gives a positive answer. -/
theorem MACrossoverStrategy.checkConfirmation_bars (m : MACrossoverStrategy)
    (ind : TechnicalIndicators) (t K : Nat) (hind : m.indicators = some ind)
    (hf : t < ind.FastMA.length) (hs : t < ind.SlowMA.length)
    (hK : m.config.CrossoverTypes.RequireConfirmation = (K : Int)) (hK1 : 1 ≤ K) :
    ∃ g d : Bool,
      m.checkConfirmation (t : Int) "golden" = some g ∧
      m.checkConfirmation (t : Int) "death" = some d ∧
      (g = true → ∀ j : Nat, j < K → ind.FastMA.getD (t - j) 0 > ind.SlowMA.getD (t - j) 0) ∧
      (d = true → ∀ j : Nat, j < K → ind.FastMA.getD (t - j) 0 < ind.SlowMA.getD (t - j) 0) ∧
      (K ≤ t → (∀ j : Nat, j < K → ind.FastMA.getD (t - j) 0 > ind.SlowMA.getD (t - j) 0) →
        g = true) ∧
      (K ≤ t → (∀ j : Nat, j < K → ind.FastMA.getD (t - j) 0 < ind.SlowMA.getD (t - j) 0) →
        d = true) := by
  have hk' : ¬ ((K : Int) ≤ 0) := by omega
  by_cases hlt : (t : Int) < (K : Int)
  · refine ⟨false, false, ?_, ?_, ?_, ?_, ?_, ?_⟩
    · simp only [MACrossoverStrategy.checkConfirmation, hind, Option.bind_eq_bind,
        Option.some_bind, hK, if_neg hk', if_pos hlt]
    · simp only [MACrossoverStrategy.checkConfirmation, hind, Option.bind_eq_bind,
        Option.some_bind, hK, if_neg hk', if_pos hlt]
    · intro h; exact absurd h (by decide)
    · intro h; exact absurd h (by decide)
    · intro h; omega
    · intro h; omega
  · obtain ⟨g, hg1, hg2⟩ :=
      MACrossoverStrategy.confirmLoop_golden ind.FastMA ind.SlowMA t hf hs K 0 (by omega)
    obtain ⟨d, hd1, hd2⟩ :=
      MACrossoverStrategy.confirmLoop_death ind.FastMA ind.SlowMA t hf hs K 0 (by omega)
    simp only [Nat.zero_add] at hg2 hd2
    refine ⟨g, d, ?_, ?_, hg2.mp, hd2.mp, fun _ h => hg2.mpr h, fun _ h => hd2.mpr h⟩
    · simp only [MACrossoverStrategy.checkConfirmation, hind, Option.bind_eq_bind,
        Option.some_bind, hK, Int.toNat_ofNat, if_neg hk', if_neg hlt]
      exact hg1
    · simp only [MACrossoverStrategy.checkConfirmation, hind, Option.bind_eq_bind,
        Option.some_bind, hK, Int.toNat_ofNat, if_neg hk', if_neg hlt]
      exact hd1

/-- Outside the range of the averages `analyzeCrossovers` either returns nothing at its
guard or faults at its first reads. -/
theorem MACrossoverStrategy.analyzeCrossovers_outside (m : MACrossoverStrategy) (env : Env)
    (instrument : String) (currentIdx : Int) (currentPrice : ℚ) (currentDate : Time) :
    (m.indicators = none →
      m.analyzeCrossovers env instrument currentIdx currentPrice currentDate = none) ∧
    (∀ ind, m.indicators = some ind →
      (currentIdx < 1 ∨ ind.FastMA.length < 2 ∨ ind.SlowMA.length < 2) →
      m.analyzeCrossovers env instrument currentIdx currentPrice currentDate = some []) ∧
    (∀ ind, m.indicators = some ind →
      ¬ (currentIdx < 1 ∨ ind.FastMA.length < 2 ∨ ind.SlowMA.length < 2) →
      ((ind.FastMA.length : Int) ≤ currentIdx ∨ (ind.SlowMA.length : Int) ≤ currentIdx) →
      m.analyzeCrossovers env instrument currentIdx currentPrice currentDate = none) := by
  refine ⟨?_, ?_, ?_⟩
  · intro h
    simp only [MACrossoverStrategy.analyzeCrossovers, h, Option.bind_eq_bind, Option.none_bind]
  · intro ind h hg
    simp only [MACrossoverStrategy.analyzeCrossovers, h, Option.bind_eq_bind, Option.some_bind,
      if_pos hg, Option.pure_def]
  · intro ind h hg hout
    obtain ⟨t, rfl⟩ : ∃ t : Nat, currentIdx = (t : Int) := ⟨currentIdx.toNat, by omega⟩
    simp only [MACrossoverStrategy.analyzeCrossovers, h, Option.bind_eq_bind, Option.some_bind,
      if_neg hg]
    by_cases hf : t < ind.FastMA.length
    · have hs : ¬ t < ind.SlowMA.length := by omega
      have e1 : ((t : Int) - 1) = ((t - 1 : Nat) : Int) := by omega
      have hslow : getF ind.SlowMA (t : Int) = none := by
        rw [getF_nat]; exact List.getElem?_eq_none (by omega)
      rw [getF_getD _ _ hf, e1, getF_getD ind.FastMA (t - 1) (by omega), hslow]
      rfl
    · have hfast : getF ind.FastMA (t : Int) = none := by
        rw [getF_nat]; exact List.getElem?_eq_none (by omega)
      rw [hfast]
      rfl

/-- Every signal of `analyzeCrossovers` is, but for its rationale, determined by its type, the
instrument, the price and the date. -/
theorem MACrossoverStrategy.analyzeCrossovers_fields (m : MACrossoverStrategy) (env : Env)
    (instrument : String) (currentIdx : Int) (currentPrice : ℚ) (currentDate : Time)
    (sigs : List Signal)
    (h : m.analyzeCrossovers env instrument currentIdx currentPrice currentDate = some sigs)
    (s : Signal) (hs : s ∈ sigs) :
    withoutReason s =
      { Instrument := instrument, SignalType := s.SignalType, Price := currentPrice,
        StopLoss := 0, TakeProfit := 0, PositionSize := 0, Reason := "",
        Timestamp := currentDate } := by
  rcases m.analyzeCrossovers_cases env instrument currentIdx currentPrice currentDate sigs h
    with rfl | ⟨s0, rfl, _, h2, h3, h4, h5, h6, h7⟩
  · simp at hs
  · rw [List.mem_singleton] at hs
    subst hs
    cases s with
    | mk i ty p sl tp ps r ts =>
      simp only at h2 h3 h4 h5 h6 h7
      simp only [withoutReason, h2, h3, h4, h5, h6, h7]

/-- The signal types of a result of `analyzeCrossovers` at an index inside both averages. -/
theorem MACrossoverStrategy.analyzeCrossovers_types (m : MACrossoverStrategy) (env : Env)
    (ind : TechnicalIndicators) (instrument : String) (t : Nat) (currentPrice : ℚ)
    (currentDate : Time) (hind : m.indicators = some ind) (ht : 1 ≤ t)
    (hf : t < ind.FastMA.length) (hs : t < ind.SlowMA.length) (g d : Bool)
    (hg : m.checkConfirmation (t : Int) "golden" = some g)
    (hd : m.checkConfirmation (t : Int) "death" = some d) :
    ∃ sigs, m.analyzeCrossovers env instrument (t : Int) currentPrice currentDate = some sigs ∧
      sigs.map (fun s => s.SignalType) =
        (if (m.config.CrossoverTypes.GoldenCross = true ∧
              ind.FastMA.getD (t - 1) 0 ≤ ind.SlowMA.getD (t - 1) 0 ∧
              ind.FastMA.getD t 0 > ind.SlowMA.getD t 0) ∧ g = true ∧
              (if m.config.Filters.RSIFilter = true then
                (if t < ind.RSI.length then
                  decide (ind.RSI.getD t 0 < (m.config.Filters.RSIOverbought : ℚ)) else false)
               else true) = true
            then ["entry_long"] else []) ++
          (if (m.config.CrossoverTypes.DeathCross = true ∧
              ind.FastMA.getD (t - 1) 0 ≥ ind.SlowMA.getD (t - 1) 0 ∧
              ind.FastMA.getD t 0 < ind.SlowMA.getD t 0) ∧ d = true ∧
              (if m.config.Filters.RSIFilter = true then
                (if t < ind.RSI.length then
                  decide (ind.RSI.getD t 0 > (m.config.Filters.RSIOversold : ℚ)) else false)
               else true) = true
            then ["entry_short"] else []) := by
  obtain ⟨sl, ss, h1, h2, _, _, hres⟩ := m.analyzeCrossovers_closed env ind instrument t
    currentPrice currentDate hind ht hf hs g d hg hd
  refine ⟨_, hres, ?_⟩
  rw [List.map_append]
  congr 1
  · split_ifs <;> simp [h1]
  · split_ifs <;> simp [h2]

/-- Two results of `analyzeCrossovers` for the same instrument, price and date that hold the
same signal types are equal but for the rationale texts. -/
theorem MACrossoverStrategy.analyzeCrossovers_same_types (m1 m0 : MACrossoverStrategy)
    (env : Env) (instrument : String) (currentIdx : Int) (currentPrice : ℚ)
    (currentDate : Time) (l1 l0 : List Signal)
    (h1 : m1.analyzeCrossovers env instrument currentIdx currentPrice currentDate = some l1)
    (h0 : m0.analyzeCrossovers env instrument currentIdx currentPrice currentDate = some l0)
    (hty : l1.map (fun s => s.SignalType) = l0.map (fun s => s.SignalType)) :
    l1.map withoutReason = l0.map withoutReason := by
  have key : ∀ (m : MACrossoverStrategy) (l : List Signal),
      m.analyzeCrossovers env instrument currentIdx currentPrice currentDate = some l →
      l.map withoutReason = (l.map (fun s => s.SignalType)).map (fun ty =>
        ({ Instrument := instrument, SignalType := ty, Price := currentPrice, StopLoss := 0,
           TakeProfit := 0, PositionSize := 0, Reason := "", Timestamp := currentDate }
          : Signal)) := by
    intro m l hl
    rw [List.map_map]
    apply List.map_congr_left
    intro s hs
    exact m.analyzeCrossovers_fields env instrument currentIdx currentPrice currentDate l hl s hs
  rw [key m1 l1 h1, key m0 l0 h0, hty]

/-! ### HTML escaping: one replacement, and the six in the order that visits `&` first -/

/-- Replacing a one-character `old` maps every character on its own. -/
theorem replaceScan_single (c : Char) (new : List Char) :
    ∀ (s : List Char) (n : Nat), s.length ≤ n →
      replaceScan [c] new n s = s.flatMap (fun ch => if ch = c then new else [ch]) := by
  intro s
  induction s with
  | nil => intro n _; cases n <;> simp [replaceScan]
  | cons ch rest ih =>
    intro n hn
    cases n with
    | zero => simp at hn
    | succ n =>
      have hrest : rest.length ≤ n := by simpa using hn
      rw [replaceScan, List.flatMap_cons]
      by_cases h : ch = c
      · subst h
        simp [List.isPrefixOf, ih n hrest]
      · have h' : ¬ (c = ch) := fun e => h e.symm
        simp [List.isPrefixOf, h, h', ih n hrest]

theorem ReplaceAll_single (s : String) (c : Char) (new : String) :
    ReplaceAll s ⟨[c]⟩ new = ⟨s.data.flatMap (fun ch => if ch = c then new.data else [ch])⟩ := by
  rw [ReplaceAll, if_neg (by simp)]
  rw [replaceScan_single c new.data s.data s.data.length (le_refl _)]

/-- The six replacements applied to one character, `&` first, yield its entity. -/
theorem entity_of_char (ch : Char) :
    ((((((if ch = '&' then "&amp;".data else [ch]).flatMap
      (fun x => if x = '<' then "&lt;".data else [x])).flatMap
      (fun x => if x = '>' then "&gt;".data else [x])).flatMap
      (fun x => if x = Char.ofNat 34 then "&quot;".data else [x])).flatMap
      (fun x => if x = Char.ofNat 39 then "&#39;".data else [x])).flatMap
      (fun x => if x = Char.ofNat 96 then "&#96;".data else [x])) = htmlEntity ch := by
  by_cases h1 : ch = '&'
  · subst h1; decide
  by_cases h2 : ch = '<'
  · subst h2; decide
  by_cases h3 : ch = '>'
  · subst h3; decide
  by_cases h4 : ch = Char.ofNat 34
  · subst h4; decide
  by_cases h5 : ch = Char.ofNat 39
  · subst h5; decide
  by_cases h6 : ch = Char.ofNat 96
  · subst h6; decide
  simp [htmlEntity, h1, h2, h3, h4, h5, h6]

/-- Visited with `&` first, the table escapes every text once. -/
theorem escapeSpecialChars_ampersandFirst (text : String) :
    escapeSpecialChars ampersandFirst text = escapeOnce text := by
  have e1 : ("&" : String) = ⟨['&']⟩ := rfl
  have e2 : ("<" : String) = ⟨['<']⟩ := rfl
  have e3 : (">" : String) = ⟨['>']⟩ := rfl
  have e4 : ("\x22" : String) = ⟨[Char.ofNat 34]⟩ := by decide
  have e5 : ("\x27" : String) = ⟨[Char.ofNat 39]⟩ := by decide
  have e6 : ("\x60" : String) = ⟨[Char.ofNat 96]⟩ := by decide
  simp only [escapeSpecialChars, ampersandFirst, List.foldl_cons, List.foldl_nil]
  rw [e1, e2, e3, e4, e5, e6]
  simp only [ReplaceAll_single, escapeOnce, List.flatMap_assoc]
  congr 1
  congr 1
  funext ch
  rw [← entity_of_char ch]
  simp only [List.flatMap_assoc]

/-! ## The claims -/

/-- C2: with both crossover types enabled, no confirmation requirement and the RSI filter
off, at a last index `t ≥ 1` inside both moving averages, `analyzeCrossovers` returns an
`entry_long` signal iff `fastMA[t-1] ≤ slowMA[t-1]` and `fastMA[t] > slowMA[t]`, an
`entry_short` signal iff `fastMA[t-1] ≥ slowMA[t-1]` and `fastMA[t] < slowMA[t]`, every
returned signal is one of these two and carries the price passed in, and nothing is returned
when neither condition holds. -/
theorem crossover_detection (m : MACrossoverStrategy) (env : Env) (ind : TechnicalIndicators)
    (instrument : String) (t : Nat) (currentPrice : ℚ) (currentDate : Time)
    (hind : m.indicators = some ind) (ht : 1 ≤ t)
    (hf : t < ind.FastMA.length) (hs : t < ind.SlowMA.length)
    (hg : m.config.CrossoverTypes.GoldenCross = true)
    (hd : m.config.CrossoverTypes.DeathCross = true)
    (hk : m.config.CrossoverTypes.RequireConfirmation ≤ 0)
    (hr : m.config.Filters.RSIFilter = false) :
    ∃ sigs, m.analyzeCrossovers env instrument (t : Int) currentPrice currentDate = some sigs ∧
      ((∃ s ∈ sigs, s.SignalType = "entry_long") ↔
        (ind.FastMA.getD (t - 1) 0 ≤ ind.SlowMA.getD (t - 1) 0 ∧
          ind.FastMA.getD t 0 > ind.SlowMA.getD t 0)) ∧
      ((∃ s ∈ sigs, s.SignalType = "entry_short") ↔
        (ind.FastMA.getD (t - 1) 0 ≥ ind.SlowMA.getD (t - 1) 0 ∧
          ind.FastMA.getD t 0 < ind.SlowMA.getD t 0)) ∧
      (∀ s ∈ sigs, s.Price = currentPrice ∧
        (s.SignalType = "entry_long" ∨ s.SignalType = "entry_short")) ∧
      sigs.length ≤ 1 ∧
      (¬ (ind.FastMA.getD (t - 1) 0 ≤ ind.SlowMA.getD (t - 1) 0 ∧
            ind.FastMA.getD t 0 > ind.SlowMA.getD t 0) →
        ¬ (ind.FastMA.getD (t - 1) 0 ≥ ind.SlowMA.getD (t - 1) 0 ∧
            ind.FastMA.getD t 0 < ind.SlowMA.getD t 0) → sigs = []) := by
  have e1 : ((t : Int) - 1) = ((t - 1 : Nat) : Int) := by omega
  have hguard : ¬ ((t : Int) < 1 ∨ ind.FastMA.length < 2 ∨ ind.SlowMA.length < 2) := by omega
  have n1 : ("entry_long" : String) ≠ "entry_short" := by decide
  have hconf : ∀ ct, m.checkConfirmation (t : Int) ct = some true := by
    intro ct; simp [MACrossoverStrategy.checkConfirmation, hk]
  simp only [MACrossoverStrategy.analyzeCrossovers, hind, Option.bind_eq_bind,
    Option.some_bind, if_neg hguard, e1, getF_getD _ _ hf, getF_getD _ _ hs,
    getF_getD ind.FastMA (t - 1) (by omega), getF_getD ind.SlowMA (t - 1) (by omega),
    MACrossoverStrategy.goldenBlock, MACrossoverStrategy.deathBlock, hg, hd, hconf,
    MACrossoverStrategy.rsiAllowsLong, MACrossoverStrategy.rsiAllowsShort, hr]
  generalize ind.FastMA.getD (t - 1) 0 = fp
  generalize ind.SlowMA.getD (t - 1) 0 = sp
  generalize ind.FastMA.getD t 0 = fn
  generalize ind.SlowMA.getD t 0 = sn
  by_cases c1 : fp ≤ sp ∧ fn > sn
  · have c2 : ¬ (fp ≥ sp ∧ fn < sn) := by
      intro h; linarith [c1.2, h.2]
    rw [if_pos (show True ∧ fp ≤ sp ∧ fn > sn from ⟨trivial, c1⟩)]
    simp only [Bool.not_false, if_true, Option.pure_def, Option.some_bind, List.nil_append]
    rw [if_neg (show ¬ (True ∧ fp ≥ sp ∧ fn < sn) from fun h => c2 h.2)]
    refine ⟨_, rfl, ?_, ?_, ?_, ?_, ?_⟩
    · simp [c1]
    · simp [c2, n1]
    · simp
    · simp
    · intro h; exact absurd c1 h
  · rw [if_neg (show ¬ (True ∧ fp ≤ sp ∧ fn > sn) from fun h => c1 h.2)]
    simp only [Option.pure_def, Option.some_bind]
    by_cases c2 : fp ≥ sp ∧ fn < sn
    · rw [if_pos (show True ∧ fp ≥ sp ∧ fn < sn from ⟨trivial, c2⟩)]
      simp only [Bool.not_false, if_true, Option.pure_def, Option.some_bind, List.nil_append]
      refine ⟨_, rfl, ?_, ?_, ?_, ?_, ?_⟩
      · simp [c1, n1.symm]
      · simp [c2]
      · simp
      · simp
      · intro _ h; exact absurd c2 h
    · rw [if_neg (show ¬ (True ∧ fp ≥ sp ∧ fn < sn) from fun h => c2 h.2)]
      refine ⟨_, rfl, ?_, ?_, ?_, ?_, ?_⟩
      · simp [c1]
      · simp [c2]
      · simp
      · simp
      · intro _ _; rfl

/-- C2, witness: the fast average `[1,2,3]` crosses above the slow average `[2,2,2]` at the
last index 2. -/
theorem crossover_detection_witness :
    ∃ sigs, crossingStrategy.analyzeCrossovers Env.plain "SBER" ((2 : Nat) : Int) 9 0
        = some sigs ∧
      ((∃ s ∈ sigs, s.SignalType = "entry_long") ↔
        (([1, 2, 3] : List ℚ).getD (2 - 1) 0 ≤ ([2, 2, 2] : List ℚ).getD (2 - 1) 0 ∧
          ([1, 2, 3] : List ℚ).getD 2 0 > ([2, 2, 2] : List ℚ).getD 2 0)) ∧
      ((∃ s ∈ sigs, s.SignalType = "entry_short") ↔
        (([1, 2, 3] : List ℚ).getD (2 - 1) 0 ≥ ([2, 2, 2] : List ℚ).getD (2 - 1) 0 ∧
          ([1, 2, 3] : List ℚ).getD 2 0 < ([2, 2, 2] : List ℚ).getD 2 0)) ∧
      (∀ s ∈ sigs, s.Price = 9 ∧
        (s.SignalType = "entry_long" ∨ s.SignalType = "entry_short")) ∧
      sigs.length ≤ 1 ∧
      (¬ (([1, 2, 3] : List ℚ).getD (2 - 1) 0 ≤ ([2, 2, 2] : List ℚ).getD (2 - 1) 0 ∧
            ([1, 2, 3] : List ℚ).getD 2 0 > ([2, 2, 2] : List ℚ).getD 2 0) →
        ¬ (([1, 2, 3] : List ℚ).getD (2 - 1) 0 ≥ ([2, 2, 2] : List ℚ).getD (2 - 1) 0 ∧
            ([1, 2, 3] : List ℚ).getD 2 0 < ([2, 2, 2] : List ℚ).getD 2 0) → sigs = []) :=
  crossover_detection crossingStrategy Env.plain
    { FastMA := [1, 2, 3], SlowMA := [2, 2, 2], SignalMA := [], ATR := [], RSI := [],
      Volumes := [], Prices := [], Dates := [] }
    "SBER" 2 9 0 rfl (by decide) (by decide) (by decide) rfl rfl (by decide) rfl

/-- C3: for `period ≥ 1` and `len(data) ≥ period`, `calculateSMA` returns the reference SMA:
the mean of `data[i-period+1 .. i]` at every `i ≥ period-1` and `data[i]` itself at every
warm-up index `i ≤ period-2`. -/
theorem sma_equals_reference (data : List ℚ) (period : Int) (hp : 1 ≤ period)
    (hlen : period ≤ (data.length : Int)) :
    calculateSMA data period = some ((List.range data.length).map (smaRef data period)) :=
  calculateSMA_eq data period hp hlen

/-- C3, witness: period 2 on five points. -/
theorem sma_equals_reference_witness :
    calculateSMA [1, 2, 3, 4, 5] 2
      = some ((List.range ([1, 2, 3, 4, 5] : List ℚ).length).map (smaRef [1, 2, 3, 4, 5] 2)) :=
  sma_equals_reference [1, 2, 3, 4, 5] 2 (by decide) (by decide)

/-- C4: for `period ≥ 1` and `len(data) ≥ period`, `calculateEMA` returns the reference EMA
with `m = 2/(period+1)`: `data[i]` for `i < period-1`, the mean of `data[0..period-1]` at
`period-1`, and `(data[i] - ema[i-1])*m + ema[i-1]` for every `i ≥ period`. -/
theorem ema_equals_reference (data : List ℚ) (period : Int) (hp : 1 ≤ period)
    (hlen : period ≤ (data.length : Int)) :
    calculateEMA data period = some ((List.range data.length).map (emaRef data period)) :=
  calculateEMA_eq data period hp hlen

/-- C4, witness: period 2 on five points. -/
theorem ema_equals_reference_witness :
    calculateEMA [1, 2, 3, 4, 5] 2
      = some ((List.range ([1, 2, 3, 4, 5] : List ℚ).length).map (emaRef [1, 2, 3, 4, 5] 2)) :=
  ema_equals_reference [1, 2, 3, 4, 5] 2 (by decide) (by decide)

/-- C5, the code at the failing input (period 2, four bars with true ranges 1, 3, 1): in the
array returned by `calculateATR`, and by `MathUtils.CalculateATR` alike, the cell at index
`period` holds the raw true range 3, not the seed `mean(tr[1..2]) = 2`, and the next cell
holds `3/2`, not `(output[2]*(period-1) + tr[3]) / period = 2`. -/
theorem atr_seed_overwritten :
    calculateATR [1, 2, 4, 2] [1, 1, 1, 1] [1, 1, 1, 1] 2 = some [0, 1, 3, 3 / 2] ∧
      CalculateATR [1, 2, 4, 2] [1, 1, 1, 1] [1, 1, 1, 1] 2 = some [0, 1, 3, 3 / 2] ∧
      windowMean (trList [1, 2, 4, 2] [1, 1, 1, 1] [1, 1, 1, 1]) 1 2 = 2 ∧
      ((3 : ℚ) * (((2 : Int) - 1 : Int) : ℚ)
        + trueRange [1, 2, 4, 2] [1, 1, 1, 1] [1, 1, 1, 1] 3) / ((2 : Int) : ℚ) = 2 := by
  decide!

/-- C6: for `period ≥ 1` and aligned series of length `n ≥ period+1`, the output of
`calculateATR` holds `0` at index 0 and the raw true range
`max(high[i]-low[i], |high[i]-close[i-1]|, |low[i]-close[i-1]|)` at every index
`1 ≤ i ≤ period`. -/
theorem atr_warmup_is_raw_true_range (highs lows closes : List ℚ) (period : Int)
    (hp : 1 ≤ period) (hlen : period + 1 ≤ (highs.length : Int))
    (hl : lows.length = highs.length) (hc : closes.length = highs.length) :
    ∃ out, calculateATR highs lows closes period = some out ∧ out.length = highs.length ∧
      out[0]? = some 0 ∧
      ∀ i : Nat, 1 ≤ i → (i : Int) ≤ period →
        out[i]? = some (max (highs.getD i 0 - lows.getD i 0)
          (max |highs.getD i 0 - closes.getD (i - 1) 0| |lows.getD i 0 - closes.getD (i - 1) 0|)) := by
  refine ⟨_, calculateATR_eq highs lows closes period hp hlen hl hc, by simp, ?_, ?_⟩
  · rw [map_range_getElem? _ _ 0 (by omega)]
    have h0 : ((0 : Nat) : Int) ≤ period := by omega
    rw [if_pos h0, List.getD_eq_getElem?_getD, trList_getElem? _ _ _ 0 (by omega)]
    simp
  · intro i hi1 hip
    have hin : i < highs.length := by omega
    rw [map_range_getElem? _ _ i hin, if_pos hip, List.getD_eq_getElem?_getD,
      trList_getElem? _ _ _ i hin, if_pos hi1]
    rfl

/-- C6, witness: period 2 on four bars. -/
theorem atr_warmup_is_raw_true_range_witness :
    ∃ out, calculateATR [1, 2, 4, 2] [1, 1, 1, 1] [1, 1, 1, 1] 2 = some out ∧
      out.length = ([1, 2, 4, 2] : List ℚ).length ∧
      out[0]? = some 0 ∧
      ∀ i : Nat, 1 ≤ i → (i : Int) ≤ 2 →
        out[i]? = some (max (([1, 2, 4, 2] : List ℚ).getD i 0 - ([1, 1, 1, 1] : List ℚ).getD i 0)
          (max |([1, 2, 4, 2] : List ℚ).getD i 0 - ([1, 1, 1, 1] : List ℚ).getD (i - 1) 0|
            |([1, 1, 1, 1] : List ℚ).getD i 0 - ([1, 1, 1, 1] : List ℚ).getD (i - 1) 0|)) :=
  atr_warmup_is_raw_true_range [1, 2, 4, 2] [1, 1, 1, 1] [1, 1, 1, 1] 2 (by decide) (by decide)
    rfl rfl

/-- C7: for `period ≥ 1` and `len(closes) ≥ period+1`, `calculateRSI` returns the Wilder
reference RSI: `50` below `period`; from `period` on `100` when the smoothed loss is zero and
`100 - 100/(1 + avgGain/avgLoss)` otherwise, the averages starting as the means of
`gain[1..period]` and `loss[1..period]` and being updated by `(prev*(period-1) + new)/period`. -/
theorem rsi_equals_reference (closes : List ℚ) (period : Int) (hp : 1 ≤ period)
    (hlen : period + 1 ≤ (closes.length : Int)) :
    calculateRSI closes period
      = some ((List.range closes.length).map (rsiRef closes period.toNat)) :=
  calculateRSI_eq closes period hp hlen

/-- C7, witness: period 2 on six closes. -/
theorem rsi_equals_reference_witness :
    calculateRSI [1, 2, 3, 2, 5, 4] 2
      = some ((List.range ([1, 2, 3, 2, 5, 4] : List ℚ).length).map
          (rsiRef [1, 2, 3, 2, 5, 4] (2 : Int).toNat)) :=
  rsi_equals_reference [1, 2, 3, 2, 5, 4] 2 (by decide) (by decide)

/-- C8 (as amended): for every series of closes and every period with
`1 ≤ period < 2^63 - 1`, so that the `period+1` of the length guard does not overflow,
`calculateRSI` returns an array of the input length all of whose values lie in `[0, 100]`,
the short-input and warm-up cases included. -/
theorem rsi_within_bounds (closes : List ℚ) (period : Int) (hp : 1 ≤ period)
    (hmax : period < 9223372036854775807) :
    ∃ out, calculateRSI closes period = some out ∧ out.length = closes.length ∧
      ∀ i : Nat, i < closes.length → ∃ v, out[i]? = some v ∧ 0 ≤ v ∧ v ≤ 100 := by
  have hw : wrapInt (period + 1) = period + 1 :=
    wrapInt_of_range (period + 1) (by omega) (by omega)
  by_cases hlen : (closes.length : Int) < period + 1
  · refine ⟨makeFloats closes.length, by simp [calculateRSI, hw, hlen], by simp [makeFloats],
      ?_⟩
    intro i hi
    refine ⟨0, by simp [makeFloats, List.getElem?_replicate, hi], le_refl _, by norm_num⟩
  · refine ⟨_, calculateRSI_eq closes period hp (by omega), by simp, ?_⟩
    intro i hi
    refine ⟨_, map_range_getElem? _ _ i hi, ?_⟩
    exact rsiRef_bounds closes period.toNat (by omega) i

/-- C8, witness: period 2 on six closes. -/
theorem rsi_within_bounds_witness :
    ∃ out, calculateRSI [1, 2, 3, 2, 5, 4] 2 = some out ∧
      out.length = ([1, 2, 3, 2, 5, 4] : List ℚ).length ∧
      ∀ i : Nat, i < ([1, 2, 3, 2, 5, 4] : List ℚ).length →
        ∃ v, out[i]? = some v ∧ 0 ≤ v ∧ v ≤ 100 :=
  rsi_within_bounds [1, 2, 3, 2, 5, 4] 2 (by decide) (by decide)

/-- C8, counterexample: at `period = 2^63 - 1`, the largest `int`, the guard's `period+1`
wraps to `-2^63`, the three closes are not taken for a short input, and the seed loop
`i <= period` reads `gains[3]`: `calculateRSI` faults and returns no value. -/
theorem rsi_faults_at_largest_period :
    (1 : Int) ≤ 9223372036854775807 ∧
      wrapInt (9223372036854775807 + 1) = -9223372036854775808 ∧
      calculateRSI [1, 2, 3] 9223372036854775807 = none := by
  decide!

/-- C9, the code on a non-positive period: the length guard passes and the first write goes
to the negative index `period-1`, so both `calculateSMA` and `calculateEMA` fault instead of
returning an array. -/
theorem sma_ema_fault_on_nonpositive_period (data : List ℚ) (period : Int) (hp : period ≤ 0) :
    calculateSMA data period = none ∧ calculateEMA data period = none := by
  have hlen : ¬ ((data.length : Int) < period) := by omega
  have hneg : period - 1 < 0 := by omega
  constructor
  · obtain ⟨k, hk⟩ : ∃ k : Nat, ((data.length : Int) - (period - 1)).toNat = k + 1 :=
      ⟨((data.length : Int) - (period - 1)).toNat - 1, by omega⟩
    have hin : ((period - 1 + 1) - (period - 1 - period + 1)).toNat = 0 := by omega
    simp only [calculateSMA, if_neg hlen, forLoop, hk, forRange, hin, Option.bind_eq_bind,
      Option.some_bind, setF_neg _ _ _ hneg, Option.none_bind]
  · have h0 : (period - 0).toNat = 0 := by omega
    simp only [calculateEMA, if_neg hlen, forLoop, h0, forRange, Option.bind_eq_bind,
      Option.some_bind, setF_neg _ _ _ hneg, Option.none_bind]

/-- C9, witness: period 0 on three points. -/
theorem sma_ema_fault_on_nonpositive_period_witness :
    calculateSMA [1, 2, 3] 0 = none ∧ calculateEMA [1, 2, 3] 0 = none :=
  sma_ema_fault_on_nonpositive_period [1, 2, 3] 0 (by decide)

/-- C10 (as amended): on an input shorter than the period, `calculateSMA` and
`calculateEMA` return, without a fault, the zero-filled array of the input length, for
every period; on an input shorter than `period+1`, so do `calculateATR` and `calculateRSI`
for every period below `2^63 - 1`, the largest `int`, whose `period+1` would overflow. -/
theorem short_input_zero_filled (xs lows closes : List ℚ) (period : Int) :
    ((xs.length : Int) < period →
      calculateSMA xs period = some (List.replicate xs.length 0) ∧
      calculateEMA xs period = some (List.replicate xs.length 0)) ∧
    ((xs.length : Int) < period + 1 → period < 9223372036854775807 →
      calculateATR xs lows closes period = some (List.replicate xs.length 0) ∧
      calculateRSI xs period = some (List.replicate xs.length 0)) := by
  constructor
  · intro h2
    exact ⟨by simp [calculateSMA, h2, makeFloats], by simp [calculateEMA, h2, makeFloats]⟩
  · intro h hmax
    have hw : wrapInt (period + 1) = period + 1 :=
      wrapInt_of_range (period + 1) (by omega) (by omega)
    exact ⟨by simp [calculateATR, hw, h, makeFloats], by simp [calculateRSI, hw, h, makeFloats]⟩

/-- C10, witness: period 3 on two points. -/
theorem short_input_zero_filled_witness :
    (calculateSMA [1, 2] 3 = some (List.replicate ([1, 2] : List ℚ).length 0) ∧
      calculateEMA [1, 2] 3 = some (List.replicate ([1, 2] : List ℚ).length 0)) ∧
    (calculateATR [1, 2] [1, 2] [1, 2] 3 = some (List.replicate ([1, 2] : List ℚ).length 0) ∧
      calculateRSI [1, 2] 3 = some (List.replicate ([1, 2] : List ℚ).length 0)) :=
  ⟨(short_input_zero_filled [1, 2] [1, 2] [1, 2] 3).1 (by decide),
   (short_input_zero_filled [1, 2] [1, 2] [1, 2] 3).2 (by decide) (by decide)⟩

/-- C10, counterexample: two bars are fewer than `period+1` for `period = 2^63 - 1`, yet
the guard's `period+1` wraps to `-2^63`, the guard is false, and the seed loops
`i <= period` read `tr[2]` and `gains[2]`: `calculateATR` and `calculateRSI` fault. -/
theorem atr_rsi_fault_on_short_input_at_largest_period :
    ((([1, 2] : List ℚ).length : Int) < 9223372036854775807 + 1) ∧
      calculateATR [1, 2] [1, 2] [1, 2] 9223372036854775807 = none ∧
      calculateRSI [1, 2] 9223372036854775807 = none := by
  decide!

/-- C11: for `1 ≤ days ≤ len(prices)`, `calculateBreakout(prices, days, "high")` is the
maximum and `calculateBreakout(prices, days, "low")` the minimum of the trailing `days` values
`prices[len-days .. len-1]`: each is an element of that window and bounds every element of
it. -/
theorem breakout_is_window_extreme (ts : TurtleStrategy) (prices : List ℚ) (days : Int)
    (hd1 : 1 ≤ days) (hd2 : days ≤ (prices.length : Int)) :
    ∃ hi lo : ℚ,
      ts.calculateBreakout prices days "high" = some hi ∧
      ts.calculateBreakout prices days "low" = some lo ∧
      (prices.drop (prices.length - days.toNat)).length = days.toNat ∧
      hi ∈ prices.drop (prices.length - days.toNat) ∧
      (∀ x ∈ prices.drop (prices.length - days.toNat), x ≤ hi) ∧
      lo ∈ prices.drop (prices.length - days.toNat) ∧
      (∀ x ∈ prices.drop (prices.length - days.toNat), lo ≤ x) := by
  obtain ⟨hlen, hhi, hlo⟩ := ts.calculateBreakout_window prices days hd1 hd2
  have hne : prices.drop (prices.length - days.toNat) ≠ [] := by
    intro h
    rw [h] at hlen
    simp at hlen
    omega
  exact ⟨_, _, hhi, hlo, hlen, (MaxFloat_spec _ hne).1, (MaxFloat_spec _ hne).2,
    (MinFloat_spec _ hne).1, (MinFloat_spec _ hne).2⟩

/-- C11, witness: a window of two days on three prices. -/
theorem breakout_is_window_extreme_witness :
    ∃ hi lo : ℚ,
      twoDayStrategy.calculateBreakout [3, 1, 2] 2 "high" = some hi ∧
      twoDayStrategy.calculateBreakout [3, 1, 2] 2 "low" = some lo ∧
      (([3, 1, 2] : List ℚ).drop (([3, 1, 2] : List ℚ).length - (2 : Int).toNat)).length
        = (2 : Int).toNat ∧
      hi ∈ ([3, 1, 2] : List ℚ).drop (([3, 1, 2] : List ℚ).length - (2 : Int).toNat) ∧
      (∀ x ∈ ([3, 1, 2] : List ℚ).drop (([3, 1, 2] : List ℚ).length - (2 : Int).toNat),
        x ≤ hi) ∧
      lo ∈ ([3, 1, 2] : List ℚ).drop (([3, 1, 2] : List ℚ).length - (2 : Int).toNat) ∧
      (∀ x ∈ ([3, 1, 2] : List ℚ).drop (([3, 1, 2] : List ℚ).length - (2 : Int).toNat),
        lo ≤ x) :=
  breakout_is_window_extreme twoDayStrategy [3, 1, 2] 2 (by decide) (by decide)

/-- C12: in every analysis a Turtle strategy with `atrPeriod ≥ 1` returns, with `a` the ATR
it computed (the mean of the last `atrPeriod` true ranges, or the fallback `0` on a series of
at most `atrPeriod` bars) and `k = atrMultiplier`, an `entry_long` record has
`StopLoss = Price - a*k` and `TakeProfit - Price = 2*(Price - StopLoss)`, and an
`entry_short` record has `StopLoss = Price + a*k` and
`Price - TakeProfit = 2*(StopLoss - Price)`. -/
theorem turtle_entry_risk_levels (ts : TurtleStrategy) (env : Env) (instrument : String)
    (candles : List Candle) (sigs : List Signal) (hp : 1 ≤ ts.atrPeriod)
    (h : ts.AnalyzeInstrument env instrument (Result.ok candles) = some (Result.ok sigs)) :
    ∃ a : ℚ,
      ts.calculateATR (candles.map (fun candle => TurtleStrategy.floatField candle.high))
        (candles.map (fun candle => TurtleStrategy.floatField candle.low))
        (candles.map (fun candle => TurtleStrategy.floatField candle.close)) = some a ∧
      a = (if (candles.length : Int) ≤ ts.atrPeriod then 0
        else windowMean
          (trList (candles.map (fun candle => TurtleStrategy.floatField candle.high))
            (candles.map (fun candle => TurtleStrategy.floatField candle.low))
            (candles.map (fun candle => TurtleStrategy.floatField candle.close)))
          (candles.length - ts.atrPeriod.toNat) ts.atrPeriod.toNat) ∧
      ∀ s ∈ sigs,
        (s.SignalType = "entry_long" →
          s.StopLoss = s.Price - a * ts.atrMultiplier ∧
          s.TakeProfit - s.Price = 2 * (s.Price - s.StopLoss)) ∧
        (s.SignalType = "entry_short" →
          s.StopLoss = s.Price + a * ts.atrMultiplier ∧
          s.Price - s.TakeProfit = 2 * (s.StopLoss - s.Price)) := by
  obtain ⟨_, lv, hlv, rfl⟩ := ts.AnalyzeInstrument_ok env instrument candles sigs h
  have hatr := ts.computeLevels_atr env candles lv hlv
  refine ⟨lv.atr, hatr, ?_, ?_⟩
  · by_cases hshort : (candles.length : Int) ≤ ts.atrPeriod
    · rw [if_pos hshort]
      have hg : ((candles.map (fun candle => TurtleStrategy.floatField candle.high)).length : Int)
          < ts.atrPeriod + 1 := by rw [List.length_map]; omega
      rw [TurtleStrategy.calculateATR, if_pos hg] at hatr
      exact (Option.some.inj hatr).symm
    · rw [if_neg hshort]
      have hm := ts.calculateATR_mean
        (candles.map (fun candle => TurtleStrategy.floatField candle.high))
        (candles.map (fun candle => TurtleStrategy.floatField candle.low))
        (candles.map (fun candle => TurtleStrategy.floatField candle.close))
        ts.atrPeriod.toNat (by omega) (by rw [List.length_map]; omega) (by simp) (by simp)
      rw [List.length_map] at hm
      exact Option.some.inj (hatr.symm.trans hm)
  intro s hs
  have n1 : ("entry_long" : String) ≠ "entry_short" := by decide
  have n2 : ("exit_long" : String) ≠ "entry_long" := by decide
  have n3 : ("exit_short" : String) ≠ "entry_long" := by decide
  have n4 : ("no_signal" : String) ≠ "entry_long" := by decide
  have n5 : ("exit_long" : String) ≠ "entry_short" := by decide
  have n6 : ("exit_short" : String) ≠ "entry_short" := by decide
  have n7 : ("no_signal" : String) ≠ "entry_short" := by decide
  rcases ts.classify_mem env instrument lv s hs with rfl | rfl | rfl | rfl | rfl
  · refine ⟨fun _ => ⟨rfl, ?_⟩, fun hty => absurd hty n1⟩
    simp only [TurtleStrategy.entryLongSignal]; ring
  · refine ⟨fun hty => absurd hty n1.symm, fun _ => ⟨rfl, ?_⟩⟩
    simp only [TurtleStrategy.entryShortSignal]; ring
  · exact ⟨fun hty => absurd hty n2, fun hty => absurd hty n5⟩
  · exact ⟨fun hty => absurd hty n3, fun hty => absurd hty n6⟩
  · exact ⟨fun hty => absurd hty n4, fun hty => absurd hty n7⟩

/-- C12, witness: the two-day strategy on the two flat bars 10, 12. -/
theorem turtle_entry_risk_levels_witness :
    ∃ a : ℚ,
      twoDayStrategy.calculateATR
        ([flatCandle 10, flatCandle 12].map (fun candle => TurtleStrategy.floatField candle.high))
        ([flatCandle 10, flatCandle 12].map (fun candle => TurtleStrategy.floatField candle.low))
        ([flatCandle 10, flatCandle 12].map (fun candle => TurtleStrategy.floatField candle.close))
        = some a ∧
      a = (if ((([flatCandle 10, flatCandle 12] : List Candle).length : Int))
            ≤ twoDayStrategy.atrPeriod then 0
        else windowMean
          (trList
            ([flatCandle 10, flatCandle 12].map
              (fun candle => TurtleStrategy.floatField candle.high))
            ([flatCandle 10, flatCandle 12].map
              (fun candle => TurtleStrategy.floatField candle.low))
            ([flatCandle 10, flatCandle 12].map
              (fun candle => TurtleStrategy.floatField candle.close)))
          (([flatCandle 10, flatCandle 12] : List Candle).length
            - twoDayStrategy.atrPeriod.toNat) twoDayStrategy.atrPeriod.toNat) ∧
      ∀ s ∈ twoDaySignals,
        (s.SignalType = "entry_long" →
          s.StopLoss = s.Price - a * twoDayStrategy.atrMultiplier ∧
          s.TakeProfit - s.Price = 2 * (s.Price - s.StopLoss)) ∧
        (s.SignalType = "entry_short" →
          s.StopLoss = s.Price + a * twoDayStrategy.atrMultiplier ∧
          s.Price - s.TakeProfit = 2 * (s.StopLoss - s.Price)) :=
  turtle_entry_risk_levels twoDayStrategy Env.plain "SBER" [flatCandle 10, flatCandle 12]
    twoDaySignals (by decide) (by decide!)

/-- C13: for a signal with price `p` and an index `t < len(ATR)`, `calculateRiskManagement`
leaves `Instrument`, `SignalType`, `Price` and `Timestamp` unchanged and sets, for
`entry_long`, `StopLoss = p - ATR[t]*StopLossATRMultiplier` and
`TakeProfit = p + ATR[t]*StopLossATRMultiplier*TakeProfitRatio`, and for `entry_short`,
`StopLoss = p + ATR[t]*StopLossATRMultiplier` and
`TakeProfit = p - ATR[t]*StopLossATRMultiplier*TakeProfitRatio`. -/
theorem ma_risk_levels (m : MACrossoverStrategy) (env : Env) (ind : TechnicalIndicators)
    (signal : Signal) (t : Nat) (hind : m.indicators = some ind) (ht : t < ind.ATR.length) :
    ∃ s : Signal, m.calculateRiskManagement env signal (t : Int) = some s ∧
      s.Instrument = signal.Instrument ∧ s.SignalType = signal.SignalType ∧
      s.Price = signal.Price ∧ s.Timestamp = signal.Timestamp ∧
      (signal.SignalType = "entry_long" →
        s.StopLoss = signal.Price - ind.ATR.getD t 0 * m.config.StopLossATRMultiplier ∧
        s.TakeProfit = signal.Price
          + ind.ATR.getD t 0 * m.config.StopLossATRMultiplier * m.config.TakeProfitRatio) ∧
      (signal.SignalType = "entry_short" →
        s.StopLoss = signal.Price + ind.ATR.getD t 0 * m.config.StopLossATRMultiplier ∧
        s.TakeProfit = signal.Price
          - ind.ATR.getD t 0 * m.config.StopLossATRMultiplier * m.config.TakeProfitRatio) := by
  have hguard : ¬ (ind.ATR.length = 0 ∨ (t : Int) ≥ (ind.ATR.length : Int)) := by omega
  have n1 : ("entry_long" : String) ≠ "entry_short" := by decide
  simp only [MACrossoverStrategy.calculateRiskManagement, hind, Option.bind_eq_bind,
    Option.some_bind, if_neg hguard, getF_getD _ _ ht, Option.pure_def]
  by_cases hl : signal.SignalType = "entry_long"
  · rw [if_pos hl]
    refine ⟨_, rfl, rfl, rfl, rfl, rfl, fun _ => ⟨rfl, rfl⟩, fun hs => ?_⟩
    rw [hl] at hs; exact absurd hs n1
  · rw [if_neg hl]
    by_cases hs : signal.SignalType = "entry_short"
    · rw [if_pos hs]
      exact ⟨_, rfl, rfl, rfl, rfl, rfl, fun h => absurd h hl, fun _ => ⟨rfl, rfl⟩⟩
    · rw [if_neg hs]
      exact ⟨_, rfl, rfl, rfl, rfl, rfl, fun h => absurd h hl, fun h => absurd h hs⟩

/-- C13, witness: a long candidate at price 9 with `ATR[2] = 2`. -/
theorem ma_risk_levels_witness :
    ∃ s : Signal, crossingWithATR.calculateRiskManagement Env.plain longCandidate ((2 : Nat) : Int)
        = some s ∧
      s.Instrument = longCandidate.Instrument ∧ s.SignalType = longCandidate.SignalType ∧
      s.Price = longCandidate.Price ∧ s.Timestamp = longCandidate.Timestamp ∧
      (longCandidate.SignalType = "entry_long" →
        s.StopLoss = longCandidate.Price
          - ([0, 1, 2] : List ℚ).getD 2 0 * crossingWithATR.config.StopLossATRMultiplier ∧
        s.TakeProfit = longCandidate.Price
          + ([0, 1, 2] : List ℚ).getD 2 0 * crossingWithATR.config.StopLossATRMultiplier
            * crossingWithATR.config.TakeProfitRatio) ∧
      (longCandidate.SignalType = "entry_short" →
        s.StopLoss = longCandidate.Price
          + ([0, 1, 2] : List ℚ).getD 2 0 * crossingWithATR.config.StopLossATRMultiplier ∧
        s.TakeProfit = longCandidate.Price
          - ([0, 1, 2] : List ℚ).getD 2 0 * crossingWithATR.config.StopLossATRMultiplier
            * crossingWithATR.config.TakeProfitRatio) :=
  ma_risk_levels crossingWithATR Env.plain
    { FastMA := [1, 2, 3], SlowMA := [2, 2, 2], SignalMA := [], ATR := [0, 1, 2], RSI := [],
      Volumes := [], Prices := [], Dates := [] }
    longCandidate 2 rfl (by decide)

/-- C14 (as amended): for `entryPrice ≠ stopLoss` and `stopLoss ≠ 0`,
`calculatePositionSize(entryPrice, stopLoss)` equals
`(100000 * riskPerTrade) / |entryPrice - stopLoss|`, so that the position size times
`|entryPrice - stopLoss|` is the risk amount `100000 * riskPerTrade`. -/
theorem position_size_formula (ts : TurtleStrategy) (entryPrice stopLoss : ℚ)
    (hne : entryPrice ≠ stopLoss) (hsl : stopLoss ≠ 0) :
    ts.calculatePositionSize entryPrice stopLoss
        = (100000 * ts.riskPerTrade) / |entryPrice - stopLoss| ∧
      ts.calculatePositionSize entryPrice stopLoss * |entryPrice - stopLoss|
        = 100000 * ts.riskPerTrade := by
  have habs : |entryPrice - stopLoss| ≠ 0 := by
    rw [abs_ne_zero]; exact sub_ne_zero.mpr hne
  have h : ts.calculatePositionSize entryPrice stopLoss
      = (100000 * ts.riskPerTrade) / |entryPrice - stopLoss| := by
    simp only [TurtleStrategy.calculatePositionSize, if_neg hsl, if_neg habs]
  refine ⟨h, ?_⟩
  rw [h, div_mul_cancel₀ _ habs]

/-- C14, witness: entry 12, stop 8, risk 2%. -/
theorem position_size_formula_witness :
    twoDayStrategy.calculatePositionSize 12 8
        = (100000 * twoDayStrategy.riskPerTrade) / |(12 : ℚ) - 8| ∧
      twoDayStrategy.calculatePositionSize 12 8 * |(12 : ℚ) - 8|
        = 100000 * twoDayStrategy.riskPerTrade :=
  position_size_formula twoDayStrategy 12 8 (by decide!) (by decide!)

/-- C14, counterexample: with `stopLoss = 0` the first guard returns `0`, while
`(100000 * riskPerTrade) / |entryPrice - stopLoss|` is `200`. -/
theorem position_size_zero_stop :
    (10 : ℚ) ≠ 0 ∧ twoDayStrategy.calculatePositionSize 10 0 = 0 ∧
      (100000 * twoDayStrategy.riskPerTrade) / |(10 : ℚ) - 0| = 200 := by
  decide!

/-- C15: when the stop-loss of an entry equals its price the position size is `0`:
`calculatePositionSize(p, p) = 0` in the Turtle strategy, hence a Turtle entry record whose
`StopLoss` equals its `Price` has `PositionSize = 0`; and every record the MA-Crossover
pipeline `analyzeSignals` returns with `StopLoss` equal to `Price` has `PositionSize = 0`. -/
theorem position_size_zero_when_stop_equals_price (ts : TurtleStrategy) (p : ℚ)
    (lv : TurtleStrategy.Levels) (m : MACrossoverStrategy) (env : Env) (instrument : String)
    (prices closes volumes : List ℚ) (dates : List Time) (sigs : List Signal)
    (h : m.analyzeSignals env instrument prices closes volumes dates = some (Result.ok sigs)) :
    ts.calculatePositionSize p p = 0 ∧
      ((ts.entryLongSignal env instrument lv).StopLoss
          = (ts.entryLongSignal env instrument lv).Price →
        (ts.entryLongSignal env instrument lv).PositionSize = 0) ∧
      ((ts.entryShortSignal env instrument lv).StopLoss
          = (ts.entryShortSignal env instrument lv).Price →
        (ts.entryShortSignal env instrument lv).PositionSize = 0) ∧
      ∀ s ∈ sigs, (s.SignalType = "entry_long" ∨ s.SignalType = "entry_short") →
        s.StopLoss = s.Price → s.PositionSize = 0 := by
  have hpp : ∀ q : ℚ, ts.calculatePositionSize q q = 0 := by
    intro q
    simp [TurtleStrategy.calculatePositionSize]
  refine ⟨hpp p, ?_, ?_, ?_⟩
  · intro hsl
    simp only [TurtleStrategy.entryLongSignal] at hsl ⊢
    rw [hsl]; exact hpp _
  · intro hsl
    simp only [TurtleStrategy.entryShortSignal] at hsl ⊢
    rw [hsl]; exact hpp _
  · intro s hs _
    exact m.analyzeSignals_guard env instrument prices closes volumes dates sigs h s hs

/-- C15, witness: a zero ATR in both strategies; the MA-Crossover pipeline returns one
`entry_long` at 9 with stop-loss 9 and position size 0. -/
theorem position_size_zero_when_stop_equals_price_witness :
    twoDayStrategy.calculatePositionSize 12 12 = 0 ∧
      ((twoDayStrategy.entryLongSignal Env.plain "SBER" zeroATRLevels).StopLoss
          = (twoDayStrategy.entryLongSignal Env.plain "SBER" zeroATRLevels).Price →
        (twoDayStrategy.entryLongSignal Env.plain "SBER" zeroATRLevels).PositionSize = 0) ∧
      ((twoDayStrategy.entryShortSignal Env.plain "SBER" zeroATRLevels).StopLoss
          = (twoDayStrategy.entryShortSignal Env.plain "SBER" zeroATRLevels).Price →
        (twoDayStrategy.entryShortSignal Env.plain "SBER" zeroATRLevels).PositionSize = 0) ∧
      ∀ s ∈ zeroATRSignals, (s.SignalType = "entry_long" ∨ s.SignalType = "entry_short") →
        s.StopLoss = s.Price → s.PositionSize = 0 :=
  position_size_zero_when_stop_equals_price twoDayStrategy 12 zeroATRLevels zeroATRStrategy
    Env.plain "SBER" [7, 8, 9] [7, 8, 9] [1, 1, 1] [0, 0, 0] zeroATRSignals (by decide!)

/-- C16 (as amended): for an index `t` inside both moving averages and
`K = RequireConfirmation`, `checkConfirmation(t, "golden")` is true iff `K ≤ 0`, or `t ≥ K`
and `fastMA[i] > slowMA[i]` strictly for every bar `i` in `[t-K+1, t]`; and
`checkConfirmation(t, "death")` is true iff `K ≤ 0`, or `t ≥ K` and `fastMA[i] < slowMA[i]`
strictly for every bar `i` in `[t-K+1, t]`.  In particular a flip of the relation on any of
the `K` most recent bars rejects the candidate. -/
theorem confirmation_window (m : MACrossoverStrategy) (ind : TechnicalIndicators) (t : Nat)
    (hind : m.indicators = some ind) (hf : t < ind.FastMA.length)
    (hs : t < ind.SlowMA.length) :
    ∃ g d : Bool,
      m.checkConfirmation (t : Int) "golden" = some g ∧
      m.checkConfirmation (t : Int) "death" = some d ∧
      (g = true ↔ m.config.CrossoverTypes.RequireConfirmation ≤ 0 ∨
        (m.config.CrossoverTypes.RequireConfirmation ≤ (t : Int) ∧
          ∀ i : Nat, (t : Int) - m.config.CrossoverTypes.RequireConfirmation + 1 ≤ (i : Int) →
            i ≤ t → ind.FastMA.getD i 0 > ind.SlowMA.getD i 0)) ∧
      (d = true ↔ m.config.CrossoverTypes.RequireConfirmation ≤ 0 ∨
        (m.config.CrossoverTypes.RequireConfirmation ≤ (t : Int) ∧
          ∀ i : Nat, (t : Int) - m.config.CrossoverTypes.RequireConfirmation + 1 ≤ (i : Int) →
            i ≤ t → ind.FastMA.getD i 0 < ind.SlowMA.getD i 0)) := by
  by_cases hk : m.config.CrossoverTypes.RequireConfirmation ≤ 0
  · refine ⟨true, true, ?_, ?_, ?_, ?_⟩
    · simp [MACrossoverStrategy.checkConfirmation, hk]
    · simp [MACrossoverStrategy.checkConfirmation, hk]
    · simp [hk]
    · simp [hk]
  · by_cases hlt : (t : Int) < m.config.CrossoverTypes.RequireConfirmation
    · refine ⟨false, false, ?_, ?_, ?_, ?_⟩
      · simp [MACrossoverStrategy.checkConfirmation, hk, hind, hlt]
      · simp [MACrossoverStrategy.checkConfirmation, hk, hind, hlt]
      · constructor
        · intro h; exact absurd h (by decide)
        · rintro (h | ⟨h, _⟩)
          · exact absurd h hk
          · omega
      · constructor
        · intro h; exact absurd h (by decide)
        · rintro (h | ⟨h, _⟩)
          · exact absurd h hk
          · omega
    · obtain ⟨K, hK⟩ : ∃ K : Nat, m.config.CrossoverTypes.RequireConfirmation = (K : Int) :=
        ⟨m.config.CrossoverTypes.RequireConfirmation.toNat, by omega⟩
      have hKt : K ≤ t := by omega
      have hk' : ¬ ((K : Int) ≤ 0) := by rw [← hK]; exact hk
      have hlt' : ¬ ((t : Int) < (K : Int)) := by rw [← hK]; exact hlt
      obtain ⟨g, hg1, hg2⟩ :=
        MACrossoverStrategy.confirmLoop_golden ind.FastMA ind.SlowMA t hf hs K 0 (by omega)
      obtain ⟨d, hd1, hd2⟩ :=
        MACrossoverStrategy.confirmLoop_death ind.FastMA ind.SlowMA t hf hs K 0 (by omega)
      have hconv : ∀ P : Nat → Prop,
          (∀ j : Nat, j < K → P (t - (0 + j))) ↔
            ((K : Int) ≤ (t : Int) ∧
              ∀ i : Nat, (t : Int) - (K : Int) + 1 ≤ (i : Int) → i ≤ t → P i) := by
        intro P
        constructor
        · intro h
          refine ⟨by omega, fun i hi1 hi2 => ?_⟩
          have := h (t - i) (by omega)
          have e : t - (0 + (t - i)) = i := by omega
          rw [e] at this; exact this
        · rintro ⟨_, h⟩ j hj
          exact h (t - (0 + j)) (by omega) (by omega)
      refine ⟨g, d, ?_, ?_, ?_, ?_⟩
      · simp only [MACrossoverStrategy.checkConfirmation, hind, Option.bind_eq_bind,
          Option.some_bind, hK, Int.toNat_ofNat, if_neg hk', if_neg hlt']
        exact hg1
      · simp only [MACrossoverStrategy.checkConfirmation, hind, Option.bind_eq_bind,
          Option.some_bind, hK, Int.toNat_ofNat, if_neg hk', if_neg hlt']
        exact hd1
      · rw [hg2, hK, hconv (fun i => ind.FastMA.getD i 0 > ind.SlowMA.getD i 0)]
        constructor
        · intro h; exact Or.inr h
        · rintro (h | h)
          · rw [hK] at hk; exact absurd h hk
          · exact h
      · rw [hd2, hK, hconv (fun i => ind.FastMA.getD i 0 < ind.SlowMA.getD i 0)]
        constructor
        · intro h; exact Or.inr h
        · rintro (h | h)
          · rw [hK] at hk; exact absurd h hk
          · exact h

/-- C16, witness: two confirmation bars at index 3 of four-bar averages. -/
theorem confirmation_window_witness :
    ∃ g d : Bool,
      twoBarStrategy.checkConfirmation ((3 : Nat) : Int) "golden" = some g ∧
      twoBarStrategy.checkConfirmation ((3 : Nat) : Int) "death" = some d ∧
      (g = true ↔ twoBarStrategy.config.CrossoverTypes.RequireConfirmation ≤ 0 ∨
        (twoBarStrategy.config.CrossoverTypes.RequireConfirmation ≤ ((3 : Nat) : Int) ∧
          ∀ i : Nat, ((3 : Nat) : Int) - twoBarStrategy.config.CrossoverTypes.RequireConfirmation
              + 1 ≤ (i : Int) →
            i ≤ 3 → ([1, 1, 3, 4] : List ℚ).getD i 0 > ([2, 2, 2, 2] : List ℚ).getD i 0)) ∧
      (d = true ↔ twoBarStrategy.config.CrossoverTypes.RequireConfirmation ≤ 0 ∨
        (twoBarStrategy.config.CrossoverTypes.RequireConfirmation ≤ ((3 : Nat) : Int) ∧
          ∀ i : Nat, ((3 : Nat) : Int) - twoBarStrategy.config.CrossoverTypes.RequireConfirmation
              + 1 ≤ (i : Int) →
            i ≤ 3 → ([1, 1, 3, 4] : List ℚ).getD i 0 < ([2, 2, 2, 2] : List ℚ).getD i 0)) :=
  confirmation_window twoBarStrategy
    { FastMA := [1, 1, 3, 4], SlowMA := [2, 2, 2, 2], SignalMA := [], ATR := [], RSI := [],
      Volumes := [], Prices := [], Dates := [] }
    3 rfl (by decide) (by decide)

/-- C16, counterexample: with `K = 3` at the last index `t = 2` the window `[t-K+1, t]` is
`[0, 2]`, the fast average is strictly above the slow one on each of its bars, and
`checkConfirmation(2, "golden")` is false: the guard `currentIdx < K` rejects. -/
theorem confirmation_rejects_short_history :
    threeBarStrategy.checkConfirmation 2 "golden" = some false ∧
      ¬ (threeBarStrategy.config.CrossoverTypes.RequireConfirmation ≤ 0) ∧
      ∀ i : Nat, (2 : Int) - threeBarStrategy.config.CrossoverTypes.RequireConfirmation + 1
          ≤ (i : Int) → i ≤ 2 →
        ([2, 2, 2] : List ℚ).getD i 0 > ([1, 1, 1] : List ℚ).getD i 0 := by
  refine ⟨by decide!, by decide, ?_⟩
  intro i _ hi
  have : i = 0 ∨ i = 1 ∨ i = 2 := by omega
  rcases this with rfl | rfl | rfl <;> simp

/-- C17: at a last index `t ≥ 1` inside both moving averages, for a confirmed golden-cross
candidate (crossover condition and confirmation both hold) `analyzeCrossovers` with the RSI
filter on and `RSI[t]` defined returns no `entry_long` iff `RSI[t] ≥ RSIOverbought`, and with
the filter off always returns the `entry_long`; for a confirmed death-cross candidate it
returns no `entry_short` iff `RSI[t] ≤ RSIOversold` with the filter on, and always returns
the `entry_short` with the filter off. -/
theorem rsi_filter_gate (m : MACrossoverStrategy) (env : Env) (ind : TechnicalIndicators)
    (instrument : String) (t : Nat) (currentPrice : ℚ) (currentDate : Time)
    (hind : m.indicators = some ind) (ht : 1 ≤ t)
    (hf : t < ind.FastMA.length) (hs : t < ind.SlowMA.length) :
    ∃ sigs, m.analyzeCrossovers env instrument (t : Int) currentPrice currentDate = some sigs ∧
      ((m.config.CrossoverTypes.GoldenCross = true ∧
          ind.FastMA.getD (t - 1) 0 ≤ ind.SlowMA.getD (t - 1) 0 ∧
          ind.FastMA.getD t 0 > ind.SlowMA.getD t 0 ∧
          m.checkConfirmation (t : Int) "golden" = some true) →
        (m.config.Filters.RSIFilter = true → t < ind.RSI.length →
          ((¬ ∃ s ∈ sigs, s.SignalType = "entry_long") ↔
            ind.RSI.getD t 0 ≥ (m.config.Filters.RSIOverbought : ℚ))) ∧
        (m.config.Filters.RSIFilter = false → ∃ s ∈ sigs, s.SignalType = "entry_long")) ∧
      ((m.config.CrossoverTypes.DeathCross = true ∧
          ind.FastMA.getD (t - 1) 0 ≥ ind.SlowMA.getD (t - 1) 0 ∧
          ind.FastMA.getD t 0 < ind.SlowMA.getD t 0 ∧
          m.checkConfirmation (t : Int) "death" = some true) →
        (m.config.Filters.RSIFilter = true → t < ind.RSI.length →
          ((¬ ∃ s ∈ sigs, s.SignalType = "entry_short") ↔
            ind.RSI.getD t 0 ≤ (m.config.Filters.RSIOversold : ℚ))) ∧
        (m.config.Filters.RSIFilter = false → ∃ s ∈ sigs, s.SignalType = "entry_short")) := by
  obtain ⟨g, hg⟩ := m.checkConfirmation_some ind hind (t : Int) "golden"
  obtain ⟨d, hd⟩ := m.checkConfirmation_some ind hind (t : Int) "death"
  obtain ⟨sl, ss, hsl, hss, _, _, heq⟩ := m.analyzeCrossovers_closed env ind instrument t
    currentPrice currentDate hind ht hf hs g d hg hd
  have n1 : ("entry_long" : String) ≠ "entry_short" := by decide
  have hsl' : ¬ (sl.SignalType = "entry_short") := by rw [hsl]; exact n1
  have hss' : ¬ (ss.SignalType = "entry_long") := by rw [hss]; exact n1.symm
  refine ⟨_, heq, ?_, ?_⟩
  · rintro ⟨hG, hp, hn, hconf⟩
    have hgt : g = true := by
      rw [hconf] at hg; exact (Option.some.inj hg).symm
    constructor
    · intro hr hlen
      constructor
      · intro hno
        by_contra hnge
        have hlt : ind.RSI.getD t 0 < (m.config.Filters.RSIOverbought : ℚ) := lt_of_not_ge hnge
        apply hno
        refine ⟨sl, ?_, hsl⟩
        rw [if_pos ⟨⟨hG, hp, hn⟩, hgt, by rw [if_pos hr, if_pos hlen]; exact decide_eq_true hlt⟩]
        exact List.mem_append_left _ (List.mem_singleton_self _)
      · intro hge
        have hnlt : ¬ (ind.RSI.getD t 0 < (m.config.Filters.RSIOverbought : ℚ)) :=
          not_lt.mpr hge
        rintro ⟨s, hmem, hty⟩
        rw [if_neg (fun hA => by
          have h3 := hA.2.2
          rw [if_pos hr, if_pos hlen] at h3
          exact hnlt (of_decide_eq_true h3)), List.nil_append] at hmem
        split_ifs at hmem
        · rw [List.mem_singleton] at hmem
          rw [hmem] at hty; exact hss' hty
        · exact absurd hmem (List.not_mem_nil _)
    · intro hr
      have hrf : ¬ (m.config.Filters.RSIFilter = true) := by rw [hr]; exact Bool.false_ne_true
      refine ⟨sl, ?_, hsl⟩
      rw [if_pos ⟨⟨hG, hp, hn⟩, hgt, by rw [if_neg hrf]⟩]
      exact List.mem_append_left _ (List.mem_singleton_self _)
  · rintro ⟨hD, hp, hn, hconf⟩
    have hdt : d = true := by
      rw [hconf] at hd; exact (Option.some.inj hd).symm
    constructor
    · intro hr hlen
      constructor
      · intro hno
        by_contra hnle
        have hlt : ind.RSI.getD t 0 > (m.config.Filters.RSIOversold : ℚ) := lt_of_not_ge hnle
        apply hno
        refine ⟨ss, ?_, hss⟩
        rw [if_pos (show (m.config.CrossoverTypes.DeathCross = true ∧
              ind.FastMA.getD (t - 1) 0 ≥ ind.SlowMA.getD (t - 1) 0 ∧
              ind.FastMA.getD t 0 < ind.SlowMA.getD t 0) ∧ d = true ∧
              (if m.config.Filters.RSIFilter = true then
                (if t < ind.RSI.length then
                  decide (ind.RSI.getD t 0 > (m.config.Filters.RSIOversold : ℚ)) else false)
               else true) = true from
          ⟨⟨hD, hp, hn⟩, hdt, by rw [if_pos hr, if_pos hlen]; exact decide_eq_true hlt⟩)]
        exact List.mem_append_right _ (List.mem_singleton_self _)
      · intro hle
        have hnlt : ¬ (ind.RSI.getD t 0 > (m.config.Filters.RSIOversold : ℚ)) :=
          not_lt.mpr hle
        rintro ⟨s, hmem, hty⟩
        rw [if_neg (show ¬ ((m.config.CrossoverTypes.DeathCross = true ∧
              ind.FastMA.getD (t - 1) 0 ≥ ind.SlowMA.getD (t - 1) 0 ∧
              ind.FastMA.getD t 0 < ind.SlowMA.getD t 0) ∧ d = true ∧
              (if m.config.Filters.RSIFilter = true then
                (if t < ind.RSI.length then
                  decide (ind.RSI.getD t 0 > (m.config.Filters.RSIOversold : ℚ)) else false)
               else true) = true) from fun hA => by
          have h3 := hA.2.2
          rw [if_pos hr, if_pos hlen] at h3
          exact hnlt (of_decide_eq_true h3)), List.append_nil] at hmem
        split_ifs at hmem
        · rw [List.mem_singleton] at hmem
          rw [hmem] at hty; exact hsl' hty
        · exact absurd hmem (List.not_mem_nil _)
    · intro hr
      have hrf : ¬ (m.config.Filters.RSIFilter = true) := by rw [hr]; exact Bool.false_ne_true
      refine ⟨ss, ?_, hss⟩
      rw [if_pos (show (m.config.CrossoverTypes.DeathCross = true ∧
            ind.FastMA.getD (t - 1) 0 ≥ ind.SlowMA.getD (t - 1) 0 ∧
            ind.FastMA.getD t 0 < ind.SlowMA.getD t 0) ∧ d = true ∧
            (if m.config.Filters.RSIFilter = true then
              (if t < ind.RSI.length then
                decide (ind.RSI.getD t 0 > (m.config.Filters.RSIOversold : ℚ)) else false)
             else true) = true from ⟨⟨hD, hp, hn⟩, hdt, by rw [if_neg hrf]⟩)]
      exact List.mem_append_right _ (List.mem_singleton_self _)

/-- C17, witness: the RSI-gated strategy at index 2, where the golden cross holds and
`RSI[2] = 80`. -/
theorem rsi_filter_gate_witness :
    ∃ sigs, rsiGatedStrategy.analyzeCrossovers Env.plain "SBER" ((2 : Nat) : Int) 9 0
        = some sigs ∧
      ((rsiGatedStrategy.config.CrossoverTypes.GoldenCross = true ∧
          ([1, 2, 3] : List ℚ).getD (2 - 1) 0 ≤ ([2, 2, 2] : List ℚ).getD (2 - 1) 0 ∧
          ([1, 2, 3] : List ℚ).getD 2 0 > ([2, 2, 2] : List ℚ).getD 2 0 ∧
          rsiGatedStrategy.checkConfirmation ((2 : Nat) : Int) "golden" = some true) →
        (rsiGatedStrategy.config.Filters.RSIFilter = true →
          2 < ([50, 50, 80] : List ℚ).length →
          ((¬ ∃ s ∈ sigs, s.SignalType = "entry_long") ↔
            ([50, 50, 80] : List ℚ).getD 2 0
              ≥ (rsiGatedStrategy.config.Filters.RSIOverbought : ℚ))) ∧
        (rsiGatedStrategy.config.Filters.RSIFilter = false →
          ∃ s ∈ sigs, s.SignalType = "entry_long")) ∧
      ((rsiGatedStrategy.config.CrossoverTypes.DeathCross = true ∧
          ([1, 2, 3] : List ℚ).getD (2 - 1) 0 ≥ ([2, 2, 2] : List ℚ).getD (2 - 1) 0 ∧
          ([1, 2, 3] : List ℚ).getD 2 0 < ([2, 2, 2] : List ℚ).getD 2 0 ∧
          rsiGatedStrategy.checkConfirmation ((2 : Nat) : Int) "death" = some true) →
        (rsiGatedStrategy.config.Filters.RSIFilter = true →
          2 < ([50, 50, 80] : List ℚ).length →
          ((¬ ∃ s ∈ sigs, s.SignalType = "entry_short") ↔
            ([50, 50, 80] : List ℚ).getD 2 0
              ≤ (rsiGatedStrategy.config.Filters.RSIOversold : ℚ))) ∧
        (rsiGatedStrategy.config.Filters.RSIFilter = false →
          ∃ s ∈ sigs, s.SignalType = "entry_short")) :=
  rsi_filter_gate rsiGatedStrategy Env.plain
    { FastMA := [1, 2, 3], SlowMA := [2, 2, 2], SignalMA := [], ATR := [], RSI := [50, 50, 80],
      Volumes := [], Prices := [], Dates := [] }
    "SBER" 2 9 0 rfl (by decide) (by decide) (by decide)

/-- C18 (as amended): for a volume series of at least 20 values and a last index `t` inside
it, `filterByVolume` keeps a candidate iff `currentVolume / avgVolume >= MinVolumeMultiplier`
(the float test, `quotientAtLeast`), where `avgVolume` is the mean of the trailing
`min(20, t+1)` values `volumes[max(0, t-19) .. t]`; the candidates failing it are dropped and
every kept candidate is unchanged except for the text appended to its `Reason`. -/
theorem volume_filter (m : MACrossoverStrategy) (env : Env) (signals : List Signal)
    (currentVolume : ℚ) (volumes : List ℚ) (t : Nat)
    (h20 : 20 ≤ volumes.length) (ht : t < volumes.length) :
    m.filterByVolume env signals currentVolume volumes (t : Int) = some
        (if quotientAtLeast currentVolume (windowMean volumes (t - 19) (t + 1 - (t - 19)))
            m.config.MinVolumeMultiplier = true then
          signals.map (fun s => { s with
            Reason := s.Reason ++ MACrossoverStrategy.volumeText env currentVolume
              (currentVolume / windowMean volumes (t - 19) (t + 1 - (t - 19))) })
        else []) ∧
      t + 1 - (t - 19) = min 20 (t + 1) ∧
      (windowMean volumes (t - 19) (t + 1 - (t - 19)) ≠ 0 →
        (quotientAtLeast currentVolume (windowMean volumes (t - 19) (t + 1 - (t - 19)))
            m.config.MinVolumeMultiplier = true ↔
          currentVolume / windowMean volumes (t - 19) (t + 1 - (t - 19))
            ≥ m.config.MinVolumeMultiplier)) := by
  refine ⟨m.filterByVolume_eq env signals currentVolume volumes t h20 ht, by omega, ?_⟩
  intro hne
  simp [quotientAtLeast, hne]

/-- C18, witness: 22 volumes, the last index 21, a current volume of 30. -/
theorem volume_filter_witness :
    crossingStrategy.filterByVolume Env.plain [longCandidate] 30 volumeSeries ((21 : Nat) : Int)
        = some
        (if quotientAtLeast 30 (windowMean volumeSeries (21 - 19) (21 + 1 - (21 - 19)))
            crossingStrategy.config.MinVolumeMultiplier = true then
          [longCandidate].map (fun s => { s with
            Reason := s.Reason ++ MACrossoverStrategy.volumeText Env.plain 30
              (30 / windowMean volumeSeries (21 - 19) (21 + 1 - (21 - 19))) })
        else []) ∧
      21 + 1 - (21 - 19) = min 20 (21 + 1) ∧
      (windowMean volumeSeries (21 - 19) (21 + 1 - (21 - 19)) ≠ 0 →
        (quotientAtLeast 30 (windowMean volumeSeries (21 - 19) (21 + 1 - (21 - 19)))
            crossingStrategy.config.MinVolumeMultiplier = true ↔
          30 / windowMean volumeSeries (21 - 19) (21 + 1 - (21 - 19))
            ≥ crossingStrategy.config.MinVolumeMultiplier)) :=
  volume_filter crossingStrategy Env.plain [longCandidate] 30 volumeSeries 21
    (by decide) (by decide)

/-- C18, counterexample: on three volumes `[10, 10, 1]` with last index 2 and current volume
1, the ratio to the average 7 is below `MinVolumeMultiplier = 1`, yet the candidate is kept,
with no text appended: fewer than 20 volumes switch the filter off. -/
theorem volume_filter_skipped_on_short_series :
    (2 : Nat) < ([10, 10, 1] : List ℚ).length ∧
      windowMean [10, 10, 1] 0 3 = 7 ∧
      ¬ ((1 : ℚ) / windowMean [10, 10, 1] 0 3 ≥ crossingStrategy.config.MinVolumeMultiplier) ∧
      crossingStrategy.filterByVolume Env.plain [longCandidate] 1 [10, 10, 1] 2
        = some [longCandidate] := by
  decide!

/-- C19: whatever the configuration and the indicator state, a result of `analyzeCrossovers`
holds at most one signal, never both an `entry_long` and an `entry_short`. -/
theorem crossover_at_most_one (m : MACrossoverStrategy) (env : Env) (instrument : String)
    (currentIdx : Int) (currentPrice : ℚ) (currentDate : Time) (sigs : List Signal)
    (h : m.analyzeCrossovers env instrument currentIdx currentPrice currentDate = some sigs) :
    sigs.length ≤ 1 ∧
      ¬ ((∃ s ∈ sigs, s.SignalType = "entry_long") ∧
         (∃ s ∈ sigs, s.SignalType = "entry_short")) := by
  have n1 : ("entry_long" : String) ≠ "entry_short" := by decide
  rcases m.analyzeCrossovers_cases env instrument currentIdx currentPrice currentDate sigs h
    with rfl | ⟨s0, rfl, _⟩
  · exact ⟨by simp, by simp⟩
  · refine ⟨by simp, ?_⟩
    rintro ⟨⟨s1, h1, t1⟩, ⟨s2, h2, t2⟩⟩
    rw [List.mem_singleton] at h1 h2
    rw [h1] at t1
    rw [h2, t1] at t2
    exact n1 t2

/-- C19, witness: the crossing strategy at index 2. -/
theorem crossover_at_most_one_witness :
    crossingSignals.length ≤ 1 ∧
      ¬ ((∃ s ∈ crossingSignals, s.SignalType = "entry_long") ∧
         (∃ s ∈ crossingSignals, s.SignalType = "entry_short")) :=
  crossover_at_most_one crossingStrategy Env.plain "SBER" 2 9 0 crossingSignals (by decide!)

/-- C20, the code at the failing inputs.  With the default parameters (lookback 20, entry 20,
exit 10, ATR period 20) and 20 bars, fewer than the `atrPeriod+1 = 21` the ATR needs, the
analysis returns signals, not the insufficient-data error: an `entry_long` at 15 whose ATR
is the fallback `0`, so its stop-loss is 15 and its position size 0.  With an entry window of
5 days, a lookback of 2 and two bars, it returns an `entry_long` against the fallback
level `0`. -/
theorem turtle_partial_data_not_rejected :
    ((breakoutSeries.length : Int) <
        max (max defaultTurtle.lookbackPeriod defaultTurtle.entryBreakoutDays)
          (max defaultTurtle.exitBreakoutDays (defaultTurtle.atrPeriod + 1))) ∧
      defaultTurtle.AnalyzeInstrument Env.plain "SBER" (Result.ok breakoutSeries)
        = some (Result.ok defaultTurtleSignals) ∧
      defaultTurtleSignals.map signalSummary
        = [("entry_long", 15, 15, 0), ("exit_short", 15, 0, 0)] ∧
      ((([flatCandle 10, flatCandle 12] : List Candle).length : Int) <
        max (max longWindowStrategy.lookbackPeriod longWindowStrategy.entryBreakoutDays)
          (max longWindowStrategy.exitBreakoutDays (longWindowStrategy.atrPeriod + 1))) ∧
      longWindowStrategy.AnalyzeInstrument Env.plain "SBER"
          (Result.ok [flatCandle 10, flatCandle 12])
        = some (Result.ok longWindowSignals) ∧
      longWindowStrategy.calculateBreakout [10, 12] 5 "high" = some 0 ∧
      longWindowSignals.map signalSummary
        = [("entry_long", 12, 8, 500), ("exit_long", 12, 0, 0), ("exit_short", 12, 0, 0)] := by
  decide!

/-- C21, the code on every input and at a failing input.  The volumes and the dates get one
cell per candle, but a price array gets a cell only for a candle that carries a number under
its key: `closes` (and `prices`, its copy), `highs` and `lows` are as long as the number of
candles with a numeric `close`, `high`, `low`.  On three bars at 10, 11, 12 whose second bar
has no `close`, the closes are `[10, 12]` against highs `[10, 11, 12]`: two cells for three
candles, and cell 1 of the closes comes from candle 2. -/
theorem parse_candles_drops_missing_prices (m : MACrossoverStrategy) (env : Env)
    (candles : List Candle) :
    (m.parseCandles env candles).volumes.length = candles.length ∧
    (m.parseCandles env candles).dates.length = candles.length ∧
    (m.parseCandles env candles).prices = (m.parseCandles env candles).closes ∧
    (m.parseCandles env candles).closes.length
      = candles.countP (fun c => isNumber c.close) ∧
    (m.parseCandles env candles).highs.length = candles.countP (fun c => isNumber c.high) ∧
    (m.parseCandles env candles).lows.length = candles.countP (fun c => isNumber c.low) ∧
    (m.parseCandles env [flatCandle 10, candleWithoutClose 11, flatCandle 12]).closes
      = [10, 12] ∧
    (m.parseCandles env [flatCandle 10, candleWithoutClose 11, flatCandle 12]).prices
      = [10, 12] ∧
    (m.parseCandles env [flatCandle 10, candleWithoutClose 11, flatCandle 12]).highs
      = [10, 11, 12] ∧
    (m.parseCandles env [flatCandle 10, candleWithoutClose 11, flatCandle 12]).lows
      = [10, 11, 12] ∧
    (m.parseCandles env [flatCandle 10, candleWithoutClose 11, flatCandle 12]).volumes
      = [0, 0, 0] := by
  obtain ⟨h1, h2, h3, h4, h5, h6⟩ := MACrossoverStrategy.parseCandle_foldl env candles
    { prices := [], highs := [], lows := [], closes := [], volumes := [], dates := [] }
  refine ⟨?_, ?_, ?_, ?_, ?_, ?_, ?_, ?_, ?_, ?_, ?_⟩
  · simpa [MACrossoverStrategy.parseCandles] using h5
  · simpa [MACrossoverStrategy.parseCandles] using h6
  · simp only [MACrossoverStrategy.parseCandles]
    rw [h1, h2]
  · simp only [MACrossoverStrategy.parseCandles]
    rw [h1, List.nil_append, flatMap_appendNumber_length candles (fun c => c.close)]
  · simp only [MACrossoverStrategy.parseCandles]
    rw [h3, List.nil_append, flatMap_appendNumber_length candles (fun c => c.high)]
  · simp only [MACrossoverStrategy.parseCandles]
    rw [h4, List.nil_append, flatMap_appendNumber_length candles (fun c => c.low)]
  · rfl
  · rfl
  · rfl
  · rfl
  · rfl

/-- C22, the code at the failing inputs: once the length check `len(prices) >= SlowPeriod+20`
has passed, a series in which fewer bars carry a `low` than a `high` (at least 15 highs)
makes the pipeline fault: `calculateATR` reads `lows[i]` for every `i < len(highs)`. -/
theorem analysis_faults_on_missing_low (m : MACrossoverStrategy) (env : Env)
    (instrument : String) (candles : List Candle)
    (hlen : m.config.SlowPeriod + 20 ≤ ((m.parseCandles env candles).prices.length : Int))
    (hh : 15 ≤ (m.parseCandles env candles).highs.length)
    (hl : (m.parseCandles env candles).lows.length
      < (m.parseCandles env candles).highs.length) :
    m.Analyze env instrument (Result.ok candles) = none := by
  have hatr : calculateATR (m.parseCandles env candles).highs (m.parseCandles env candles).lows
      (m.parseCandles env candles).closes 14 = none :=
    calculateATR_fault _ _ _ 14 (by decide) (by omega) (by omega) hl
  have hind : m.calculateIndicators (m.parseCandles env candles).prices
      (m.parseCandles env candles).highs (m.parseCandles env candles).lows
      (m.parseCandles env candles).closes (m.parseCandles env candles).volumes
      (m.parseCandles env candles).dates = none := by
    rw [MACrossoverStrategy.calculateIndicators]
    cases m.movingAverages (m.parseCandles env candles).closes with
    | none => rfl
    | some mas => simp only [Option.bind_eq_bind, Option.some_bind, hatr, Option.none_bind]
  simp only [MACrossoverStrategy.Analyze]
  rw [if_neg (by omega), hind]
  rfl

/-- C22, witness and failing input: the crossing configuration (periods 2 and 4) on
twenty-four bars at 10 whose last bar has no `low`: 24 prices pass the check 24 ≥ 4 + 20,
there are 24 highs and 23 lows, and the analysis faults. -/
theorem analysis_faults_on_missing_low_witness :
    crossingStrategy.Analyze Env.plain "SBER" (Result.ok seriesWithoutLastLow) = none :=
  analysis_faults_on_missing_low crossingStrategy Env.plain "SBER" seriesWithoutLastLow
    (by decide!) (by decide!) (by decide!)

/-- C24 (as amended): on the closes `[5,5,5,5,6,7,8,9]` with periods 2 and 4 (SMA mode, golden
cross on, no confirmation, RSI filter on), `calculateIndicators` returns the fast SMA
`[5,5,5,5,5.5,6.5,7.5,8.5]`, the slow SMA `[5,5,5,5,5.25,5.75,6.5,7.5]` and, the series
being shorter than the 15 bars of the 14-period RSI, an RSI of zeros.  The fast SMA overtakes
the slow one at `t = 4` and at no other index; `analyzeCrossovers` yields exactly one
`entry_long` candidate at `t = 4`, at the close 6, and none at any other index.  That
candidate passes the RSI filter with `RSIOverbought = 90` and also with
`RSIOverbought = 10`, since `RSI[4] = 0` lies below both. -/
theorem ma_scenario_one_long_candidate :
    (∀ ob ∈ [(90 : Int), 10],
      MACrossoverStrategy.calculateIndicators { config := scenarioConfig ob, indicators := none }
          scenarioCloses scenarioCloses scenarioCloses scenarioCloses
          (List.replicate 8 0) (List.replicate 8 0) = some (scenarioStrategy ob) ∧
      (scenarioStrategy ob).indicators.map (fun ind => (ind.FastMA, ind.SlowMA, ind.RSI))
        = some ([5, 5, 5, 5, 11 / 2, 13 / 2, 15 / 2, 17 / 2],
                [5, 5, 5, 5, 21 / 4, 23 / 4, 13 / 2, 15 / 2],
                [0, 0, 0, 0, 0, 0, 0, 0]) ∧
      scenarioCandidates ob 4 = some [("entry_long", 6)] ∧
      ∀ t ∈ [(0 : Int), 1, 2, 3, 5, 6, 7], scenarioCandidates ob t = some []) ∧
    (∀ t ∈ [1, 2, 3, 4, 5, 6, 7],
      (([5, 5, 5, 5, 11 / 2, 13 / 2, 15 / 2, 17 / 2] : List ℚ).getD (t - 1) 0
          ≤ ([5, 5, 5, 5, 21 / 4, 23 / 4, 13 / 2, 15 / 2] : List ℚ).getD (t - 1) 0 ∧
        ([5, 5, 5, 5, 11 / 2, 13 / 2, 15 / 2, 17 / 2] : List ℚ).getD t 0
          > ([5, 5, 5, 5, 21 / 4, 23 / 4, 13 / 2, 15 / 2] : List ℚ).getD t 0) ↔ t = 4) := by
  decide!

/-- C24, counterexample: with `RSIOverbought = 10` the long candidate at `t = 4` is not
rejected; the RSI the filter reads there is `0`. -/
theorem restrictive_rsi_keeps_candidate :
    scenarioCandidates 10 4 = some [("entry_long", 6)] ∧
      (scenarioStrategy 10).indicators.map (fun ind => getF ind.RSI 4) = some (some 0) ∧
      (scenarioStrategy 10).config.Filters.RSIFilter = true ∧
      (scenarioStrategy 10).config.Filters.RSIOverbought = 10 := by
  decide!

/-- C25 (as amended): for every `atrPeriod ≥ 1` and aligned highs, lows and closes with more
than `atrPeriod` bars, `TurtleStrategy.calculateATR` is the arithmetic mean of the last
`atrPeriod` true ranges `tr[n-atrPeriod .. n-1]`, a simple moving average and not the Wilder
recurrence; for `atrPeriod = 1` it is the last element of `MathUtils.CalculateATR`. -/
theorem turtle_atr_is_simple_mean (ts : TurtleStrategy) (highs lows closes : List ℚ)
    (hp : 1 ≤ ts.atrPeriod) (hlen : ts.atrPeriod + 1 ≤ (highs.length : Int))
    (hl : lows.length = highs.length) (hc : closes.length = highs.length) :
    ts.calculateATR highs lows closes
      = some (windowMean (trList highs lows closes) (highs.length - ts.atrPeriod.toNat)
          ts.atrPeriod.toNat) ∧
    (ts.atrPeriod = 1 → ∃ out, CalculateATR highs lows closes ts.atrPeriod = some out ∧
      out.getLast? = ts.calculateATR highs lows closes) := by
  have h1 := ts.calculateATR_mean highs lows closes ts.atrPeriod.toNat (by omega) (by omega)
    hl hc
  refine ⟨h1, ?_⟩
  intro hone
  obtain ⟨out, ho, hlast⟩ := calculateATR_one_last highs lows closes (by omega) hl hc
  refine ⟨out, ?_, ?_⟩
  · rw [hone, CalculateATR_eq_calculateATR, ho]
  · rw [hlast, h1, hone]
    have e : (1 : Int).toNat = 1 := rfl
    rw [e, windowMean_one _ _ (by rw [trList_length]; omega)]

/-- C25, witness: an ATR period of one bar (the two-day strategy) on four bars with true
ranges 1, 3, 1. -/
theorem turtle_atr_is_simple_mean_witness :
    twoDayStrategy.calculateATR [1, 2, 4, 2] [1, 1, 1, 1] [1, 1, 1, 1]
      = some (windowMean (trList [1, 2, 4, 2] [1, 1, 1, 1] [1, 1, 1, 1])
          (([1, 2, 4, 2] : List ℚ).length - twoDayStrategy.atrPeriod.toNat)
          twoDayStrategy.atrPeriod.toNat) ∧
    ∃ out, CalculateATR [1, 2, 4, 2] [1, 1, 1, 1] [1, 1, 1, 1] twoDayStrategy.atrPeriod
        = some out ∧
      out.getLast? = twoDayStrategy.calculateATR [1, 2, 4, 2] [1, 1, 1, 1] [1, 1, 1, 1] :=
  ⟨(turtle_atr_is_simple_mean twoDayStrategy [1, 2, 4, 2] [1, 1, 1, 1] [1, 1, 1, 1]
      (by decide) (by decide) rfl rfl).1,
    (turtle_atr_is_simple_mean twoDayStrategy [1, 2, 4, 2] [1, 1, 1, 1] [1, 1, 1, 1]
      (by decide) (by decide) rfl rfl).2 (by decide)⟩

/-- C25, counterexample: with an ATR period of two bars on highs `[1,2,4,2]` over lows and
closes of 1 (true ranges 1, 3, 1), the Turtle ATR is the mean `2` of the last two true
ranges, while the last element of `MathUtils.CalculateATR` is `3/2`. -/
theorem turtle_atr_differs_from_wilder :
    twoBarATRStrategy.calculateATR [1, 2, 4, 2] [1, 1, 1, 1] [1, 1, 1, 1] = some 2 ∧
      CalculateATR [1, 2, 4, 2] [1, 1, 1, 1] [1, 1, 1, 1] twoBarATRStrategy.atrPeriod
        = some [0, 1, 3, 3 / 2] ∧
      ([0, 1, 3, 3 / 2] : List ℚ).getLast? = some (3 / 2) ∧ (2 : ℚ) ≠ 3 / 2 := by
  decide!

/-- C26, the code at the test case.  On the configuration of the test case 'Invalid strategy
timeframe' (Turtle enabled, timeframe `"invalid"`, timeouts left at zero) `ValidateConfig`
stops at `validateTimeouts`, which runs before `validateStrategy`: the error is
"ошибка таймаутов: API timeout должен быть положительным числом", which does not contain
"неверный таймфрейм для стратегии".  Completed with the timeouts and the ATR settings of the
test case 'Valid config', the same timeframe does produce the timeframe error. -/
theorem validate_config_stops_at_timeouts (lower : String → String) :
    ValidateConfig lower invalidTimeframeCase
      = Result.error "ошибка таймаутов: API timeout должен быть положительным числом" ∧
    Contains "ошибка таймаутов: API timeout должен быть положительным числом"
      "неверный таймфрейм для стратегии" = false ∧
    invalidTimeframeCase.Strategy.Turtles.Enabled = true ∧
    invalidTimeframeCase.Strategy.Turtles.Timeframe ∉ ["1", "10", "60", "24", "7", "31"] ∧
    ValidateConfig asciiLower validCaseWithBadTimeframe
      = Result.error "ошибка настроек стратегии: неверный таймфрейм для стратегии: invalid" ∧
    Contains "ошибка настроек стратегии: неверный таймфрейм для стратегии: invalid"
      "неверный таймфрейм для стратегии" = true := by
  have h1 : validateTelegramToken invalidTimeframeCase.Telegram.Token = Result.ok () := by
    decide!
  have h2 : validateURL invalidTimeframeCase.API.URL = Result.ok () := by decide!
  have h3 : validateTimeouts invalidTimeframeCase
      = Result.error "API timeout должен быть положительным числом" := by decide!
  refine ⟨?_, by decide!, by decide!, by decide!, by decide!, by decide!⟩
  simp only [ValidateConfig, h1, h2, h3, checkStep]
  decide!

/-- C27: with `RequireConfirmation ≥ 2`, whatever the averages and the index,
`analyzeCrossovers` returns no signal: every result it returns is empty, and at an index
inside both averages it does return (the crossover condition wants `fastMA[t-1] <= slowMA[t-1]`,
resp. `>=`, the confirmation window the strict opposite at bar `t-1`).  And with
`RequireConfirmation = 1` it returns what it returns with `RequireConfirmation = 0`, the
same signals but for the rationale text, which quotes the number of confirmation bars. -/
theorem confirmation_of_two_bars_blocks_all (m : MACrossoverStrategy) (env : Env)
    (instrument : String) (currentIdx : Int) (currentPrice : ℚ) (currentDate : Time) :
    (2 ≤ m.config.CrossoverTypes.RequireConfirmation →
      (∀ sigs, m.analyzeCrossovers env instrument currentIdx currentPrice currentDate
          = some sigs → sigs = []) ∧
      (∀ ind, m.indicators = some ind → currentIdx < (ind.FastMA.length : Int) →
        currentIdx < (ind.SlowMA.length : Int) →
        m.analyzeCrossovers env instrument currentIdx currentPrice currentDate = some [])) ∧
    ((m.withConfirmation 1).analyzeCrossovers env instrument currentIdx currentPrice
        currentDate).map (List.map withoutReason)
      = ((m.withConfirmation 0).analyzeCrossovers env instrument currentIdx currentPrice
        currentDate).map (List.map withoutReason) := by
  obtain ⟨o1, o2, o3⟩ :=
    m.analyzeCrossovers_outside env instrument currentIdx currentPrice currentDate
  constructor
  · intro hK2
    have inrange : ∀ ind, m.indicators = some ind → currentIdx < (ind.FastMA.length : Int) →
        currentIdx < (ind.SlowMA.length : Int) →
        m.analyzeCrossovers env instrument currentIdx currentPrice currentDate = some [] := by
      intro ind hind hf hs
      by_cases hg : currentIdx < 1 ∨ ind.FastMA.length < 2 ∨ ind.SlowMA.length < 2
      · exact o2 ind hind hg
      · obtain ⟨t, rfl⟩ : ∃ t : Nat, currentIdx = (t : Int) := ⟨currentIdx.toNat, by omega⟩
        obtain ⟨K, hK⟩ : ∃ K : Nat, m.config.CrossoverTypes.RequireConfirmation = (K : Int) :=
          ⟨m.config.CrossoverTypes.RequireConfirmation.toNat, by omega⟩
        obtain ⟨g, d, hg1, hd1, hg2, hd2, _, _⟩ :=
          m.checkConfirmation_bars ind t K hind (by omega) (by omega) hK (by omega)
        obtain ⟨sigs, hres, hty⟩ := m.analyzeCrossovers_types env ind instrument t currentPrice
          currentDate hind (by omega) (by omega) (by omega) g d hg1 hd1
        have c1 : ¬ ((m.config.CrossoverTypes.GoldenCross = true ∧
              ind.FastMA.getD (t - 1) 0 ≤ ind.SlowMA.getD (t - 1) 0 ∧
              ind.FastMA.getD t 0 > ind.SlowMA.getD t 0) ∧ g = true ∧
              (if m.config.Filters.RSIFilter = true then
                (if t < ind.RSI.length then
                  decide (ind.RSI.getD t 0 < (m.config.Filters.RSIOverbought : ℚ)) else false)
               else true) = true) := by
          rintro ⟨⟨_, hle, _⟩, hgt, _⟩
          exact absurd (hg2 hgt 1 (by omega)) (not_lt.mpr hle)
        have c2 : ¬ ((m.config.CrossoverTypes.DeathCross = true ∧
              ind.FastMA.getD (t - 1) 0 ≥ ind.SlowMA.getD (t - 1) 0 ∧
              ind.FastMA.getD t 0 < ind.SlowMA.getD t 0) ∧ d = true ∧
              (if m.config.Filters.RSIFilter = true then
                (if t < ind.RSI.length then
                  decide (ind.RSI.getD t 0 > (m.config.Filters.RSIOversold : ℚ)) else false)
               else true) = true) := by
          rintro ⟨⟨_, hge, _⟩, hdt, _⟩
          exact absurd (hd2 hdt 1 (by omega)) (not_lt.mpr hge)
        rw [if_neg c1, if_neg c2, List.append_nil, List.map_eq_nil_iff] at hty
        rw [hres, hty]
    refine ⟨?_, inrange⟩
    intro sigs hsig
    cases hind : m.indicators with
    | none => rw [o1 hind] at hsig; exact Option.noConfusion hsig
    | some ind =>
      by_cases hg : currentIdx < 1 ∨ ind.FastMA.length < 2 ∨ ind.SlowMA.length < 2
      · rw [o2 ind hind hg] at hsig; exact (Option.some.inj hsig).symm
      · by_cases hout : (ind.FastMA.length : Int) ≤ currentIdx
            ∨ (ind.SlowMA.length : Int) ≤ currentIdx
        · rw [o3 ind hind hg hout] at hsig; exact Option.noConfusion hsig
        · rw [inrange ind hind (by omega) (by omega)] at hsig
          exact (Option.some.inj hsig).symm
  · obtain ⟨p1, p2, p3⟩ := (m.withConfirmation 1).analyzeCrossovers_outside env instrument
      currentIdx currentPrice currentDate
    obtain ⟨q1, q2, q3⟩ := (m.withConfirmation 0).analyzeCrossovers_outside env instrument
      currentIdx currentPrice currentDate
    have i1 : (m.withConfirmation 1).indicators = m.indicators := rfl
    have i0 : (m.withConfirmation 0).indicators = m.indicators := rfl
    cases hind : m.indicators with
    | none => rw [p1 (i1.trans hind), q1 (i0.trans hind)]
    | some ind =>
      by_cases hg : currentIdx < 1 ∨ ind.FastMA.length < 2 ∨ ind.SlowMA.length < 2
      · rw [p2 ind (i1.trans hind) hg, q2 ind (i0.trans hind) hg]
      · by_cases hout : (ind.FastMA.length : Int) ≤ currentIdx
            ∨ (ind.SlowMA.length : Int) ≤ currentIdx
        · rw [p3 ind (i1.trans hind) hg hout, q3 ind (i0.trans hind) hg hout]
        · obtain ⟨t, rfl⟩ : ∃ t : Nat, currentIdx = (t : Int) := ⟨currentIdx.toNat, by omega⟩
          have ht : 1 ≤ t := by omega
          have hf : t < ind.FastMA.length := by omega
          have hs : t < ind.SlowMA.length := by omega
          obtain ⟨g, d, hg1, hd1, hg2, hd2, hg3, hd3⟩ :=
            (m.withConfirmation 1).checkConfirmation_bars ind t 1 (i1.trans hind) hf hs rfl
              (le_refl 1)
          have z1 : (m.withConfirmation 0).checkConfirmation (t : Int) "golden" = some true := by
            simp [MACrossoverStrategy.checkConfirmation, MACrossoverStrategy.withConfirmation]
          have z2 : (m.withConfirmation 0).checkConfirmation (t : Int) "death" = some true := by
            simp [MACrossoverStrategy.checkConfirmation, MACrossoverStrategy.withConfirmation]
          obtain ⟨l1, r1, t1⟩ := (m.withConfirmation 1).analyzeCrossovers_types env ind
            instrument t currentPrice currentDate (i1.trans hind) ht hf hs g d hg1 hd1
          obtain ⟨l0, r0, t0⟩ := (m.withConfirmation 0).analyzeCrossovers_types env ind
            instrument t currentPrice currentDate (i0.trans hind) ht hf hs true true z1 z2
          rw [r1, r0]
          simp only [Option.map_some']
          congr 1
          apply MACrossoverStrategy.analyzeCrossovers_same_types _ _ env instrument (t : Int)
            currentPrice currentDate l1 l0 r1 r0
          rw [t1, t0]
          have hgi : ind.FastMA.getD t 0 > ind.SlowMA.getD t 0 → g = true := by
            intro h
            apply hg3 (by omega)
            intro j hj
            have : j = 0 := by omega
            subst this
            exact h
          have hdi : ind.FastMA.getD t 0 < ind.SlowMA.getD t 0 → d = true := by
            intro h
            apply hd3 (by omega)
            intro j hj
            have : j = 0 := by omega
            subst this
            exact h
          simp only [MACrossoverStrategy.withConfirmation]
          congr 1
          · apply if_congr _ rfl rfl
            constructor
            · rintro ⟨hA, _, hR⟩; exact ⟨hA, by trivial, hR⟩
            · rintro ⟨hA, _, hR⟩; exact ⟨hA, hgi hA.2.2, hR⟩
          · apply if_congr _ rfl rfl
            constructor
            · rintro ⟨hA, _, hR⟩; exact ⟨hA, by trivial, hR⟩
            · rintro ⟨hA, _, hR⟩; exact ⟨hA, hdi hA.2.2, hR⟩

/-- C27, witness: two confirmation bars on the averages `[1,1,3,4]` and `[2,2,2,2]`; at
index 2 the fast average has just crossed above the slow one (1 ≤ 2, then 3 > 2), and the
result is empty. -/
theorem confirmation_of_two_bars_blocks_all_witness :
    twoBarStrategy.indicators.map (fun ind => (ind.FastMA, ind.SlowMA))
        = some ([1, 1, 3, 4], [2, 2, 2, 2]) ∧
      twoBarStrategy.analyzeCrossovers Env.plain "SBER" 2 9 0 = some [] ∧
      ((twoBarStrategy.withConfirmation 0).analyzeCrossovers Env.plain "SBER" 2 9 0).map
          (List.map signalSummary) = some [("entry_long", 9, 0, 0)] :=
  ⟨by decide!,
    ((confirmation_of_two_bars_blocks_all twoBarStrategy Env.plain "SBER" 2 9 0).1
      (by decide)).2 _ rfl (by decide) (by decide),
    by decide!⟩

/-- C29: for candles with `low ≤ close ≤ high` on every bar and
`1 ≤ entryBreakoutDays ≤ len(candles)`, a result of the Turtle analysis holds an `entry_long`
signal only when the latest close equals the latest high and the entry channel high (the
maximum of the last `entryBreakoutDays` highs, which include the current bar), and an
`entry_short` signal only when the latest close equals the latest low and the entry channel
low. -/
theorem entry_only_on_channel_edge (ts : TurtleStrategy) (env : Env) (instrument : String)
    (candles : List Candle) (sigs : List Signal)
    (hwf : ∀ c ∈ candles, TurtleStrategy.floatField c.low ≤ TurtleStrategy.floatField c.close ∧
      TurtleStrategy.floatField c.close ≤ TurtleStrategy.floatField c.high)
    (he : 1 ≤ ts.entryBreakoutDays) (hel : ts.entryBreakoutDays ≤ (candles.length : Int))
    (h : ts.AnalyzeInstrument env instrument (Result.ok candles) = some (Result.ok sigs)) :
    ∃ last, candles.getLast? = some last ∧
      ((∃ s ∈ sigs, s.SignalType = "entry_long") →
        TurtleStrategy.floatField last.close = TurtleStrategy.floatField last.high ∧
        TurtleStrategy.floatField last.close
          = MaxFloat ((candles.map (fun c => TurtleStrategy.floatField c.high)).drop
              (candles.length - ts.entryBreakoutDays.toNat))) ∧
      ((∃ s ∈ sigs, s.SignalType = "entry_short") →
        TurtleStrategy.floatField last.close = TurtleStrategy.floatField last.low ∧
        TurtleStrategy.floatField last.close
          = MinFloat ((candles.map (fun c => TurtleStrategy.floatField c.low)).drop
              (candles.length - ts.entryBreakoutDays.toNat))) := by
  obtain ⟨_, lv, hlv, rfl⟩ := ts.AnalyzeInstrument_ok env instrument candles sigs h
  obtain ⟨hEH, hEL, hcp⟩ := ts.computeLevels_entry env candles lv hlv
  have hn : 1 ≤ candles.length := by omega
  have hi : candles.length - 1 < candles.length := by omega
  obtain ⟨c1, c2, _⟩ := ts.classify_spec env instrument lv
  have hwin := fun (prices : List ℚ) (hp : prices.length = candles.length) =>
    ts.calculateBreakout_window prices ts.entryBreakoutDays he (by rw [hp]; exact hel)
  obtain ⟨lh, wh, _⟩ := hwin (candles.map (fun c => TurtleStrategy.floatField c.high))
    (by simp)
  obtain ⟨ll, _, wl⟩ := hwin (candles.map (fun c => TurtleStrategy.floatField c.low))
    (by simp)
  rw [List.length_map] at lh ll wh wl
  have eH : lv.entryBreakoutHigh = MaxFloat
      ((candles.map (fun c => TurtleStrategy.floatField c.high)).drop
        (candles.length - ts.entryBreakoutDays.toNat)) := Option.some.inj (hEH.symm.trans wh)
  have eL : lv.entryBreakoutLow = MinFloat
      ((candles.map (fun c => TurtleStrategy.floatField c.low)).drop
        (candles.length - ts.entryBreakoutDays.toNat)) := Option.some.inj (hEL.symm.trans wl)
  have eP : lv.currentPrice = TurtleStrategy.floatField (candles[candles.length - 1]).close := by
    have e2 : ((candles.length : Int) - 1) = ((candles.length - 1 : Nat) : Int) := by omega
    rw [e2, getF_nat, List.getElem?_map, List.getElem?_eq_getElem hi] at hcp
    exact (Option.some.inj hcp).symm
  have hmemH := last_mem_drop (candles.map (fun c => TurtleStrategy.floatField c.high))
    ts.entryBreakoutDays.toNat (by omega) (by simp; omega)
  have hmemL := last_mem_drop (candles.map (fun c => TurtleStrategy.floatField c.low))
    ts.entryBreakoutDays.toNat (by omega) (by simp; omega)
  rw [List.length_map, List.getD_eq_getElem?_getD, List.getElem?_map,
    List.getElem?_eq_getElem hi] at hmemH hmemL
  simp only [Option.map_some', Option.getD_some] at hmemH hmemL
  have hneH : (candles.map (fun c => TurtleStrategy.floatField c.high)).drop
      (candles.length - ts.entryBreakoutDays.toNat) ≠ [] := List.ne_nil_of_mem hmemH
  have hneL : (candles.map (fun c => TurtleStrategy.floatField c.low)).drop
      (candles.length - ts.entryBreakoutDays.toNat) ≠ [] := List.ne_nil_of_mem hmemL
  have hw := hwf _ (List.getElem_mem hi)
  refine ⟨candles[candles.length - 1], ?_, ?_, ?_⟩
  · rw [List.getLast?_eq_getElem?, List.getElem?_eq_getElem hi]
  · intro hl
    have h1 : lv.currentPrice ≥ lv.entryBreakoutHigh := c1.mp hl
    have h2 := (MaxFloat_spec _ hneH).2 _ hmemH
    rw [eP, eH] at h1
    exact ⟨le_antisymm hw.2 (le_trans h2 h1), le_antisymm (le_trans hw.2 h2) h1⟩
  · intro hs
    have h1 : lv.currentPrice ≤ lv.entryBreakoutLow := c2.mp hs
    have h2 := (MinFloat_spec _ hneL).2 _ hmemL
    rw [eP, eL] at h1
    exact ⟨le_antisymm (le_trans h1 h2) hw.1, le_antisymm h1 (le_trans h2 hw.1)⟩

/-- C29, witness: the two-day strategy on the flat bars 10, 12 returns an `entry_long`; the
latest close 12 is the latest high and the maximum of the two highs. -/
theorem entry_only_on_channel_edge_witness :
    (∃ s ∈ twoDaySignals, s.SignalType = "entry_long") ∧
    ∃ last, ([flatCandle 10, flatCandle 12] : List Candle).getLast? = some last ∧
      ((∃ s ∈ twoDaySignals, s.SignalType = "entry_long") →
        TurtleStrategy.floatField last.close = TurtleStrategy.floatField last.high ∧
        TurtleStrategy.floatField last.close
          = MaxFloat ((([flatCandle 10, flatCandle 12] : List Candle).map
              (fun c => TurtleStrategy.floatField c.high)).drop
              (([flatCandle 10, flatCandle 12] : List Candle).length
                - twoDayStrategy.entryBreakoutDays.toNat))) ∧
      ((∃ s ∈ twoDaySignals, s.SignalType = "entry_short") →
        TurtleStrategy.floatField last.close = TurtleStrategy.floatField last.low ∧
        TurtleStrategy.floatField last.close
          = MinFloat ((([flatCandle 10, flatCandle 12] : List Candle).map
              (fun c => TurtleStrategy.floatField c.low)).drop
              (([flatCandle 10, flatCandle 12] : List Candle).length
                - twoDayStrategy.entryBreakoutDays.toNat))) :=
  ⟨by decide!,
    entry_only_on_channel_edge twoDayStrategy Env.plain "SBER" [flatCandle 10, flatCandle 12]
      twoDaySignals (by decide!) (by decide) (by decide) (by decide!)⟩

/-- C30, the code at the failing input.  Visited in the order of the source text (`<` before
`&`), the table turns `<` into `&lt;` and then the `&` of that entity into `&amp;`: the
result is `&amp;lt;`, the text escaped twice.  Visited with `&` first, another iteration
order of the same map, the table gives `&lt;`; in that order it replaces each character of
every text exactly once by its entity.  So the output depends on the iteration order. -/
theorem escape_depends_on_iteration_order :
    ampersandFirst.Perm replacements ∧
      (∀ text, escapeSpecialChars ampersandFirst text = escapeOnce text) ∧
      escapeSpecialChars replacements "<" = "&amp;lt;" ∧
      escapeSpecialChars ampersandFirst "<" = "&lt;" ∧
      escapeOnce "<" = "&lt;" ∧
      escapeSpecialChars replacements "<" ≠ escapeSpecialChars ampersandFirst "<" := by
  refine ⟨by decide!, escapeSpecialChars_ampersandFirst, by decide!, by decide!, by decide!,
    by decide!⟩

end MoexBot
